import Mathlib

/-!
# Device simulator session controller (`src/device-sim/script.js`)

A shallow embedding of the session / turn logic of the browser script:
the module-level variables, the WebSocket handlers (`onopen`, `onmessage`,
`onclose`), the completion-detection timers, and the functions that build and
update the assistant audio message (`createOrUpdateAssistantAudioMessage`,
`updateTextDisplayButton`, `toggleTextDisplay`, `resetButtons`, ...).

Modelling conventions.

* The module-level `let` variables and the part of the page the script reads
  back (the children of `#chatMessages`, the four buttons, the volume meter)
  form one record, `State`.  Every handler is a pure function on `State`.
* `Date.now()` is an explicit argument `now` of every handler that reads the
  clock.  Message ids `'msg-' + t`, `'loading-' + t` and `'msg-assistant-' + t`
  are represented by the number `t`; the three id formats never coincide, so an
  id of one format only ever finds an element of the matching kind.
* `setTimeout` / `clearTimeout` act on an explicit list of pending timers;
  handles are positive integers handed out in increasing order.
* A text frame is represented by the result of `JSON.parse` on it (`none` when
  `JSON.parse` throws).  Numbers are integers, printed in decimal as JavaScript
  prints an integer of magnitude below 10^21; fractions and the exponent form
  of larger numbers are outside the model.
* `log` and the status banner of `showStatus` are write-only presentation and
  are not part of the state.  A template literal that is passed to them is
  still evaluated, because converting a value to a string can throw; the one
  banner the claims talk about, the completion notice, is recorded in
  `completionNotices`.
* Microphone capture (`startSpeaking`, the audio graph) and audio playback
  (`playAudioMessage`) are outside the model.
-/

namespace DeviceSim

/-! ## JSON values and the JavaScript conversions the handlers apply to them -/

/-- A value produced by `JSON.parse`. -/
inductive JVal where
  | null
  | bool (b : Bool)
  | num (n : Int)
  | str (s : String)
  | arr (items : List JVal)
  | obj (fields : List (String × JVal))

/-- Property read `v.key` for the keys the script reads (`type`, `text`,
`value`, `message`, `sessionId`); `none` is `undefined`.  Only objects carry
such properties; `fields` lists the own properties of the object, each key
once.  (Reading a property of `null` throws; callers handle `null` before
calling this.) -/
def JVal.get (v : JVal) (key : String) : Option JVal :=
  match v with
  | .obj fields => (fields.find? (fun p => p.1 == key)).map (fun p => p.2)
  | _ => none

/-- JavaScript truthiness of a possibly-undefined JSON value. -/
def truthy : Option JVal → Bool
  | none => false
  | some .null => false
  | some (.bool b) => b
  | some (.num n) => n != 0
  | some (.str s) => s != ""
  | some (.arr _) => true
  | some (.obj _) => true

mutual
/-- JavaScript `ToString` on a parsed JSON value; `none` when the conversion
throws a `TypeError` (an object whose own `toString` property shadows
`Object.prototype.toString` with a non-callable value). -/
def JVal.toJsString : JVal → Option String
  | .null => some "null"
  | .bool b => some (if b then "true" else "false")
  | .num n => some (toString n)
  | .str s => some s
  | .arr items => JVal.joinItems items
  | .obj fields =>
      if fields.any (fun p => p.1 == "toString") then none else some "[object Object]"
/-- The function `Array.prototype.join` with the default separator: `null` elements print as
the empty string. -/
def JVal.joinItems : List JVal → Option String
  | [] => some ""
  | [x] => JVal.itemString x
  | x :: y :: rest =>
      match JVal.itemString x, JVal.joinItems (y :: rest) with
      | some a, some b => some (a ++ "," ++ b)
      | _, _ => none
/-- One element of a joined array. -/
def JVal.itemString : JVal → Option String
  | .null => some ""
  | .bool b => some (if b then "true" else "false")
  | .num n => some (toString n)
  | .str s => some s
  | .arr items => JVal.joinItems items
  | .obj fields =>
      if fields.any (fun p => p.1 == "toString") then none else some "[object Object]"
end

/-- String conversion of a possibly-undefined value, as performed by a template
literal or by `+=` on a string. -/
def jsString : Option JVal → Option String
  | none => some "undefined"
  | some v => v.toJsString

/-! ## Page elements -/

/-- A chunk of bytes (`Uint8Array`); each element is one byte. -/
abbrev Chunk := List Nat

/-- A `Blob` built from a list of parts: its content is their concatenation. -/
structure Blob where
  bytes : List Nat
  deriving DecidableEq, Repr

/-- The call `new Blob(parts, { type: 'audio/mpeg' })`. -/
def Blob.ofParts (parts : List Chunk) : Blob := ⟨parts.flatten⟩

/-- The property `blob.size`. -/
def Blob.size (b : Blob) : Nat := b.bytes.length

/-- Text of the `.audio-icon` span.  Every write is one of these constants. -/
inductive Icon where
  /-- The speaker glyph: ready. -/
  | speaker
  /-- The hourglass glyph of a placeholder message. -/
  | hourglass
  /-- The pause glyph shown while playing. -/
  | pause
  /-- The cross glyph shown after a playback failure. -/
  | cross
  deriving DecidableEq, Repr

/-- Text of the `.audio-duration` span.  Every write is one of these constants. -/
inductive DurationText where
  /-- The caption '生成中...'. -/
  | generating
  /-- The caption '点击播放'. -/
  | clickToPlay
  /-- The caption '播放中...'. -/
  | playing
  /-- The caption '播放失败'. -/
  | failed
  deriving DecidableEq, Repr

/-- The `.message-audio` element of an assistant message. -/
structure AudioDiv where
  /-- The attribute `dataset.audioUrl` (an object-URL handle). -/
  audioUrl : Option Nat
  /-- The URL captured by the `onclick` attribute. -/
  onclickUrl : Option Nat
  icon : Icon
  duration : DurationText
  /-- The style `style.opacity`. -/
  opacity : String
  /-- The style `style.cursor`. -/
  cursor : String
  deriving DecidableEq, Repr

/-- The `.message-text` element: `display` is `style.display`, `content` is the
text it shows (its `innerHTML` is the HTML-escaped form of `content`).  The
template of a new message (lines 220-222) puts the text on a line of its own;
that white space around it, which the page does not render, is left out of
`content`. -/
structure TextDiv where
  display : String
  content : String
  deriving DecidableEq, Repr

/-- Label '显示原文' of the toggle. -/
def showLabel : String := "显示原文"

/-- Label '隐藏原文' of the toggle. -/
def hideLabel : String := "隐藏原文"

/-- An assistant message element, id `'msg-assistant-' + t`.  Both places that
build one give it a `.message-audio` child, so that child always exists. -/
structure AssistantMsg where
  t : Nat
  audio : AudioDiv
  /-- The `.message-text-toggle` child, if present, with the text of its label. -/
  toggle : Option String
  /-- The `.message-text` child, if present. -/
  text : Option TextDiv
  /-- The attribute `dataset.textVisible`. -/
  textVisible : Option String
  deriving DecidableEq, Repr

/-- What the first `div` of a user message shows: the text given to
`addUserMessage`, or the value last assigned to its `textContent` by a
`transcript` message. -/
inductive UserContent where
  | placeholder (text : String)
  | assigned (v : Option JVal)

/-- A child of `#chatMessages`. -/
inductive Element where
  /-- The `.welcome-message` element. -/
  | welcome
  /-- A user message, id `'msg-' + t`. -/
  | user (t : Nat) (content : UserContent)
  /-- The loading indicator, id `'loading-' + t`. -/
  | loading (t : Nat)
  /-- An assistant audio message. -/
  | assistant (m : AssistantMsg)

/-- An element id. -/
inductive MsgId where
  | user (t : Nat)
  | loading (t : Nat)
  | assistant (t : Nat)
  deriving DecidableEq, Repr

/-- Whether the element is a loading indicator (`.message.loading`). -/
def Element.isLoading : Element → Bool
  | .loading _ => true
  | _ => false

/-- Whether the element is the welcome message. -/
def Element.isWelcome : Element → Bool
  | .welcome => true
  | _ => false

/-- Remove the first element satisfying `p` (`querySelector(...)` then `remove()`). -/
def removeFirst (p : Element → Bool) : List Element → List Element
  | [] => []
  | e :: es => if p e then es else e :: removeFirst p es

/-- The call `document.getElementById('msg-assistant-' + t)`: the first such element. -/
def findAssistant (t : Nat) : List Element → Option AssistantMsg
  | [] => none
  | .assistant m :: es => if m.t == t then some m else findAssistant t es
  | _ :: es => findAssistant t es

/-- Apply an in-place update to the element that `findAssistant t` returns. -/
def modifyAssistant (t : Nat) (f : AssistantMsg → AssistantMsg) : List Element → List Element
  | [] => []
  | .assistant m :: es =>
      if m.t == t then .assistant (f m) :: es else .assistant m :: modifyAssistant t f es
  | e :: es => e :: modifyAssistant t f es

/-- Apply an update to the content of the first user message with id `'msg-' + t`. -/
def modifyUser (t : Nat) (f : UserContent → UserContent) : List Element → List Element
  | [] => []
  | .user u c :: es =>
      if u == t then .user u (f c) :: es else .user u c :: modifyUser t f es
  | e :: es => e :: modifyUser t f es

/-! ## Timers and session state -/

/-- Which of the two `setTimeout` calls armed a timer.  The two callbacks differ
only in the text they log. -/
inductive TimerKind where
  /-- Armed by the binary branch of `onmessage`. -/
  | afterChunk
  /-- Armed by `case 'complete'`. -/
  | afterComplete
  deriving DecidableEq, Repr

/-- A pending timeout: its handle and the time at which it becomes due. -/
structure Timer where
  id : Nat
  due : Nat
  kind : TimerKind
  deriving DecidableEq, Repr

/-- The quiet period of the completion detector, in milliseconds. -/
def quietPeriod : Nat := 3000

/-- The module-level variables of the script together with the parts of the
page and of the browser it reads back. -/
structure State where
  audioChunks : List Chunk
  isSpeaking : Bool
  pcmBuffer : List Chunk
  currentUserMessageId : Option Nat
  currentAssistantMessageId : Option Nat
  currentAssistantAudioMessageId : Option Nat
  assistantAudioChunks : List Chunk
  assistantAudioBlob : Option Blob
  assistantTextContent : String
  isAudioComplete : Bool
  /-- The handle last returned by `setTimeout`, or `null`. -/
  audioCompleteTimer : Option Nat
  lastAudioChunkTime : Nat
  isSessionActive : Bool
  /-- Whether `ws && ws.readyState === WebSocket.OPEN`. -/
  wsReady : Bool
  /-- Children of `#chatMessages`, in document order. -/
  chatMessages : List Element
  connectBtnDisabled : Bool
  disconnectBtnDisabled : Bool
  speakBtnDisabled : Bool
  endSpeakBtnDisabled : Bool
  /-- The style `volumeMeter.style.display`. -/
  volumeMeterDisplay : String
  /-- Pending completion timeouts. -/
  timers : List Timer
  /-- The last timer handle handed out. -/
  timerSeq : Nat
  /-- Live object URLs and the blobs they refer to. -/
  objectUrls : List (Nat × Blob)
  /-- The last object-URL handle handed out. -/
  urlSeq : Nat
  /-- Times at which the completion notice
  `showStatus('音频生成完成，可以播放', 'success')` was shown, oldest first. -/
  completionNotices : List Nat
  /-- Timer callbacks that have run, oldest first: time and handle. -/
  firedLog : List (Nat × Nat)

/-- The state when the script has just been loaded: the initial values of the
module-level variables.  The page (`index.html`) is not part of the source
tree; it is taken to show the welcome message, with only the connect button
enabled. -/
def State.initial : State where
  audioChunks := []
  isSpeaking := false
  pcmBuffer := []
  currentUserMessageId := none
  currentAssistantMessageId := none
  currentAssistantAudioMessageId := none
  assistantAudioChunks := []
  assistantAudioBlob := none
  assistantTextContent := ""
  isAudioComplete := false
  audioCompleteTimer := none
  lastAudioChunkTime := 0
  isSessionActive := false
  wsReady := false
  chatMessages := [.welcome]
  connectBtnDisabled := false
  disconnectBtnDisabled := true
  speakBtnDisabled := true
  endSpeakBtnDisabled := true
  volumeMeterDisplay := "none"
  timers := []
  timerSeq := 0
  objectUrls := []
  urlSeq := 0
  completionNotices := []
  firedLog := []

/-! ## Browser primitives -/

/-- The call `setTimeout(callback, 3000)`: a fresh positive handle, due
`quietPeriod` after `now`.  Returns the new state and the handle.  (The
timers of `showStatus` are not modelled; they would only use up handles.) -/
def setTimeout (now : Nat) (kind : TimerKind) (s : State) : State × Nat :=
  ({ s with timers := s.timers ++ [⟨s.timerSeq + 1, now + quietPeriod, kind⟩],
            timerSeq := s.timerSeq + 1 }, s.timerSeq + 1)

/-- The call `clearTimeout(h)`. -/
def clearTimeout (h : Nat) (s : State) : State :=
  { s with timers := s.timers.filter (fun tm => tm.id != h) }

/-- The call `URL.createObjectURL(blob)` on a blob.  Returns the new state and the URL. -/
def createObjectURL (b : Blob) (s : State) : State × Nat :=
  ({ s with objectUrls := s.objectUrls ++ [(s.urlSeq + 1, b)], urlSeq := s.urlSeq + 1 },
   s.urlSeq + 1)

/-- The call `URL.revokeObjectURL(u)`. -/
def revokeObjectURL (u : Nat) (s : State) : State :=
  { s with objectUrls := s.objectUrls.filter (fun p => p.1 != u) }

/-! ## Functions of the script -/

/-- The function `clearWelcomeMessage`. -/
def clearWelcomeMessage (s : State) : State :=
  { s with chatMessages := removeFirst Element.isWelcome s.chatMessages }

/-- The function `addUserMessage(text)`. -/
def addUserMessage (now : Nat) (text : String) (s : State) : State :=
  let s := clearWelcomeMessage s
  { s with currentUserMessageId := some now,
           chatMessages := s.chatMessages ++ [.user now (.placeholder text)] }

/-- The function `showAssistantLoading`. -/
def showAssistantLoading (now : Nat) (s : State) : State :=
  let s := clearWelcomeMessage s
  let s := { s with chatMessages := removeFirst Element.isLoading s.chatMessages }
  { s with currentAssistantMessageId := some now,
           chatMessages := s.chatMessages ++ [.loading now] }

/-- The effect of `updateTextDisplayButton(msgDiv, audioComplete)` on the message element;
`content` is the value of `assistantTextContent`. -/
def updateTextDisplayButton (content : String) (audioComplete : Bool)
    (m : AssistantMsg) : AssistantMsg :=
  let textVisible := m.textVisible == some "true"
  if audioComplete && content != "" && !textVisible then
    { m with
      toggle := some (match m.toggle with
                      | some l => l
                      | none => showLabel),
      text := some ⟨"none", content⟩ }
  else if textVisible && m.text.isSome then
    { m with
      toggle := none,
      text := m.text.map (fun td => { td with display := "block" }) }
  else m

/-- Lines 145-165 of `createOrUpdateAssistantAudioMessage`: point the audio
element at the new URL and turn a placeholder into a playable button. -/
def refreshAudio (url : Nat) (a : AudioDiv) : AudioDiv :=
  { audioUrl := some url,
    onclickUrl := some url,
    icon := if a.icon = Icon.hourglass then Icon.speaker else a.icon,
    duration := if a.duration = DurationText.generating then DurationText.clickToPlay
                else a.duration,
    opacity := if a.opacity = "0.5" then "1" else a.opacity,
    cursor := if a.cursor = "default" then "pointer" else a.cursor }

/-- Lines 134-171 of `createOrUpdateAssistantAudioMessage`: the message `m` with id
`'msg-assistant-' + t` exists and is updated in place.  `audioBlob` is `none`
when the caller passes `null`; `URL.createObjectURL(null)` then throws, and the
result is the state at the moment of the throw. -/
def updateExistingMessage (t : Nat) (m : AssistantMsg) (audioBlob : Option Blob)
    (audioComplete : Bool) (s : State) : State :=
  let s := match m.audio.audioUrl with
           | some u => revokeObjectURL u s
           | none => s
  match audioBlob with
  | none => s
  | some b =>
      let r := createObjectURL b s
      let update := fun (e : AssistantMsg) =>
        updateTextDisplayButton r.1.assistantTextContent audioComplete
          { e with audio := refreshAudio r.2 e.audio }
      { r.1 with chatMessages := modifyAssistant t update r.1.chatMessages }

/-- Lines 203-229 of `createOrUpdateAssistantAudioMessage`: a new message element
is appended.  The id is assigned before `URL.createObjectURL` is called, so
with a `null` blob the throw leaves the id set and no element. -/
def createNewMessage (now : Nat) (audioBlob : Option Blob) (audioComplete : Bool)
    (s : State) : State :=
  let s := { s with currentAssistantAudioMessageId := some now }
  match audioBlob with
  | none => s
  | some b =>
      let r := createObjectURL b s
      let created : AssistantMsg :=
        { t := now,
          audio := { audioUrl := some r.2, onclickUrl := some r.2,
                     icon := Icon.speaker,
                     duration := if audioComplete then DurationText.clickToPlay
                                 else DurationText.generating,
                     opacity := "", cursor := "" },
          toggle := if audioComplete && r.1.assistantTextContent != ""
                    then some showLabel else none,
          text := some ⟨"none", r.1.assistantTextContent⟩,
          textVisible := none }
      { r.1 with chatMessages := r.1.chatMessages ++ [.assistant created],
                 currentAssistantMessageId := none }

/-- The function `createOrUpdateAssistantAudioMessage(audioBlob, audioComplete)`.
(The block that looks for a temporary message, lines 177-200, repeats the
lookup that has just failed and so never finds one.) -/
def createOrUpdateAssistantAudioMessage (now : Nat) (audioBlob : Option Blob)
    (audioComplete : Bool) (s : State) : State :=
  let s := { s with chatMessages := removeFirst Element.isLoading s.chatMessages }
  match s.currentAssistantAudioMessageId with
  | some t =>
      match findAssistant t s.chatMessages with
      | some m => updateExistingMessage t m audioBlob audioComplete s
      | none => createNewMessage now audioBlob audioComplete s
  | none => createNewMessage now audioBlob audioComplete s

/-- The effect of `toggleTextDisplay` on the message element it finds. -/
def toggleMsg (m : AssistantMsg) : AssistantMsg :=
  match m.text with
  | none => m
  | some td =>
      let isCurrentlyVisible := td.display != "none" && td.display != ""
      if !isCurrentlyVisible then
        { m with text := some { td with display := "block" },
                 textVisible := some "true",
                 toggle := m.toggle.map (fun _ => hideLabel) }
      else
        { m with text := some { td with display := "none" },
                 textVisible := some "false",
                 toggle := m.toggle.map (fun _ => showLabel) }

/-- The function `toggleTextDisplay(messageId)`.  User and loading elements have no
`.message-text` child, so only an assistant message is affected. -/
def toggleTextDisplay (id : MsgId) (s : State) : State :=
  match id with
  | .assistant t => { s with chatMessages := modifyAssistant t toggleMsg s.chatMessages }
  | _ => s

/-- The function `resetButtons`. -/
def resetButtons (s : State) : State :=
  { s with connectBtnDisabled := false,
           disconnectBtnDisabled := true,
           speakBtnDisabled := true,
           endSpeakBtnDisabled := true,
           volumeMeterDisplay := "none",
           isSessionActive := false,
           currentUserMessageId := none,
           currentAssistantMessageId := none,
           currentAssistantAudioMessageId := none,
           assistantAudioChunks := [],
           assistantAudioBlob := none }

/-- The function `endSpeaking`, without the teardown of the audio graph. -/
def endSpeaking (now : Nat) (s : State) : State :=
  let s := if s.wsReady then addUserMessage now "🎤 语音消息..." s else s
  { s with isSpeaking := false, speakBtnDisabled := true, endSpeakBtnDisabled := true,
           volumeMeterDisplay := "none", pcmBuffer := [] }

/-- The function `disconnect`.  The call `ws.close()` takes the socket out of the `OPEN`
state; its `onclose` handler runs later, as an event of its own. -/
def disconnect (now : Nat) (s : State) : State :=
  let s := if s.isSpeaking then endSpeaking now s else s
  let s := if s.wsReady then { s with wsReady := false } else s
  resetButtons s

/-- The body shared by the two `setTimeout` callbacks (lines 558-565 and 631-639). -/
def completionCallback (now : Nat) (s : State) : State :=
  if !s.isAudioComplete && s.assistantAudioChunks.length > 0 then
    let s := { s with isAudioComplete := true,
                      completionNotices := s.completionNotices ++ [now] }
    createOrUpdateAssistantAudioMessage now s.assistantAudioBlob true s
  else s

/-- The browser runs the callback of the pending timer with handle `h`, if any. -/
def fireTimer (now : Nat) (h : Nat) (s : State) : State :=
  match s.timers.find? (fun tm => tm.id == h) with
  | none => s
  | some _ =>
      completionCallback now
        { s with timers := s.timers.filter (fun tm => tm.id != h),
                 firedLog := s.firedLog ++ [(now, h)] }

/-- The handler `ws.onopen`. -/
def onOpen (s : State) : State :=
  clearWelcomeMessage
    { s with connectBtnDisabled := true,
             disconnectBtnDisabled := false,
             speakBtnDisabled := false,
             audioChunks := [],
             assistantAudioChunks := [],
             assistantAudioBlob := none,
             assistantTextContent := "",
             currentAssistantAudioMessageId := none,
             currentUserMessageId := none,
             isSessionActive := true,
             wsReady := true }

/-- The statement `if (audioCompleteTimer) clearTimeout(audioCompleteTimer)`; a handle
is truthy when it is not zero. -/
def clearCompletionTimer (s : State) : State :=
  match s.audioCompleteTimer with
  | some h => if h != 0 then clearTimeout h s else s
  | none => s

/-- Lines 611-614: `if (audioCompleteTimer) { clearTimeout(audioCompleteTimer);
audioCompleteTimer = null; }`. -/
def forgetCompletionTimer (s : State) : State :=
  match s.audioCompleteTimer with
  | some h => if h != 0 then { clearTimeout h s with audioCompleteTimer := none } else s
  | none => s

/-- The `case 'intent'` body after its log line: the reset of the reply buffers
(lines 524-528) and `showAssistantLoading()`. -/
def handleIntent (now : Nat) (s : State) : State :=
  showAssistantLoading now
    { s with currentAssistantAudioMessageId := none,
             assistantAudioChunks := [],
             assistantAudioBlob := none,
             assistantTextContent := "",
             isAudioComplete := false }

/-- The `case 'text_chunk'` body.  A truthy `msg.text` is appended by `+=`, which
converts it to a string first (and changes nothing if that conversion
throws).  The log line that follows calls `msg.text.substring`, which throws
when `msg.text` is not a string; by then the assignment has happened, and
the error is caught by the handler, so the state is the same either way. -/
def handleTextChunk (msg : JVal) (s : State) : State :=
  if truthy (msg.get "text") then
    match jsString (msg.get "text") with
    | some d => { s with assistantTextContent := s.assistantTextContent ++ d }
    | none => s
  else s

/-- The `case 'complete'` body. -/
def handleComplete (now : Nat) (s : State) : State :=
  let s := { s with speakBtnDisabled := false,
                    chatMessages := removeFirst Element.isLoading s.chatMessages }
  if s.assistantAudioChunks.length > 0 then
    let s := { s with assistantAudioBlob := some (Blob.ofParts s.assistantAudioChunks) }
    let s := createOrUpdateAssistantAudioMessage now s.assistantAudioBlob false s
    let s := clearCompletionTimer s
    let r := setTimeout now TimerKind.afterComplete s
    { r.1 with audioCompleteTimer := some r.2 }
  else s

/-- The `case 'transcript'` body after its log and status lines. -/
def handleTranscript (msg : JVal) (s : State) : State :=
  match s.currentUserMessageId with
  | some t =>
      { s with chatMessages :=
                 modifyUser t (fun _ => UserContent.assigned (msg.get "text")) s.chatMessages }
  | none => s

/-- The `case 'error'` body after its log and status lines. -/
def handleError (s : State) : State :=
  { s with speakBtnDisabled := false,
           chatMessages := removeFirst Element.isLoading s.chatMessages }

/-- The text branch of `ws.onmessage` (lines 496-586) applied to the result of
`JSON.parse`.  Every exception is caught by the handler and only logged, so a
throw ends the handler with the state reached so far.  Each case first
evaluates a template literal for its log line; if that conversion throws,
the rest of the case does not run. -/
def onTextMessage (now : Nat) (data : Option JVal) (s : State) : State :=
  match data with
  | none => s
  | some JVal.null => s
  | some msg =>
      match jsString (msg.get "type") with
      | none => s
      | some _ =>
          match msg.get "type" with
          | some (JVal.str ty) =>
              if ty = "connected" then
                if (jsString (msg.get "sessionId")).isSome
                then { s with isSessionActive := true } else s
              else if ty = "transcript" then
                if (jsString (msg.get "text")).isSome then handleTranscript msg s else s
              else if ty = "intent" then
                if (jsString (msg.get "value")).isSome then handleIntent now s else s
              else if ty = "text_chunk" then handleTextChunk msg s
              else if ty = "complete" then handleComplete now s
              else if ty = "error" then
                if (jsString (msg.get "message")).isSome then handleError s else s
              else s
          | _ => s

/-- The binary branch of `ws.onmessage` (lines 587-646). -/
def onBinaryMessage (now : Nat) (data : Chunk) (s : State) : State :=
  if data.length > 0 then
    let s := { s with assistantAudioChunks := s.assistantAudioChunks ++ [data],
                      lastAudioChunkTime := now }
    let s := forgetCompletionTimer s
    let s := { s with assistantAudioBlob := some (Blob.ofParts s.assistantAudioChunks) }
    let s := createOrUpdateAssistantAudioMessage now s.assistantAudioBlob false s
    let r := setTimeout now TimerKind.afterChunk s
    { r.1 with audioCompleteTimer := some r.2 }
  else s

/-- The handler `ws.onclose`. -/
def onClose (now : Nat) (s : State) : State :=
  let s := resetButtons { s with isSessionActive := false, wsReady := false }
  let s :=
    if s.assistantAudioChunks.length > 0 && s.currentAssistantAudioMessageId.isNone then
      let s := { s with assistantAudioBlob := some (Blob.ofParts s.assistantAudioChunks) }
      createOrUpdateAssistantAudioMessage now s.assistantAudioBlob false s
    else s
  { s with assistantAudioChunks := [], assistantAudioBlob := none }

/-! ## Events and runs -/

/-- What can happen to the session: the socket opens, delivers a text or a
binary frame, or closes; a pending timer fires; the page calls
`toggleTextDisplay`, `disconnect` or `endSpeaking`. -/
inductive Event where
  | onopen
  | textFrame (data : Option JVal)
  | binaryFrame (data : Chunk)
  | onclose
  | timeout (handle : Nat)
  | toggleText (id : MsgId)
  | disconnect
  | endSpeaking

/-- One event, handled at clock reading `now`. -/
def step (now : Nat) (s : State) : Event → State
  | .onopen => onOpen s
  | .textFrame data => onTextMessage now data s
  | .binaryFrame data => onBinaryMessage now data s
  | .onclose => onClose now s
  | .timeout h => fireTimer now h s
  | .toggleText id => toggleTextDisplay id s
  | .disconnect => disconnect now s
  | .endSpeaking => endSpeaking now s

/-- A sequence of timed events, handled in order. -/
def run (s : State) : List (Nat × Event) → State
  | [] => s
  | (now, e) :: rest => run (step now s e) rest

/-- Whether the event is an `intent` control message. -/
def Event.isIntent : Event → Bool
  | .textFrame (some msg) =>
      (match msg.get "type" with
       | some (JVal.str ty) => ty == "intent"
       | _ => false)
  | _ => false

/-! ## The timer queue under an ideal clock -/

/-- The pending timer that is due first (the earlier-armed one on a tie). -/
def earliest : List Timer → Option Timer
  | [] => none
  | tm :: rest =>
      match earliest rest with
      | none => some tm
      | some r => if tm.due ≤ r.due then some tm else some r

/-- Let the clock reach `t`: every pending timer due at or before `t` fires, at
its due time, earliest first.  At most `fuel` timers fire. -/
def advanceFuel : Nat → Nat → State → State
  | 0, _, s => s
  | fuel + 1, t, s =>
      match earliest s.timers with
      | none => s
      | some tm =>
          if tm.due ≤ t then advanceFuel fuel t (fireTimer tm.due tm.id s) else s

/-- Let the clock reach `t`.  A callback never arms a timer, so the number of
pending timers is enough fuel. -/
def advance (t : Nat) (s : State) : State :=
  advanceFuel s.timers.length t s

/-- A sequence of timed events under the ideal clock: before an event that
arrives at time `t` is handled, every timer due at or before `t` has fired. -/
def play (s : State) : List (Nat × Event) → State
  | [] => s
  | (t, e) :: rest => play (step t (advance t s) e) rest

/-- Build an object with the given `type` and extra fields. -/
def mkMsg (ty : String) (fields : List (String × JVal)) : JVal :=
  JVal.obj (("type", JVal.str ty) :: fields)

/-- An `intent` control message with category `value`. -/
def intentMsg (value : String) : JVal := mkMsg "intent" [("value", JVal.str value)]

/-- A `text_chunk` control message with delta `text`. -/
def textChunkMsg (text : String) : JVal := mkMsg "text_chunk" [("text", JVal.str text)]

/-- The `complete` control message. -/
def completeMsg : JVal := mkMsg "complete" []

/-! ## Vocabulary of the properties -/

/-- Timer discipline: every pending timer is the one whose handle is stored in
`audioCompleteTimer`, handles are positive and were handed out by `setTimeout`,
and at most one timer is pending. -/
def Inv (s : State) : Prop :=
  (∀ tm ∈ s.timers, s.audioCompleteTimer = some tm.id ∧ tm.id ≠ 0 ∧ tm.id ≤ s.timerSeq) ∧
  s.timers.length ≤ 1

instance (s : State) : Decidable (Inv s) := by
  unfold Inv
  infer_instance

/-- The non-empty binary frames among a sequence of events, in arrival order. -/
def nonEmptyFrames : List (Nat × Event) → List Chunk
  | [] => []
  | (_, .binaryFrame d) :: rest =>
      if d.length > 0 then d :: nonEmptyFrames rest else nonEmptyFrames rest
  | _ :: rest => nonEmptyFrames rest

/-- Whether the event is a binary frame or a timer firing. -/
def Event.isFrameOrTimeout : Event → Bool
  | .binaryFrame _ => true
  | .timeout _ => true
  | _ => false

/-- Number of steps of the run at which `isAudioComplete` goes from `false` to `true`. -/
def risingEdges (s : State) : List (Nat × Event) → Nat
  | [] => 0
  | (now, e) :: rest =>
      (if !s.isAudioComplete && (step now s e).isAudioComplete then 1 else 0)
        + risingEdges (step now s e) rest

/-- Binary frames as events. -/
def chunkEvents (cs : List (Nat × Chunk)) : List (Nat × Event) :=
  cs.map (fun p => (p.1, Event.binaryFrame p.2))

/-- The frames of one reply after its intent: the audio chunks, then the control
message `cmsg` at time `tc`. -/
def turnFrames (chunks : List (Nat × Chunk)) (tc : Nat) (cmsg : JVal) : List (Nat × Event) :=
  chunkEvents chunks ++ [(tc, Event.textFrame (some cmsg))]

/-- Each arrival in the list is no earlier than the previous one (the first is
compared with `t`) and less than the quiet period after it. -/
def spaced : Nat → List (Nat × Chunk) → Prop
  | _, [] => True
  | t, (u, _) :: rest => t ≤ u ∧ u < t + quietPeriod ∧ spaced u rest

instance (t : Nat) (cs : List (Nat × Chunk)) : Decidable (spaced t cs) := by
  induction cs generalizing t with
  | nil => exact isTrue trivial
  | cons p rest ih =>
      unfold spaced
      exact inferInstanceAs (Decidable (_ ∧ _ ∧ _))

/-- Arrival time of the last chunk of the list, or `t` if the list is empty. -/
def lastTime : Nat → List (Nat × Chunk) → Nat
  | t, [] => t
  | _, (u, _) :: rest => lastTime u rest

/-- The timer with handle `h` can no longer complete a turn: the timer discipline
holds, `h` is an old handle, and as long as `h` is still pending the chunk
buffer is empty. -/
def Defused (h : Nat) (a : State) : Prop :=
  Inv a ∧ h ≤ a.timerSeq ∧ ((∃ x ∈ a.timers, x.id = h) → a.assistantAudioChunks = [])

/-- The completion detector is armed from time `t`: exactly one timer is pending,
it is due one quiet period after `t`, its handle is the one stored in
`audioCompleteTimer`, and the chunk buffer is not empty. -/
def Armed (t : Nat) (a : State) : Prop :=
  ∃ tm : Timer, a.timers = [tm] ∧ tm.due = t + quietPeriod ∧
    a.audioCompleteTimer = some tm.id ∧ tm.id ≠ 0 ∧ tm.id ≤ a.timerSeq ∧
    a.assistantAudioChunks ≠ []

/-- The chunk buffer is non-empty only while `currentAssistantAudioMessageId` is
set: the state that the test on line 655 looks for, a non-empty buffer with a
null id, is the negation of this. -/
def Coupled (s : State) : Prop :=
  s.assistantAudioChunks ≠ [] → s.currentAssistantAudioMessageId.isSome = true

/-- Whether the value is a string. -/
def isString : Option JVal → Bool
  | some (JVal.str _) => true
  | _ => false

/-- Whether handling the text frame raises an error inside the `try` block of
`ws.onmessage` (lines 497-583), which the `catch` on line 584 then catches.
The places that can throw are: `JSON.parse`; reading `msg.type` of `null`; the
template literal of a log line, when the value it prints does not convert to
a string; and in `case 'text_chunk'`, for a truthy `msg.text`, the `+=` (same
conversion) and the call `msg.text.substring`, which exists only on a
string. -/
def raisesError : Option JVal → Bool
  | none => true
  | some JVal.null => true
  | some msg =>
      match jsString (msg.get "type") with
      | none => true
      | some _ =>
          match msg.get "type" with
          | some (JVal.str ty) =>
              if ty = "connected" then (jsString (msg.get "sessionId")).isNone
              else if ty = "transcript" then (jsString (msg.get "text")).isNone
              else if ty = "intent" then (jsString (msg.get "value")).isNone
              else if ty = "text_chunk" then
                truthy (msg.get "text") && !isString (msg.get "text")
              else if ty = "error" then (jsString (msg.get "message")).isNone
              else false
          | _ => false

/-- Whether the text of the message is showing, as `toggleTextDisplay` computes it
(`isCurrentlyVisible`). -/
def AssistantMsg.textShown (m : AssistantMsg) : Bool :=
  match m.text with
  | some td => td.display != "none" && td.display != ""
  | none => false

/-- The element of the current assistant audio message, if there is one. -/
def currentMsg (s : State) : Option AssistantMsg :=
  s.currentAssistantAudioMessageId.bind (fun t => findAssistant t s.chatMessages)

/-- The assistant message elements of the page, in document order. -/
def assistants : List Element → List AssistantMsg
  | [] => []
  | .assistant m :: es => m :: assistants es
  | _ :: es => assistants es

/-- The message has been offered for reading: it carries a toggle button, shows
its text, or is marked `data-text-visible="true"`. -/
def AssistantMsg.revealed (m : AssistantMsg) : Bool :=
  m.toggle.isSome || m.textShown || m.textVisible == some "true"

/-- What the browser can deliver at clock reading `now`: a timer callback runs no
earlier than the timer is due, and `toggleTextDisplay` is called by the
toggle button of a message, so only for a message that carries one.  Every
other event can come at any time. -/
def permitted (s : State) (now : Nat) : Event → Bool
  | .timeout h => s.timers.all (fun tm => tm.id != h || decide (tm.due ≤ now))
  | .toggleText (.assistant t) =>
      (match findAssistant t s.chatMessages with
       | some m => m.toggle.isSome
       | none => false)
  | .toggleText _ => false
  | _ => true

/-- A run the browser can produce from state `s` when the clock reads `clock`:
clock readings never decrease and every event is permitted when it happens. -/
def validRun : Nat → State → List (Nat × Event) → Bool
  | _, _, [] => true
  | clock, s, (now, e) :: rest =>
      decide (clock ≤ now) && permitted s now e && validRun now (step now s e) rest

/-- The message ids on which `toggleTextDisplay` is called during a run. -/
def toggledIds : List (Nat × Event) → List Nat
  | [] => []
  | (_, .toggleText (.assistant t)) :: rest => t :: toggledIds rest
  | _ :: rest => toggledIds rest

/-- The facts that keep the reply text behind audio completion, at clock reading
`clock`, when `toggleTextDisplay` has been called on the ids in `toggled`. -/
structure TextGate (clock : Nat) (toggled : List Nat) (s : State) : Prop where
  /-- The timer discipline. -/
  inv : Inv s
  /-- The current message was created in the past. -/
  cur_le : ∀ t, s.currentAssistantAudioMessageId = some t → t ≤ clock
  /-- A pending timer is due at least one quiet period after the current
  message was created. -/
  due : ∀ tm ∈ s.timers, ∀ t, s.currentAssistantAudioMessageId = some t →
    t + quietPeriod ≤ tm.due
  /-- Buffered chunks belong to a message that is on the page. -/
  chunks : s.assistantAudioChunks ≠ [] →
    ∃ t m, s.currentAssistantAudioMessageId = some t ∧
      findAssistant t s.chatMessages = some m
  /-- A message offered for reading is at least one quiet period old. -/
  old : ∀ m ∈ assistants s.chatMessages, m.revealed = true → m.t + quietPeriod ≤ clock
  /-- The current message is offered for reading only when the audio is complete. -/
  gated : ∀ t m, s.currentAssistantAudioMessageId = some t →
    findAssistant t s.chatMessages = some m → m.revealed = true → s.isAudioComplete = true
  /-- Text shows only on a message on which `toggleTextDisplay` has been called. -/
  hist : ∀ m ∈ assistants s.chatMessages,
    (m.textShown = true ∨ m.textVisible = some "true") → m.t ∈ toggled

/-! ## Basic facts about the handlers -/

theorem updateExistingMessage_frame (t : Nat) (m : AssistantMsg) (b : Option Blob) (c : Bool)
    (s : State) :
    ∃ cm ou us,
      updateExistingMessage t m b c s =
        { s with chatMessages := cm, objectUrls := ou, urlSeq := us } := by
  unfold updateExistingMessage
  dsimp only
  split <;> split <;> exact ⟨_, _, _, rfl⟩

theorem createNewMessage_frame (now : Nat) (b : Option Blob) (c : Bool) (s : State) :
    ∃ cm cam ou us,
      createNewMessage now b c s =
        { s with chatMessages := cm, currentAssistantAudioMessageId := some now,
                 currentAssistantMessageId := cam, objectUrls := ou, urlSeq := us } := by
  unfold createNewMessage
  dsimp only
  split <;> exact ⟨_, _, _, _, rfl⟩

theorem createOrUpdate_frame (now : Nat) (b : Option Blob) (c : Bool) (s : State) :
    ∃ cm ca cam ou us,
      createOrUpdateAssistantAudioMessage now b c s =
        { s with chatMessages := cm, currentAssistantAudioMessageId := ca,
                 currentAssistantMessageId := cam, objectUrls := ou, urlSeq := us } := by
  unfold createOrUpdateAssistantAudioMessage
  dsimp only
  split
  · split
    · obtain ⟨cm, ou, us, h⟩ := updateExistingMessage_frame _ _ b c
        { s with chatMessages := removeFirst Element.isLoading s.chatMessages }
      rw [h]
      exact ⟨_, _, _, _, _, rfl⟩
    · obtain ⟨cm, cam, ou, us, h⟩ := createNewMessage_frame now b c
        { s with chatMessages := removeFirst Element.isLoading s.chatMessages }
      rw [h]
      exact ⟨_, _, _, _, _, rfl⟩
  · obtain ⟨cm, cam, ou, us, h⟩ := createNewMessage_frame now b c
      { s with chatMessages := removeFirst Element.isLoading s.chatMessages }
    rw [h]
    exact ⟨_, _, _, _, _, rfl⟩

@[simp] theorem createOrUpdate_chunks (now : Nat) (b : Option Blob) (c : Bool) (s : State) :
    (createOrUpdateAssistantAudioMessage now b c s).assistantAudioChunks
      = s.assistantAudioChunks := by
  obtain ⟨_, _, _, _, _, h⟩ := createOrUpdate_frame now b c s
  rw [h]

@[simp] theorem createOrUpdate_blob (now : Nat) (b : Option Blob) (c : Bool) (s : State) :
    (createOrUpdateAssistantAudioMessage now b c s).assistantAudioBlob
      = s.assistantAudioBlob := by
  obtain ⟨_, _, _, _, _, h⟩ := createOrUpdate_frame now b c s
  rw [h]

@[simp] theorem createOrUpdate_complete (now : Nat) (b : Option Blob) (c : Bool) (s : State) :
    (createOrUpdateAssistantAudioMessage now b c s).isAudioComplete = s.isAudioComplete := by
  obtain ⟨_, _, _, _, _, h⟩ := createOrUpdate_frame now b c s
  rw [h]

@[simp] theorem createOrUpdate_text (now : Nat) (b : Option Blob) (c : Bool) (s : State) :
    (createOrUpdateAssistantAudioMessage now b c s).assistantTextContent
      = s.assistantTextContent := by
  obtain ⟨_, _, _, _, _, h⟩ := createOrUpdate_frame now b c s
  rw [h]

@[simp] theorem createOrUpdate_timers (now : Nat) (b : Option Blob) (c : Bool) (s : State) :
    (createOrUpdateAssistantAudioMessage now b c s).timers = s.timers := by
  obtain ⟨_, _, _, _, _, h⟩ := createOrUpdate_frame now b c s
  rw [h]

@[simp] theorem createOrUpdate_timerSeq (now : Nat) (b : Option Blob) (c : Bool) (s : State) :
    (createOrUpdateAssistantAudioMessage now b c s).timerSeq = s.timerSeq := by
  obtain ⟨_, _, _, _, _, h⟩ := createOrUpdate_frame now b c s
  rw [h]

@[simp] theorem createOrUpdate_timerVar (now : Nat) (b : Option Blob) (c : Bool) (s : State) :
    (createOrUpdateAssistantAudioMessage now b c s).audioCompleteTimer
      = s.audioCompleteTimer := by
  obtain ⟨_, _, _, _, _, h⟩ := createOrUpdate_frame now b c s
  rw [h]

@[simp] theorem createOrUpdate_notices (now : Nat) (b : Option Blob) (c : Bool) (s : State) :
    (createOrUpdateAssistantAudioMessage now b c s).completionNotices
      = s.completionNotices := by
  obtain ⟨_, _, _, _, _, h⟩ := createOrUpdate_frame now b c s
  rw [h]

@[simp] theorem createOrUpdate_firedLog (now : Nat) (b : Option Blob) (c : Bool) (s : State) :
    (createOrUpdateAssistantAudioMessage now b c s).firedLog = s.firedLog := by
  obtain ⟨_, _, _, _, _, h⟩ := createOrUpdate_frame now b c s
  rw [h]

theorem onBinary_empty (now : Nat) (s : State) : onBinaryMessage now [] s = s := by
  simp [onBinaryMessage]

theorem forgetCompletionTimer_frame (s : State) :
    ∃ tms v, forgetCompletionTimer s = { s with timers := tms, audioCompleteTimer := v } := by
  unfold forgetCompletionTimer
  split
  · split
    · exact ⟨_, _, rfl⟩
    · exact ⟨s.timers, s.audioCompleteTimer, rfl⟩
  · exact ⟨s.timers, s.audioCompleteTimer, rfl⟩

theorem clearCompletionTimer_frame (s : State) :
    ∃ tms, clearCompletionTimer s = { s with timers := tms } := by
  unfold clearCompletionTimer
  split
  · split
    · exact ⟨_, rfl⟩
    · exact ⟨s.timers, rfl⟩
  · exact ⟨s.timers, rfl⟩

/-- The binary branch on a non-empty frame, step by step. -/
theorem onBinary_eq (now : Nat) (d : Chunk) (s : State) (hd : d ≠ []) :
    onBinaryMessage now d s =
      { (setTimeout now TimerKind.afterChunk
          (createOrUpdateAssistantAudioMessage now
            (some (Blob.ofParts (s.assistantAudioChunks ++ [d]))) false
            { forgetCompletionTimer
                { s with assistantAudioChunks := s.assistantAudioChunks ++ [d],
                         lastAudioChunkTime := now } with
              assistantAudioBlob := some (Blob.ofParts (s.assistantAudioChunks ++ [d])) })).1
        with audioCompleteTimer := some (s.timerSeq + 1) } := by
  have hpos : 0 < d.length := List.length_pos.mpr hd
  obtain ⟨tms, v, hf⟩ := forgetCompletionTimer_frame
    { s with assistantAudioChunks := s.assistantAudioChunks ++ [d], lastAudioChunkTime := now }
  unfold onBinaryMessage
  simp only [gt_iff_lt, hpos, if_true]
  rw [hf]
  simp [setTimeout]

theorem onBinary_chunks (now : Nat) (d : Chunk) (s : State) (hd : d ≠ []) :
    (onBinaryMessage now d s).assistantAudioChunks = s.assistantAudioChunks ++ [d] := by
  obtain ⟨tms, v, hf⟩ := forgetCompletionTimer_frame
    { s with assistantAudioChunks := s.assistantAudioChunks ++ [d], lastAudioChunkTime := now }
  rw [onBinary_eq now d s hd, hf]
  simp [setTimeout]

theorem onBinary_blob (now : Nat) (d : Chunk) (s : State) (hd : d ≠ []) :
    (onBinaryMessage now d s).assistantAudioBlob
      = some (Blob.ofParts (s.assistantAudioChunks ++ [d])) := by
  rw [onBinary_eq now d s hd]
  simp [setTimeout]

theorem completionCallback_chunks (now : Nat) (s : State) :
    (completionCallback now s).assistantAudioChunks = s.assistantAudioChunks := by
  unfold completionCallback
  split <;> simp

theorem fireTimer_chunks (now h : Nat) (s : State) :
    (fireTimer now h s).assistantAudioChunks = s.assistantAudioChunks := by
  unfold fireTimer
  split
  · rfl
  · rw [completionCallback_chunks]

theorem run_append (s : State) (es fs : List (Nat × Event)) :
    run s (es ++ fs) = run (run s es) fs := by
  induction es generalizing s with
  | nil => rfl
  | cons p rest ih =>
      obtain ⟨now, e⟩ := p
      simp only [List.cons_append, run]
      exact ih _

theorem nonEmptyFrames_append (es fs : List (Nat × Event)) :
    nonEmptyFrames (es ++ fs) = nonEmptyFrames es ++ nonEmptyFrames fs := by
  induction es with
  | nil => rfl
  | cons p rest ih =>
      obtain ⟨now, e⟩ := p
      cases e with
      | binaryFrame d =>
          simp only [List.cons_append, nonEmptyFrames]
          split <;> simp [ih]
      | _ => simpa only [List.cons_append, nonEmptyFrames] using ih

theorem run_chunks (es : List (Nat × Event)) (s : State)
    (hes : ∀ p ∈ es, p.2.isFrameOrTimeout = true) :
    (run s es).assistantAudioChunks = s.assistantAudioChunks ++ nonEmptyFrames es := by
  induction es generalizing s with
  | nil => simp [run, nonEmptyFrames]
  | cons p rest ih =>
      obtain ⟨now, e⟩ := p
      have hrest : ∀ p ∈ rest, p.2.isFrameOrTimeout = true :=
        fun p hp => hes p (List.mem_cons_of_mem _ hp)
      have he : e.isFrameOrTimeout = true := hes (now, e) (List.mem_cons_self _ _)
      cases e with
      | binaryFrame d =>
          simp only [run, step, nonEmptyFrames]
          rw [ih _ hrest]
          by_cases hd : d = []
          · subst hd
            simp [onBinary_empty]
          · have hpos : 0 < d.length := List.length_pos.mpr hd
            simp [onBinary_chunks now d s hd, hpos]
      | timeout h =>
          simp only [run, step, nonEmptyFrames]
          rw [ih _ hrest, fireTimer_chunks]
      | _ => simp [Event.isFrameOrTimeout] at he

theorem Blob.size_ofParts (parts : List Chunk) :
    (Blob.ofParts parts).size = (parts.map List.length).sum := by
  simp [Blob.ofParts, Blob.size, List.length_flatten]

/-! ## The chunk buffer and the artifact -/

/-- C1. Starting from an empty chunk buffer, after any sequence of binary
frames (with timer firings in between) that ends in a non-empty frame,
the chunk buffer holds exactly the non-empty frames received, in order,
and the artifact `assistantAudioBlob` has size equal to the sum of their
lengths. -/
theorem artifact_size_is_sum_of_frames (s : State) (h0 : s.assistantAudioChunks = [])
    (es : List (Nat × Event)) (hes : ∀ p ∈ es, p.2.isFrameOrTimeout = true)
    (t : Nat) (c : Chunk) (hc : c ≠ []) :
    (run s (es ++ [(t, Event.binaryFrame c)])).assistantAudioChunks
        = nonEmptyFrames (es ++ [(t, Event.binaryFrame c)]) ∧
    (run s (es ++ [(t, Event.binaryFrame c)])).assistantAudioBlob.map Blob.size
        = some ((nonEmptyFrames (es ++ [(t, Event.binaryFrame c)])).map List.length).sum := by
  have hpos : 0 < c.length := List.length_pos.mpr hc
  have hlast : nonEmptyFrames [(t, Event.binaryFrame c)] = [c] := by
    simp [nonEmptyFrames, hpos]
  rw [run_append, nonEmptyFrames_append, hlast]
  simp only [run, step]
  rw [onBinary_chunks _ _ _ hc, onBinary_blob _ _ _ hc, run_chunks es s hes, h0]
  simp [Blob.size_ofParts]

/-- Witness for C1: after an intent, frames of 100, 250 and 80 bytes give an
artifact of 430 bytes. -/
theorem artifact_size_is_sum_of_frames_witness :
    (run (step 0 State.initial (Event.textFrame (some (intentMsg "chat"))))
        ([(10, Event.binaryFrame (List.replicate 100 0)),
          (510, Event.binaryFrame (List.replicate 250 0))]
          ++ [(1010, Event.binaryFrame (List.replicate 80 0))])).assistantAudioBlob.map
        Blob.size = some 430 := by
  have h := (artifact_size_is_sum_of_frames
    (step 0 State.initial (Event.textFrame (some (intentMsg "chat")))) (by rfl)
    [(10, Event.binaryFrame (List.replicate 100 0)),
     (510, Event.binaryFrame (List.replicate 250 0))]
    (by decide) 1010 (List.replicate 80 0) (by decide)).2
  rw [h]
  simp [nonEmptyFrames]

/-! ## The completion flag -/

theorem onBinary_complete (now : Nat) (d : Chunk) (s : State) :
    (onBinaryMessage now d s).isAudioComplete = s.isAudioComplete := by
  by_cases hd : d = []
  · subst hd
    rw [onBinary_empty]
  · obtain ⟨tms, v, hf⟩ := forgetCompletionTimer_frame
      { s with assistantAudioChunks := s.assistantAudioChunks ++ [d],
               lastAudioChunkTime := now }
    rw [onBinary_eq now d s hd, hf]
    simp [setTimeout]

theorem clearCompletionTimer_complete (s : State) :
    (clearCompletionTimer s).isAudioComplete = s.isAudioComplete := by
  obtain ⟨tms, hf⟩ := clearCompletionTimer_frame s
  rw [hf]

theorem handleComplete_complete (now : Nat) (s : State) :
    (handleComplete now s).isAudioComplete = s.isAudioComplete := by
  unfold handleComplete
  dsimp only
  split
  · simp [setTimeout, clearCompletionTimer_complete]
  · rfl

theorem handleTextChunk_complete (msg : JVal) (s : State) :
    (handleTextChunk msg s).isAudioComplete = s.isAudioComplete := by
  unfold handleTextChunk
  split
  · split <;> rfl
  · rfl

theorem handleTranscript_complete (msg : JVal) (s : State) :
    (handleTranscript msg s).isAudioComplete = s.isAudioComplete := by
  unfold handleTranscript
  split <;> rfl

theorem onText_complete_of_not_intent (now : Nat) (data : Option JVal) (s : State)
    (h : (Event.textFrame data).isIntent = false) :
    (onTextMessage now data s).isAudioComplete = s.isAudioComplete := by
  unfold onTextMessage
  split
  · rfl
  · rfl
  · rename_i msg _
    split
    · rfl
    · split
      · rename_i ty hty
        have hne : ¬ ty = "intent" := by
          intro hi
          simp [Event.isIntent, hty, hi] at h
        simp only [hne, if_false]
        split_ifs <;>
          first
          | rfl
          | exact handleTranscript_complete _ _
          | exact handleTextChunk_complete _ _
          | exact handleComplete_complete _ _
      · rfl

theorem onClose_complete (now : Nat) (s : State) :
    (onClose now s).isAudioComplete = s.isAudioComplete := by
  unfold onClose
  dsimp only
  split <;> simp [resetButtons]

theorem endSpeaking_complete (now : Nat) (s : State) :
    (endSpeaking now s).isAudioComplete = s.isAudioComplete := by
  unfold endSpeaking
  dsimp only
  split <;> simp [addUserMessage, clearWelcomeMessage]

theorem disconnect_complete (now : Nat) (s : State) :
    (disconnect now s).isAudioComplete = s.isAudioComplete := by
  unfold disconnect
  dsimp only
  split <;> split <;> simp [resetButtons, endSpeaking_complete]

theorem toggleTextDisplay_complete (id : MsgId) (s : State) :
    (toggleTextDisplay id s).isAudioComplete = s.isAudioComplete := by
  unfold toggleTextDisplay
  split <;> rfl

theorem completionCallback_complete_of_complete (now : Nat) (s : State)
    (h : s.isAudioComplete = true) : (completionCallback now s).isAudioComplete = true := by
  unfold completionCallback
  split
  · simp
  · exact h

theorem fireTimer_complete_of_complete (now h : Nat) (s : State)
    (hc : s.isAudioComplete = true) : (fireTimer now h s).isAudioComplete = true := by
  unfold fireTimer
  split
  · exact hc
  · exact completionCallback_complete_of_complete _ _ hc

/-- Outside of an intent message the completion flag never falls. -/
theorem step_complete_of_complete (now : Nat) (s : State) (e : Event)
    (he : e.isIntent = false) (hc : s.isAudioComplete = true) :
    (step now s e).isAudioComplete = true := by
  cases e with
  | onopen => simpa [step, onOpen, clearWelcomeMessage] using hc
  | textFrame data => simpa [step, onText_complete_of_not_intent now data s he] using hc
  | binaryFrame d => simpa [step, onBinary_complete] using hc
  | onclose => simpa [step, onClose_complete] using hc
  | timeout h => exact fireTimer_complete_of_complete now h s hc
  | toggleText id => simpa [step, toggleTextDisplay_complete] using hc
  | disconnect => simpa [step, disconnect_complete] using hc
  | endSpeaking => simpa [step, endSpeaking_complete] using hc

theorem risingEdges_of_complete (es : List (Nat × Event)) (s : State)
    (hes : ∀ p ∈ es, p.2.isIntent = false) (hc : s.isAudioComplete = true) :
    risingEdges s es = 0 := by
  induction es generalizing s with
  | nil => rfl
  | cons p rest ih =>
      obtain ⟨now, e⟩ := p
      have he : e.isIntent = false := hes (now, e) (List.mem_cons_self _ _)
      have hrest : ∀ p ∈ rest, p.2.isIntent = false :=
        fun p hp => hes p (List.mem_cons_of_mem _ hp)
      simp only [risingEdges, hc, Bool.not_true, Bool.false_and]
      simpa using ih _ hrest (step_complete_of_complete now s e he hc)

/-- C2. The completion flag `isAudioComplete` goes from `true` to `false` only
while an intent message is handled, and over any sequence of events that
contains no intent message it goes from `false` to `true` at most once. -/
theorem completion_flag_monotone (s : State) :
    (∀ (now : Nat) (e : Event), s.isAudioComplete = true →
        (step now s e).isAudioComplete = false → e.isIntent = true) ∧
    (∀ es : List (Nat × Event), (∀ p ∈ es, p.2.isIntent = false) → risingEdges s es ≤ 1) := by
  constructor
  · intro now e hc hf
    by_contra hne
    have he : e.isIntent = false := by simpa using hne
    rw [step_complete_of_complete now s e he hc] at hf
    exact Bool.noConfusion hf
  · intro es
    induction es generalizing s with
    | nil => intro _; simp [risingEdges]
    | cons p rest ih =>
        intro hes
        obtain ⟨now, e⟩ := p
        have he : e.isIntent = false := hes (now, e) (List.mem_cons_self _ _)
        have hrest : ∀ p ∈ rest, p.2.isIntent = false :=
          fun p hp => hes p (List.mem_cons_of_mem _ hp)
        simp only [risingEdges]
        by_cases hc : (step now s e).isAudioComplete = true
        · rw [risingEdges_of_complete rest _ hrest hc]
          split <;> simp
        · have := ih (step now s e) hrest
          simp only [hc, Bool.and_false]
          simpa using this

/-! ## Control messages -/

theorem jsString_str (x : String) : jsString (some (JVal.str x)) = some x := by
  simp [jsString, JVal.toJsString]

/-- A well-formed intent message runs the intent case. -/
theorem onText_intent (now : Nat) (msg : JVal) (s : State)
    (hty : msg.get "type" = some (JVal.str "intent"))
    (hval : (jsString (msg.get "value")).isSome = true) :
    onTextMessage now (some msg) s = handleIntent now s := by
  cases msg with
  | obj fields =>
      simp only [onTextMessage]
      rw [hty] at *
      simp [jsString_str, hval]
  | _ => simp [JVal.get] at hty

/-- A text_chunk message runs the text_chunk case. -/
theorem onText_textChunk (now : Nat) (msg : JVal) (s : State)
    (hty : msg.get "type" = some (JVal.str "text_chunk")) :
    onTextMessage now (some msg) s = handleTextChunk msg s := by
  cases msg with
  | obj fields =>
      simp only [onTextMessage]
      rw [hty]
      simp [jsString_str]
  | _ => simp [JVal.get] at hty

/-- The complete message runs the complete case. -/
theorem onText_complete (now : Nat) (msg : JVal) (s : State)
    (hty : msg.get "type" = some (JVal.str "complete")) :
    onTextMessage now (some msg) s = handleComplete now s := by
  cases msg with
  | obj fields =>
      simp only [onTextMessage]
      rw [hty]
      simp [jsString_str]
  | _ => simp [JVal.get] at hty

theorem handleTextChunk_str (msg : JVal) (d : String) (s : State)
    (htext : msg.get "text" = some (JVal.str d)) :
    handleTextChunk msg s = { s with assistantTextContent := s.assistantTextContent ++ d } := by
  unfold handleTextChunk
  rw [htext, jsString_str]
  by_cases hd : d = ""
  · subst hd
    simp [truthy]
  · simp [truthy, hd]

theorem foldl_append_join (ds : List String) (a : String) :
    List.foldl (fun r x => r ++ x) a ds = a ++ String.join ds := by
  induction ds generalizing a with
  | nil => simp [String.join]
  | cons d rest ih =>
      simp only [List.foldl_cons, String.join]
      rw [ih, ih ("" ++ d)]
      simp [String.append_assoc]

theorem join_cons (d : String) (ds : List String) :
    String.join (d :: ds) = d ++ String.join ds := by
  show List.foldl (fun r x => r ++ x) ("" ++ d) ds = d ++ String.join ds
  rw [foldl_append_join]
  simp

/-- C7. Immediately after a well-formed intent message is handled, the audio chunk
buffer is empty, the artifact is absent, the reply text is empty, the
completion flag is false and there is no current assistant audio message. -/
theorem intent_resets_reply_buffers (s : State) (now : Nat) (msg : JVal)
    (hty : msg.get "type" = some (JVal.str "intent"))
    (hval : (jsString (msg.get "value")).isSome = true) :
    (step now s (Event.textFrame (some msg))).assistantAudioChunks = [] ∧
    (step now s (Event.textFrame (some msg))).assistantAudioBlob = none ∧
    (step now s (Event.textFrame (some msg))).assistantTextContent = "" ∧
    (step now s (Event.textFrame (some msg))).isAudioComplete = false ∧
    (step now s (Event.textFrame (some msg))).currentAssistantAudioMessageId = none := by
  simp only [step]
  rw [onText_intent now msg s hty hval]
  simp [handleIntent, showAssistantLoading, clearWelcomeMessage]

/-- Witness for C7: an intent that arrives after a chunk of the previous turn. -/
theorem intent_resets_reply_buffers_witness :
    (step 210 (run State.initial [(0, Event.binaryFrame [1, 2, 3])])
        (Event.textFrame (some (intentMsg "order")))).assistantAudioChunks = [] ∧
    (step 210 (run State.initial [(0, Event.binaryFrame [1, 2, 3])])
        (Event.textFrame (some (intentMsg "order")))).assistantAudioBlob = none ∧
    (step 210 (run State.initial [(0, Event.binaryFrame [1, 2, 3])])
        (Event.textFrame (some (intentMsg "order")))).assistantTextContent = "" ∧
    (step 210 (run State.initial [(0, Event.binaryFrame [1, 2, 3])])
        (Event.textFrame (some (intentMsg "order")))).isAudioComplete = false ∧
    (step 210 (run State.initial [(0, Event.binaryFrame [1, 2, 3])])
        (Event.textFrame (some (intentMsg "order")))).currentAssistantAudioMessageId = none :=
  intent_resets_reply_buffers (run State.initial [(0, Event.binaryFrame [1, 2, 3])]) 210
    (intentMsg "order") (by rfl) (by rfl)

/-- Witness for C2: a turn of two chunks whose timers both fire raises the flag
once, and the next intent is an intent message. -/
theorem completion_flag_monotone_witness :
    risingEdges State.initial
      [(10, Event.binaryFrame [1]), (3010, Event.timeout 1),
       (3020, Event.binaryFrame [2]), (6020, Event.timeout 2)] ≤ 1 ∧
    (Event.textFrame (some (intentMsg "chat"))).isIntent = true :=
  ⟨(completion_flag_monotone State.initial).2
      [(10, Event.binaryFrame [1]), (3010, Event.timeout 1),
       (3020, Event.binaryFrame [2]), (6020, Event.timeout 2)] (by decide),
   (completion_flag_monotone
      (run State.initial [(10, Event.binaryFrame [1]), (3010, Event.timeout 1)])).1
      7000 (Event.textFrame (some (intentMsg "chat"))) (by rfl) (by rfl)⟩

/-- The text_chunk events of a list of timed deltas. -/
theorem run_textChunks (deltas : List (Nat × String)) (s : State) :
    run s (deltas.map (fun p => (p.1, Event.textFrame (some (textChunkMsg p.2))))) =
      { s with assistantTextContent :=
                 s.assistantTextContent ++ String.join (deltas.map (fun p => p.2)) } := by
  induction deltas generalizing s with
  | nil => simp [run, String.join]
  | cons p rest ih =>
      simp only [List.map_cons, run, step]
      rw [onText_textChunk _ _ _ (by rfl), handleTextChunk_str _ p.2 _ (by rfl), ih, join_cons]
      simp [String.append_assoc]

/-- C10. Handling a text_chunk message whose `text` is the string `d` changes the
state only by replacing the reply text `t` with `t ++ d`; hence a sequence
of such messages leaves the reply text extended by the concatenation of
the deltas in arrival order, and nothing else changed. -/
theorem text_chunk_appends (s : State) :
    (∀ (now : Nat) (msg : JVal) (d : String),
        msg.get "type" = some (JVal.str "text_chunk") →
        msg.get "text" = some (JVal.str d) →
        step now s (Event.textFrame (some msg))
          = { s with assistantTextContent := s.assistantTextContent ++ d }) ∧
    (∀ deltas : List (Nat × String),
        run s (deltas.map (fun p => (p.1, Event.textFrame (some (textChunkMsg p.2)))))
          = { s with assistantTextContent :=
                s.assistantTextContent ++ String.join (deltas.map (fun p => p.2)) }) := by
  constructor
  · intro now msg d hty htext
    simp only [step]
    rw [onText_textChunk now msg s hty, handleTextChunk_str msg d s htext]
  · intro deltas
    exact run_textChunks deltas s

/-- Witness for C10: after a reset, "Hello" then " world" gives "Hello world". -/
theorem text_chunk_appends_witness :
    (run (step 0 State.initial (Event.textFrame (some (intentMsg "chat"))))
        [(10, Event.textFrame (some (textChunkMsg "Hello"))),
         (20, Event.textFrame (some (textChunkMsg " world")))]).assistantTextContent
      = "Hello world" ∧
    step 10 (step 0 State.initial (Event.textFrame (some (intentMsg "chat"))))
        (Event.textFrame (some (textChunkMsg "Hello")))
      = { step 0 State.initial (Event.textFrame (some (intentMsg "chat"))) with
          assistantTextContent := "Hello" } := by
  constructor
  · have h := (text_chunk_appends
      (step 0 State.initial (Event.textFrame (some (intentMsg "chat"))))).2
      [(10, "Hello"), (20, " world")]
    simp only [List.map_cons, List.map_nil] at h
    rw [h]
    decide
  · exact (text_chunk_appends
      (step 0 State.initial (Event.textFrame (some (intentMsg "chat"))))).1
      10 (textChunkMsg "Hello") "Hello" (by rfl) (by rfl)

theorem createOrUpdate_currentId_of_none (now : Nat) (b : Blob) (c : Bool) (s : State)
    (hid : s.currentAssistantAudioMessageId = none) :
    (createOrUpdateAssistantAudioMessage now (some b) c s).currentAssistantAudioMessageId
      = some now := by
  simp [createOrUpdateAssistantAudioMessage, createNewMessage, hid, createObjectURL]

theorem onBinary_currentId_of_none (now : Nat) (d : Chunk) (s : State) (hd : d ≠ [])
    (hid : s.currentAssistantAudioMessageId = none) :
    (onBinaryMessage now d s).currentAssistantAudioMessageId = some now := by
  obtain ⟨tms, v, hf⟩ := forgetCompletionTimer_frame
    { s with assistantAudioChunks := s.assistantAudioChunks ++ [d], lastAudioChunkTime := now }
  rw [onBinary_eq now d s hd, hf]
  simp only [setTimeout]
  exact createOrUpdate_currentId_of_none _ _ _ _ hid

/-- C9, as stated, fails: from the initial state (no current assistant message), a
text_chunk with text "Hello" leaves `currentAssistantAudioMessageId` null. -/
theorem text_chunk_materializes_counterexample :
    State.initial.currentAssistantAudioMessageId = none ∧
    ¬ ((step 0 State.initial
          (Event.textFrame (some (textChunkMsg "Hello")))).currentAssistantAudioMessageId
        ≠ none) := by
  constructor
  · rfl
  · intro h
    exact h (by rfl)

/-- C9, amended. A text_chunk with string text that arrives while no current
assistant message exists is only buffered: the reply text grows by the
delta, no element is added to the page and `currentAssistantAudioMessageId`
stays null.  The message is created by the next non-empty binary frame,
which sets `currentAssistantAudioMessageId`. -/
theorem text_chunk_only_buffers (s : State) (now : Nat) (msg : JVal) (d : String)
    (hid : s.currentAssistantAudioMessageId = none)
    (hty : msg.get "type" = some (JVal.str "text_chunk"))
    (htext : msg.get "text" = some (JVal.str d)) :
    (step now s (Event.textFrame (some msg))).currentAssistantAudioMessageId = none ∧
    (step now s (Event.textFrame (some msg))).chatMessages = s.chatMessages ∧
    (step now s (Event.textFrame (some msg))).assistantTextContent
      = s.assistantTextContent ++ d ∧
    (∀ (later : Nat) (c : Chunk), c ≠ [] →
      (step later (step now s (Event.textFrame (some msg)))
          (Event.binaryFrame c)).currentAssistantAudioMessageId = some later) := by
  simp only [step]
  rw [onText_textChunk now msg s hty, handleTextChunk_str msg d s htext]
  refine ⟨hid, rfl, rfl, ?_⟩
  intro later c hc
  exact onBinary_currentId_of_none later c _ hc hid

/-- Witness for C9 (amended): "Hello" arriving in the initial state, then a
three-byte chunk at time 40. -/
theorem text_chunk_only_buffers_witness :
    (step 0 State.initial
        (Event.textFrame (some (textChunkMsg "Hello")))).currentAssistantAudioMessageId = none ∧
    (step 40 (step 0 State.initial (Event.textFrame (some (textChunkMsg "Hello"))))
        (Event.binaryFrame [1, 2, 3])).currentAssistantAudioMessageId = some 40 :=
  ⟨(text_chunk_only_buffers State.initial 0 (textChunkMsg "Hello") "Hello"
      (by rfl) (by rfl) (by rfl)).1,
   (text_chunk_only_buffers State.initial 0 (textChunkMsg "Hello") "Hello"
      (by rfl) (by rfl) (by rfl)).2.2.2 40 [1, 2, 3] (by decide)⟩

theorem handleIntent_timers (now : Nat) (s : State) :
    (handleIntent now s).timers = s.timers ∧
    (handleIntent now s).audioCompleteTimer = s.audioCompleteTimer ∧
    (handleIntent now s).timerSeq = s.timerSeq ∧
    (handleIntent now s).assistantAudioChunks = [] ∧
    (handleIntent now s).isAudioComplete = false ∧
    (handleIntent now s).completionNotices = s.completionNotices := by
  simp [handleIntent, showAssistantLoading, clearWelcomeMessage]

theorem completionCallback_of_no_chunks (now : Nat) (s : State)
    (h : s.assistantAudioChunks = []) : completionCallback now s = s := by
  simp [completionCallback, h]

theorem fireTimer_of_no_chunks (now h : Nat) (s : State)
    (hc : s.assistantAudioChunks = []) :
    (fireTimer now h s).isAudioComplete = s.isAudioComplete ∧
    (fireTimer now h s).completionNotices = s.completionNotices ∧
    (fireTimer now h s).assistantAudioChunks = [] := by
  unfold fireTimer
  split
  · exact ⟨rfl, rfl, hc⟩
  · rw [completionCallback_of_no_chunks _ _ (by simpa using hc)]
    exact ⟨rfl, rfl, hc⟩

/-- C4, as stated, fails: after an intent and a 50-byte chunk a quiet-period
callback is pending, and it is still pending after a second intent is handled
200 ms later. -/
theorem intent_cancels_timer_counterexample :
    (run State.initial
        [(0, Event.textFrame (some (intentMsg "chat"))),
         (10, Event.binaryFrame (List.replicate 50 0))]).timers
      = [⟨1, 3010, TimerKind.afterChunk⟩] ∧
    (step 210
        (run State.initial
          [(0, Event.textFrame (some (intentMsg "chat"))),
           (10, Event.binaryFrame (List.replicate 50 0))])
        (Event.textFrame (some (intentMsg "chat")))).timers
      = [⟨1, 3010, TimerKind.afterChunk⟩] := by
  constructor <;> rfl

/-- C4, amended. Handling an intent message does not touch the timers: the pending
callbacks and the stored handle are the same after the handler as before.
What the handler does is empty the chunk buffer and lower the completion
flag, so that a callback that fires right after it changes neither the
completion flag nor the completion notices. -/
theorem intent_keeps_timer_defuses_callback (s : State) (now : Nat) (msg : JVal)
    (hty : msg.get "type" = some (JVal.str "intent"))
    (hval : (jsString (msg.get "value")).isSome = true) :
    (step now s (Event.textFrame (some msg))).timers = s.timers ∧
    (step now s (Event.textFrame (some msg))).audioCompleteTimer = s.audioCompleteTimer ∧
    (∀ t h : Nat,
      (fireTimer t h (step now s (Event.textFrame (some msg)))).isAudioComplete = false ∧
      (fireTimer t h (step now s (Event.textFrame (some msg)))).completionNotices
        = s.completionNotices ∧
      (fireTimer t h (step now s (Event.textFrame (some msg)))).assistantAudioChunks = []) := by
  simp only [step]
  rw [onText_intent now msg s hty hval]
  obtain ⟨h1, h2, _, h4, h5, h6⟩ := handleIntent_timers now s
  refine ⟨h1, h2, ?_⟩
  intro t h
  obtain ⟨g1, g2, g3⟩ := fireTimer_of_no_chunks t h (handleIntent now s) h4
  exact ⟨g1.trans h5, g2.trans h6, g3⟩

/-- Witness for C4 (amended): the second intent of the counterexample run, and
the pending callback firing once it is due. -/
theorem intent_keeps_timer_defuses_callback_witness :
    (step 210
        (run State.initial
          [(0, Event.textFrame (some (intentMsg "chat"))),
           (10, Event.binaryFrame (List.replicate 50 0))])
        (Event.textFrame (some (intentMsg "chat")))).timers
      = (run State.initial
          [(0, Event.textFrame (some (intentMsg "chat"))),
           (10, Event.binaryFrame (List.replicate 50 0))]).timers ∧
    (fireTimer 3010 1
        (step 210
          (run State.initial
            [(0, Event.textFrame (some (intentMsg "chat"))),
             (10, Event.binaryFrame (List.replicate 50 0))])
          (Event.textFrame (some (intentMsg "chat"))))).isAudioComplete = false :=
  ⟨(intent_keeps_timer_defuses_callback
      (run State.initial
        [(0, Event.textFrame (some (intentMsg "chat"))),
         (10, Event.binaryFrame (List.replicate 50 0))])
      210 (intentMsg "chat") (by rfl) (by rfl)).1,
   ((intent_keeps_timer_defuses_callback
      (run State.initial
        [(0, Event.textFrame (some (intentMsg "chat"))),
         (10, Event.binaryFrame (List.replicate 50 0))])
      210 (intentMsg "chat") (by rfl) (by rfl)).2.2 3010 1).1⟩

/-! ## The timer discipline -/

/-- Case analysis on what the text branch of `onmessage` does. -/
theorem onText_cases (P : State → Prop) (now : Nat) (data : Option JVal) (s : State)
    (h0 : P s) (h1 : P { s with isSessionActive := true })
    (h2 : ∀ msg, P (handleTranscript msg s)) (h3 : P (handleIntent now s))
    (h4 : ∀ msg, P (handleTextChunk msg s)) (h5 : P (handleComplete now s))
    (h6 : P (handleError s)) : P (onTextMessage now data s) := by
  unfold onTextMessage
  split
  · exact h0
  · exact h0
  · split
    · exact h0
    · split
      · split_ifs <;> first | exact h0 | exact h1 | exact h2 _ | exact h3 | exact h4 _
                            | exact h5 | exact h6
      · exact h0

theorem Inv_of_eq (s a : State) (h1 : a.timers = s.timers)
    (h2 : a.audioCompleteTimer = s.audioCompleteTimer) (h3 : a.timerSeq = s.timerSeq)
    (hinv : Inv s) : Inv a := by
  unfold Inv at *
  rw [h1, h2, h3]
  exact hinv

theorem forgetCompletionTimer_timers (s : State) (hinv : Inv s) :
    (forgetCompletionTimer s).timers = [] := by
  obtain ⟨hall, hlen⟩ := hinv
  unfold forgetCompletionTimer
  match hts : s.timers, hlen with
  | [], _ =>
      split
      · split <;> simp [clearTimeout, hts]
      · exact hts
  | [tm], _ =>
      obtain ⟨hv, hne, _⟩ := hall tm (by simp [hts])
      simp [hv, hne, clearTimeout, hts]
  | _ :: _ :: _, hlen => simp [hts] at hlen

theorem clearCompletionTimer_timers (s : State) (hinv : Inv s) :
    (clearCompletionTimer s).timers = [] := by
  obtain ⟨hall, hlen⟩ := hinv
  unfold clearCompletionTimer
  match hts : s.timers, hlen with
  | [], _ =>
      split
      · split <;> simp [clearTimeout, hts]
      · exact hts
  | [tm], _ =>
      obtain ⟨hv, hne, _⟩ := hall tm (by simp [hts])
      simp [hv, hne, clearTimeout, hts]
  | _ :: _ :: _, hlen => simp [hts] at hlen

theorem forgetCompletionTimer_timerSeq (s : State) :
    (forgetCompletionTimer s).timerSeq = s.timerSeq := by
  obtain ⟨tms, v, hf⟩ := forgetCompletionTimer_frame s
  rw [hf]

/-- What the binary branch leaves in the timer queue: exactly the timer it has
just armed, due one quiet period after `now`. -/
theorem onBinary_timers (now : Nat) (d : Chunk) (s : State) (hd : d ≠ []) (hinv : Inv s) :
    (onBinaryMessage now d s).timers
        = [⟨s.timerSeq + 1, now + quietPeriod, TimerKind.afterChunk⟩] ∧
    (onBinaryMessage now d s).audioCompleteTimer = some (s.timerSeq + 1) ∧
    (onBinaryMessage now d s).timerSeq = s.timerSeq + 1 := by
  have hinv1 : Inv { s with assistantAudioChunks := s.assistantAudioChunks ++ [d],
                            lastAudioChunkTime := now } :=
    Inv_of_eq s _ rfl rfl rfl hinv
  have ht := forgetCompletionTimer_timers _ hinv1
  have hs := forgetCompletionTimer_timerSeq
    { s with assistantAudioChunks := s.assistantAudioChunks ++ [d], lastAudioChunkTime := now }
  rw [onBinary_eq now d s hd]
  simp only [setTimeout, createOrUpdate_timers, createOrUpdate_timerSeq]
  simp [ht, hs]

theorem onBinary_logs (now : Nat) (d : Chunk) (s : State) :
    (onBinaryMessage now d s).firedLog = s.firedLog ∧
    (onBinaryMessage now d s).completionNotices = s.completionNotices := by
  by_cases hd : d = []
  · subst hd
    rw [onBinary_empty]
    exact ⟨rfl, rfl⟩
  · obtain ⟨tms, v, hf⟩ := forgetCompletionTimer_frame
      { s with assistantAudioChunks := s.assistantAudioChunks ++ [d],
               lastAudioChunkTime := now }
    rw [onBinary_eq now d s hd, hf]
    simp [setTimeout]

/-- The complete case when the buffer holds chunks, step by step. -/
theorem handleComplete_eq (now : Nat) (s : State) (hc : s.assistantAudioChunks ≠ []) :
    handleComplete now s =
      { (setTimeout now TimerKind.afterComplete
          (clearCompletionTimer
            (createOrUpdateAssistantAudioMessage now
              (some (Blob.ofParts s.assistantAudioChunks)) false
              { s with speakBtnDisabled := false,
                       chatMessages := removeFirst Element.isLoading s.chatMessages,
                       assistantAudioBlob := some (Blob.ofParts s.assistantAudioChunks) }))).1
        with audioCompleteTimer :=
          some ((clearCompletionTimer
            (createOrUpdateAssistantAudioMessage now
              (some (Blob.ofParts s.assistantAudioChunks)) false
              { s with speakBtnDisabled := false,
                       chatMessages := removeFirst Element.isLoading s.chatMessages,
                       assistantAudioBlob :=
                         some (Blob.ofParts s.assistantAudioChunks) })).timerSeq + 1) } := by
  have hpos : 0 < s.assistantAudioChunks.length := List.length_pos.mpr hc
  unfold handleComplete
  simp only [gt_iff_lt, hpos, if_true]
  rfl

theorem handleComplete_of_no_chunks (now : Nat) (s : State) (hc : s.assistantAudioChunks = []) :
    handleComplete now s =
      { s with speakBtnDisabled := false,
               chatMessages := removeFirst Element.isLoading s.chatMessages } := by
  unfold handleComplete
  simp [hc]

theorem handleComplete_timers (now : Nat) (s : State) (hc : s.assistantAudioChunks ≠ [])
    (hinv : Inv s) :
    (handleComplete now s).timers
        = [⟨s.timerSeq + 1, now + quietPeriod, TimerKind.afterComplete⟩] ∧
    (handleComplete now s).audioCompleteTimer = some (s.timerSeq + 1) ∧
    (handleComplete now s).timerSeq = s.timerSeq + 1 := by
  have hinv1 : Inv (createOrUpdateAssistantAudioMessage now
      (some (Blob.ofParts s.assistantAudioChunks)) false
      { s with speakBtnDisabled := false,
               chatMessages := removeFirst Element.isLoading s.chatMessages,
               assistantAudioBlob := some (Blob.ofParts s.assistantAudioChunks) }) :=
    Inv_of_eq s _ (by simp) (by simp) (by simp) hinv
  have ht := clearCompletionTimer_timers _ hinv1
  obtain ⟨tms, hf⟩ := clearCompletionTimer_frame (createOrUpdateAssistantAudioMessage now
      (some (Blob.ofParts s.assistantAudioChunks)) false
      { s with speakBtnDisabled := false,
               chatMessages := removeFirst Element.isLoading s.chatMessages,
               assistantAudioBlob := some (Blob.ofParts s.assistantAudioChunks) })
  have hs : (clearCompletionTimer (createOrUpdateAssistantAudioMessage now
      (some (Blob.ofParts s.assistantAudioChunks)) false
      { s with speakBtnDisabled := false,
               chatMessages := removeFirst Element.isLoading s.chatMessages,
               assistantAudioBlob := some (Blob.ofParts s.assistantAudioChunks) })).timerSeq
      = s.timerSeq := by
    rw [hf]
    simp
  rw [handleComplete_eq now s hc]
  simp only [setTimeout]
  simp [ht, hs]

theorem handleComplete_data (now : Nat) (s : State) :
    (handleComplete now s).assistantAudioChunks = s.assistantAudioChunks ∧
    (handleComplete now s).firedLog = s.firedLog ∧
    (handleComplete now s).completionNotices = s.completionNotices ∧
    (handleComplete now s).assistantTextContent = s.assistantTextContent := by
  by_cases hc : s.assistantAudioChunks = []
  · rw [handleComplete_of_no_chunks now s hc]
    exact ⟨rfl, rfl, rfl, rfl⟩
  · obtain ⟨tms, hf⟩ := clearCompletionTimer_frame (createOrUpdateAssistantAudioMessage now
        (some (Blob.ofParts s.assistantAudioChunks)) false
        { s with speakBtnDisabled := false,
                 chatMessages := removeFirst Element.isLoading s.chatMessages,
                 assistantAudioBlob := some (Blob.ofParts s.assistantAudioChunks) })
    rw [handleComplete_eq now s hc, hf]
    simp [setTimeout]

theorem completionCallback_timers (now : Nat) (s : State) :
    (completionCallback now s).timers = s.timers ∧
    (completionCallback now s).audioCompleteTimer = s.audioCompleteTimer ∧
    (completionCallback now s).timerSeq = s.timerSeq ∧
    (completionCallback now s).firedLog = s.firedLog := by
  unfold completionCallback
  split <;> simp

theorem fireTimer_timers (now h : Nat) (s : State) :
    (fireTimer now h s).timers = s.timers.filter (fun tm => tm.id != h) ∧
    (fireTimer now h s).audioCompleteTimer = s.audioCompleteTimer ∧
    (fireTimer now h s).timerSeq = s.timerSeq := by
  unfold fireTimer
  split
  · rename_i hnone
    refine ⟨?_, rfl, rfl⟩
    symm
    rw [List.filter_eq_self]
    intro tm htm
    have := List.find?_eq_none.mp hnone tm htm
    simpa using this
  · obtain ⟨h1, h2, h3, _⟩ := completionCallback_timers now
      { s with timers := s.timers.filter (fun tm => tm.id != h),
               firedLog := s.firedLog ++ [(now, h)] }
    exact ⟨h1, h2, h3⟩

theorem Inv_of_filter (s a : State) (p : Timer → Bool) (h1 : a.timers = s.timers.filter p)
    (h2 : a.audioCompleteTimer = s.audioCompleteTimer) (h3 : a.timerSeq = s.timerSeq)
    (hinv : Inv s) : Inv a := by
  obtain ⟨hall, hlen⟩ := hinv
  constructor
  · intro tm htm
    rw [h1] at htm
    rw [h2, h3]
    exact hall tm (List.mem_of_mem_filter htm)
  · rw [h1]
    exact le_trans (List.length_filter_le _ _) hlen

theorem Inv_fireTimer (now h : Nat) (s : State) (hinv : Inv s) : Inv (fireTimer now h s) := by
  obtain ⟨h1, h2, h3⟩ := fireTimer_timers now h s
  exact Inv_of_filter s _ _ h1 h2 h3 hinv

theorem Inv_singleton (a : State) (tm : Timer) (h1 : a.timers = [tm])
    (h2 : a.audioCompleteTimer = some tm.id) (h3 : tm.id ≠ 0) (h4 : tm.id ≤ a.timerSeq) :
    Inv a := by
  constructor
  · intro x hx
    rw [h1] at hx
    simp only [List.mem_singleton] at hx
    subst hx
    exact ⟨h2, h3, h4⟩
  · simp [h1]

theorem Inv_onBinary (now : Nat) (d : Chunk) (s : State) (hinv : Inv s) :
    Inv (onBinaryMessage now d s) := by
  by_cases hd : d = []
  · subst hd
    rw [onBinary_empty]
    exact hinv
  · obtain ⟨h1, h2, h3⟩ := onBinary_timers now d s hd hinv
    exact Inv_singleton _ _ h1 h2 (by simp) (by simp [h3])

theorem Inv_handleComplete (now : Nat) (s : State) (hinv : Inv s) :
    Inv (handleComplete now s) := by
  by_cases hc : s.assistantAudioChunks = []
  · rw [handleComplete_of_no_chunks now s hc]
    exact Inv_of_eq s _ rfl rfl rfl hinv
  · obtain ⟨h1, h2, h3⟩ := handleComplete_timers now s hc hinv
    exact Inv_singleton _ _ h1 h2 (by simp) (by simp [h3])

theorem handleTextChunk_frame (msg : JVal) (s : State) :
    ∃ txt, handleTextChunk msg s = { s with assistantTextContent := txt } := by
  unfold handleTextChunk
  split
  · split
    · exact ⟨_, rfl⟩
    · exact ⟨s.assistantTextContent, rfl⟩
  · exact ⟨s.assistantTextContent, rfl⟩

theorem handleTranscript_frame (msg : JVal) (s : State) :
    ∃ cm, handleTranscript msg s = { s with chatMessages := cm } := by
  unfold handleTranscript
  split
  · exact ⟨_, rfl⟩
  · exact ⟨s.chatMessages, rfl⟩

theorem Inv_onText (now : Nat) (data : Option JVal) (s : State) (hinv : Inv s) :
    Inv (onTextMessage now data s) := by
  apply onText_cases (fun a => Inv a)
  · exact hinv
  · exact Inv_of_eq s _ rfl rfl rfl hinv
  · intro msg
    obtain ⟨cm, h⟩ := handleTranscript_frame msg s
    rw [h]
    exact Inv_of_eq s _ rfl rfl rfl hinv
  · obtain ⟨h1, h2, h3, _⟩ := handleIntent_timers now s
    exact Inv_of_eq s _ h1 h2 h3 hinv
  · intro msg
    obtain ⟨txt, h⟩ := handleTextChunk_frame msg s
    rw [h]
    exact Inv_of_eq s _ rfl rfl rfl hinv
  · exact Inv_handleComplete now s hinv
  · exact Inv_of_eq s _ rfl rfl rfl hinv

theorem onClose_timers (now : Nat) (s : State) :
    (onClose now s).timers = s.timers ∧
    (onClose now s).audioCompleteTimer = s.audioCompleteTimer ∧
    (onClose now s).timerSeq = s.timerSeq ∧
    (onClose now s).assistantAudioChunks = [] := by
  unfold onClose
  dsimp only
  split <;> simp [resetButtons]

theorem endSpeaking_timers (now : Nat) (s : State) :
    (endSpeaking now s).timers = s.timers ∧
    (endSpeaking now s).audioCompleteTimer = s.audioCompleteTimer ∧
    (endSpeaking now s).timerSeq = s.timerSeq ∧
    (endSpeaking now s).assistantAudioChunks = s.assistantAudioChunks := by
  unfold endSpeaking
  dsimp only
  split <;> simp [addUserMessage, clearWelcomeMessage]

theorem disconnect_timers (now : Nat) (s : State) :
    (disconnect now s).timers = s.timers ∧
    (disconnect now s).audioCompleteTimer = s.audioCompleteTimer ∧
    (disconnect now s).timerSeq = s.timerSeq ∧
    (disconnect now s).assistantAudioChunks = [] := by
  obtain ⟨e1, e2, e3, _⟩ := endSpeaking_timers now s
  unfold disconnect
  dsimp only
  split <;> split <;> simp [resetButtons, e1, e2, e3]

theorem toggleTextDisplay_frame (id : MsgId) (s : State) :
    ∃ cm, toggleTextDisplay id s = { s with chatMessages := cm } := by
  unfold toggleTextDisplay
  split
  · exact ⟨_, rfl⟩
  · exact ⟨s.chatMessages, rfl⟩

/-- Every handler keeps the timer discipline. -/
theorem Inv_step (now : Nat) (s : State) (e : Event) (hinv : Inv s) : Inv (step now s e) := by
  cases e with
  | onopen => exact Inv_of_eq s _ rfl rfl rfl hinv
  | textFrame data => exact Inv_onText now data s hinv
  | binaryFrame d => exact Inv_onBinary now d s hinv
  | onclose =>
      obtain ⟨h1, h2, h3, _⟩ := onClose_timers now s
      exact Inv_of_eq s _ h1 h2 h3 hinv
  | timeout h => exact Inv_fireTimer now h s hinv
  | toggleText id =>
      obtain ⟨cm, h⟩ := toggleTextDisplay_frame id s
      simp only [step]
      rw [h]
      exact Inv_of_eq s _ rfl rfl rfl hinv
  | disconnect =>
      obtain ⟨h1, h2, h3, _⟩ := disconnect_timers now s
      exact Inv_of_eq s _ h1 h2 h3 hinv
  | endSpeaking =>
      obtain ⟨h1, h2, h3, _⟩ := endSpeaking_timers now s
      exact Inv_of_eq s _ h1 h2 h3 hinv

theorem Inv_initial : Inv State.initial := by decide

theorem Inv_run (es : List (Nat × Event)) (s : State) (hinv : Inv s) : Inv (run s es) := by
  induction es generalizing s with
  | nil => exact hinv
  | cons p rest ih => exact ih _ (Inv_step p.1 s p.2 hinv)

/-! ## A superseded turn -/

theorem Defused_of_no_chunks (h : Nat) (s a : State) (hq : Defused h s) (hinv : Inv a)
    (hseq : a.timerSeq = s.timerSeq) (hc : a.assistantAudioChunks = []) : Defused h a :=
  ⟨hinv, by rw [hseq]; exact hq.2.1, fun _ => hc⟩

theorem Defused_of_same (h : Nat) (s a : State) (hq : Defused h s) (hinv : Inv a)
    (hseq : a.timerSeq = s.timerSeq) (ht : a.timers = s.timers)
    (hc : a.assistantAudioChunks = s.assistantAudioChunks) : Defused h a :=
  ⟨hinv, by rw [hseq]; exact hq.2.1, by rw [ht, hc]; exact hq.2.2⟩

theorem Defused_of_fresh (h : Nat) (s a : State) (hq : Defused h s) (hinv : Inv a)
    (tm : Timer) (ht : a.timers = [tm]) (hid : tm.id = s.timerSeq + 1)
    (hseq : a.timerSeq = s.timerSeq + 1) : Defused h a := by
  refine ⟨hinv, by rw [hseq]; exact Nat.le_succ_of_le hq.2.1, ?_⟩
  rintro ⟨x, hx, hxh⟩
  rw [ht] at hx
  simp only [List.mem_singleton] at hx
  subst hx
  have := hq.2.1
  omega

theorem Defused_onText (h now : Nat) (data : Option JVal) (s : State) (hq : Defused h s) :
    Defused h (onTextMessage now data s) := by
  have hinv := Inv_onText now data s hq.1
  revert hinv
  apply onText_cases (fun a => Inv a → Defused h a)
  · intro _
    exact hq
  · intro hinv
    exact Defused_of_same h s _ hq hinv rfl rfl rfl
  · intro msg hinv
    obtain ⟨cm, hf⟩ := handleTranscript_frame msg s
    rw [hf] at hinv ⊢
    exact Defused_of_same h s _ hq hinv rfl rfl rfl
  · intro hinv
    obtain ⟨_, _, h3, h4, _, _⟩ := handleIntent_timers now s
    exact Defused_of_no_chunks h s _ hq hinv h3 h4
  · intro msg hinv
    obtain ⟨txt, hf⟩ := handleTextChunk_frame msg s
    rw [hf] at hinv ⊢
    exact Defused_of_same h s _ hq hinv rfl rfl rfl
  · intro hinv
    by_cases hc : s.assistantAudioChunks = []
    · rw [handleComplete_of_no_chunks now s hc] at hinv ⊢
      exact Defused_of_same h s _ hq hinv rfl rfl rfl
    · obtain ⟨h1, _, h3⟩ := handleComplete_timers now s hc hq.1
      exact Defused_of_fresh h s _ hq hinv _ h1 rfl h3
  · intro hinv
    exact Defused_of_same h s _ hq hinv rfl rfl rfl

theorem Defused_step (h now : Nat) (s : State) (e : Event) (hq : Defused h s) :
    Defused h (step now s e) := by
  have hinv := Inv_step now s e hq.1
  cases e with
  | onopen => exact Defused_of_no_chunks h s _ hq hinv rfl rfl
  | textFrame data => exact Defused_onText h now data s hq
  | binaryFrame d =>
      by_cases hd : d = []
      · subst hd
        simp only [step, onBinary_empty]
        exact hq
      · obtain ⟨h1, _, h3⟩ := onBinary_timers now d s hd hq.1
        exact Defused_of_fresh h s _ hq hinv _ h1 rfl h3
  | onclose =>
      obtain ⟨_, _, h3, h4⟩ := onClose_timers now s
      exact Defused_of_no_chunks h s _ hq hinv h3 h4
  | timeout k =>
      obtain ⟨h1, _, h3⟩ := fireTimer_timers now k s
      refine ⟨hinv, ?_, ?_⟩
      · simp only [step]
        rw [h3]
        exact hq.2.1
      · rintro ⟨x, hx, hxh⟩
        simp only [step] at hx ⊢
        rw [h1] at hx
        rw [fireTimer_chunks]
        exact hq.2.2 ⟨x, List.mem_of_mem_filter hx, hxh⟩
  | toggleText id =>
      obtain ⟨cm, hf⟩ := toggleTextDisplay_frame id s
      simp only [step] at hinv ⊢
      rw [hf] at hinv ⊢
      exact Defused_of_same h s _ hq hinv rfl rfl rfl
  | disconnect =>
      obtain ⟨_, _, h3, h4⟩ := disconnect_timers now s
      exact Defused_of_no_chunks h s _ hq hinv h3 h4
  | endSpeaking =>
      obtain ⟨h1, _, h3, h4⟩ := endSpeaking_timers now s
      exact Defused_of_same h s _ hq hinv h3 h1 h4

theorem Defused_run (h : Nat) (es : List (Nat × Event)) (s : State) (hq : Defused h s) :
    Defused h (run s es) := by
  induction es generalizing s with
  | nil => exact hq
  | cons p rest ih => exact ih _ (Defused_step h p.1 s p.2 hq)

theorem fireTimer_of_not_pending (now h : Nat) (s : State)
    (hn : ¬ ∃ x ∈ s.timers, x.id = h) : fireTimer now h s = s := by
  unfold fireTimer
  split
  · rfl
  · rename_i tm hfind
    exact absurd ⟨tm, List.mem_of_find?_eq_some hfind,
      by simpa using List.find?_some hfind⟩ hn

theorem Defused_fire (h now : Nat) (a : State) (hq : Defused h a) :
    (fireTimer now h a).isAudioComplete = a.isAudioComplete ∧
    (fireTimer now h a).completionNotices = a.completionNotices := by
  by_cases hp : ∃ x ∈ a.timers, x.id = h
  · obtain ⟨g1, g2, _⟩ := fireTimer_of_no_chunks now h a (hq.2.2 hp)
    exact ⟨g1, g2⟩
  · rw [fireTimer_of_not_pending now h a hp]
    exact ⟨rfl, rfl⟩

/-- C5. A turn superseded by an intent never completes.  If a completion timer is
pending when an intent message is handled, then the chunk buffer is empty
after the intent, and whatever events follow, a firing of that timer
changes neither the completion flag nor the list of completion notices. -/
theorem superseded_turn_never_completes (s : State) (hinv : Inv s) (tm : Timer)
    (hp : tm ∈ s.timers) (now : Nat) (msg : JVal)
    (hty : msg.get "type" = some (JVal.str "intent"))
    (hval : (jsString (msg.get "value")).isSome = true)
    (es : List (Nat × Event)) (t : Nat) :
    (step now s (Event.textFrame (some msg))).assistantAudioChunks = [] ∧
    (step t (run (step now s (Event.textFrame (some msg))) es)
        (Event.timeout tm.id)).isAudioComplete
      = (run (step now s (Event.textFrame (some msg))) es).isAudioComplete ∧
    (step t (run (step now s (Event.textFrame (some msg))) es)
        (Event.timeout tm.id)).completionNotices
      = (run (step now s (Event.textFrame (some msg))) es).completionNotices := by
  have hc : (step now s (Event.textFrame (some msg))).assistantAudioChunks = [] := by
    simp only [step]
    rw [onText_intent now msg s hty hval]
    exact (handleIntent_timers now s).2.2.2.1
  have hseq : (step now s (Event.textFrame (some msg))).timerSeq = s.timerSeq := by
    simp only [step]
    rw [onText_intent now msg s hty hval]
    exact (handleIntent_timers now s).2.2.1
  have hq0 : Defused tm.id (step now s (Event.textFrame (some msg))) :=
    ⟨Inv_step now s _ hinv, by rw [hseq]; exact (hinv.1 tm hp).2.2, fun _ => hc⟩
  have hq := Defused_run tm.id es _ hq0
  exact ⟨hc, Defused_fire tm.id t _ hq⟩

/-- Witness for C5: intent, one 50-byte chunk, a second intent 200 ms later; then
text, a complete message, and the old timer firing when it is due. -/
theorem superseded_turn_never_completes_witness :
    (step 210
        (run State.initial
          [(0, Event.textFrame (some (intentMsg "chat"))),
           (10, Event.binaryFrame (List.replicate 50 0))])
        (Event.textFrame (some (intentMsg "chat")))).assistantAudioChunks = [] ∧
    (step 3010
        (run
          (step 210
            (run State.initial
              [(0, Event.textFrame (some (intentMsg "chat"))),
               (10, Event.binaryFrame (List.replicate 50 0))])
            (Event.textFrame (some (intentMsg "chat"))))
          [(300, Event.textFrame (some (textChunkMsg "Hi"))),
           (400, Event.textFrame (some completeMsg))])
        (Event.timeout 1)).isAudioComplete = false := by
  have h := superseded_turn_never_completes
    (run State.initial
      [(0, Event.textFrame (some (intentMsg "chat"))),
       (10, Event.binaryFrame (List.replicate 50 0))])
    (Inv_run _ _ Inv_initial) ⟨1, 3010, TimerKind.afterChunk⟩ (by decide) 210
    (intentMsg "chat") (by rfl) (by rfl)
    [(300, Event.textFrame (some (textChunkMsg "Hi"))),
     (400, Event.textFrame (some completeMsg))] 3010
  exact ⟨h.1, h.2.1.trans (by rfl)⟩

/-! ## The quiet period under the ideal clock -/

theorem earliest_mem (l : List Timer) (tm : Timer) (h : earliest l = some tm) : tm ∈ l := by
  induction l generalizing tm with
  | nil => simp [earliest] at h
  | cons x rest ih =>
      simp only [earliest] at h
      split at h
      · simp only [Option.some.injEq] at h
        subst h
        exact List.mem_cons_self _ _
      · rename_i r hr
        split at h
        · simp only [Option.some.injEq] at h
          subst h
          exact List.mem_cons_self _ _
        · simp only [Option.some.injEq] at h
          subst h
          exact List.mem_cons_of_mem _ (ih r hr)

theorem earliest_eq_none (l : List Timer) (h : earliest l = none) : l = [] := by
  cases l with
  | nil => rfl
  | cons x rest =>
      simp only [earliest] at h
      split at h
      · simp at h
      · split at h <;> simp at h

theorem earliest_le (l : List Timer) (tm : Timer) (h : earliest l = some tm) :
    ∀ x ∈ l, tm.due ≤ x.due := by
  induction l generalizing tm with
  | nil => simp
  | cons y rest ih =>
      simp only [earliest] at h
      intro x hx
      split at h
      · rename_i hnone
        simp only [Option.some.injEq] at h
        subst h
        rw [earliest_eq_none rest hnone] at hx
        simp only [List.mem_singleton] at hx
        subst hx
        exact le_refl _
      · rename_i r hr
        have hr' := ih r hr
        split at h
        · rename_i hle
          simp only [Option.some.injEq] at h
          subst h
          rcases List.mem_cons.mp hx with rfl | hx'
          · exact le_refl _
          · exact le_trans hle (hr' x hx')
        · rename_i hnle
          simp only [Option.some.injEq] at h
          subst h
          rcases List.mem_cons.mp hx with rfl | hx'
          · exact le_of_lt (not_le.mp hnle)
          · exact hr' x hx'

/-- With enough fuel, letting the clock reach `t` leaves no timer that is due at
or before `t`. -/
theorem advanceFuel_complete (fuel t : Nat) (s : State) (hf : s.timers.length ≤ fuel) :
    ∀ x ∈ (advanceFuel fuel t s).timers, t < x.due := by
  induction fuel generalizing s with
  | zero =>
      have : s.timers = [] := List.length_eq_zero.mp (Nat.le_zero.mp hf)
      simp [advanceFuel, this]
  | succ n ih =>
      simp only [advanceFuel]
      split
      · rename_i hnone
        simp [earliest_eq_none _ hnone]
      · rename_i tm hsome
        split
        · apply ih
          have hmem := earliest_mem _ _ hsome
          rw [(fireTimer_timers tm.due tm.id s).1]
          have hlt : (s.timers.filter (fun x => x.id != tm.id)).length < s.timers.length := by
            apply List.length_filter_lt_length_iff_exists.mpr
            exact ⟨tm, hmem, by simp⟩
          omega
        · rename_i hnd
          intro x hx
          exact lt_of_lt_of_le (not_le.mp hnd) (earliest_le _ _ hsome x hx)

/-- The function `advance` is total and leaves no timer that is due at or before `t`. -/
theorem advance_complete (t : Nat) (s : State) :
    ∀ x ∈ (advance t s).timers, t < x.due :=
  advanceFuel_complete _ t s (le_refl _)

theorem advance_of_no_timers (t : Nat) (s : State) (h : s.timers = []) : advance t s = s := by
  simp [advance, h, advanceFuel]

theorem Armed_inv (t : Nat) (a : State) (h : Armed t a) : Inv a := by
  obtain ⟨tm, h1, _, h3, h4, h5, _⟩ := h
  exact Inv_singleton a tm h1 h3 h4 h5

theorem advance_of_armed_early (t u : Nat) (a : State) (h : Armed t a)
    (hu : u < t + quietPeriod) : advance u a = a := by
  obtain ⟨tm, h1, h2, _⟩ := h
  have : ¬ tm.due ≤ u := by omega
  simp [advance, h1, advanceFuel, earliest, this]

theorem advance_of_armed_late (t T : Nat) (a : State) (tm : Timer) (h1 : a.timers = [tm])
    (h2 : tm.due = t + quietPeriod) (hT : t + quietPeriod ≤ T) :
    advance T a = fireTimer (t + quietPeriod) tm.id a := by
  have hd : tm.due ≤ T := by omega
  simp only [advance, h1, List.length_singleton, advanceFuel, earliest, hd, if_true]
  rw [h2]

theorem fireTimer_of_armed (now : Nat) (a : State) (tm : Timer) (h1 : a.timers = [tm])
    (hc : a.assistantAudioChunks ≠ []) :
    (fireTimer now tm.id a).timers = [] ∧
    (fireTimer now tm.id a).firedLog = a.firedLog ++ [(now, tm.id)] ∧
    (a.isAudioComplete = false →
      (fireTimer now tm.id a).isAudioComplete = true ∧
      (fireTimer now tm.id a).completionNotices = a.completionNotices ++ [now]) ∧
    (a.isAudioComplete = true →
      (fireTimer now tm.id a).isAudioComplete = true ∧
      (fireTimer now tm.id a).completionNotices = a.completionNotices) := by
  have hpos : 0 < a.assistantAudioChunks.length := List.length_pos.mpr hc
  refine ⟨?_, ?_, ?_, ?_⟩
  · rw [(fireTimer_timers now tm.id a).1, h1]
    simp
  · simp only [fireTimer, h1, List.find?_cons, beq_self_eq_true]
    exact (completionCallback_timers now _).2.2.2
  · intro hf
    simp [fireTimer, h1, completionCallback, hf, hpos]
  · intro hf
    simp [fireTimer, h1, completionCallback, hf]

theorem Armed_onBinary (now : Nat) (d : Chunk) (s : State) (hd : d ≠ []) (hinv : Inv s) :
    Armed now (onBinaryMessage now d s) := by
  obtain ⟨h1, h2, h3⟩ := onBinary_timers now d s hd hinv
  refine ⟨_, h1, rfl, h2, by simp, by simp [h3], ?_⟩
  rw [onBinary_chunks now d s hd]
  simp

theorem spaced_of_append (t : Nat) (pre post : List (Nat × Chunk))
    (h : spaced t (pre ++ post)) : spaced t pre := by
  induction pre generalizing t with
  | nil => trivial
  | cons p rest ih =>
      obtain ⟨u, c⟩ := p
      simp only [List.cons_append, spaced] at h ⊢
      exact ⟨h.1, h.2.1, ih u h.2.2⟩

/-- A burst of non-empty chunks, each less than a quiet period after the one
before: no callback fires, and the detector ends up armed from the last chunk. -/
theorem play_burst (rest : List (Nat × Chunk)) (t : Nat) (a : State) (ha : Armed t a)
    (hsp : spaced t rest) (hne : ∀ p ∈ rest, p.2 ≠ []) :
    Armed (lastTime t rest) (play a (chunkEvents rest)) ∧
    (play a (chunkEvents rest)).firedLog = a.firedLog ∧
    (play a (chunkEvents rest)).completionNotices = a.completionNotices ∧
    (play a (chunkEvents rest)).isAudioComplete = a.isAudioComplete := by
  induction rest generalizing t a with
  | nil => exact ⟨ha, rfl, rfl, rfl⟩
  | cons p rest ih =>
      obtain ⟨u, c⟩ := p
      simp only [spaced] at hsp
      have hc : c ≠ [] := hne (u, c) (List.mem_cons_self _ _)
      have hrest : ∀ p ∈ rest, p.2 ≠ [] := fun p hp => hne p (List.mem_cons_of_mem _ hp)
      simp only [chunkEvents, List.map_cons, play, lastTime]
      rw [advance_of_armed_early t u a ha hsp.2.1]
      simp only [step]
      have hb := Armed_onBinary u c a hc (Armed_inv t a ha)
      obtain ⟨i1, i2, i3, i4⟩ := ih u (onBinaryMessage u c a) hb hsp.2.2 hrest
      obtain ⟨l1, l2⟩ := onBinary_logs u c a
      exact ⟨i1, i2.trans l1, i3.trans l2, i4.trans (onBinary_complete u c a)⟩

/-- C6. For a burst of one or more non-empty chunks, each arriving less than 3000 ms
after the previous one: at every moment of the burst at most one quiet-period
callback is pending, no callback fires during the burst, and once the clock
has passed the last chunk by 3000 ms exactly one callback has fired, at
3000 ms after the last chunk, and none is pending.  If the turn was not yet
complete, that callback marks it complete and shows the one completion
notice. -/
theorem burst_fires_once (s : State) (hinv : Inv s) (t1 : Nat) (c1 : Chunk) (hc1 : c1 ≠ [])
    (rest : List (Nat × Chunk)) (hne : ∀ p ∈ rest, p.2 ≠ []) (hsp : spaced t1 rest)
    (T : Nat) (hT : lastTime t1 rest + quietPeriod ≤ T) :
    (∀ pre post, rest = pre ++ post →
      (play (step t1 s (Event.binaryFrame c1)) (chunkEvents pre)).timers.length ≤ 1) ∧
    (play (step t1 s (Event.binaryFrame c1)) (chunkEvents rest)).firedLog = s.firedLog ∧
    (advance T (play (step t1 s (Event.binaryFrame c1)) (chunkEvents rest))).timers = [] ∧
    (∃ h, (advance T (play (step t1 s (Event.binaryFrame c1)) (chunkEvents rest))).firedLog
        = s.firedLog ++ [(lastTime t1 rest + quietPeriod, h)]) ∧
    (s.isAudioComplete = false →
      (advance T (play (step t1 s (Event.binaryFrame c1))
        (chunkEvents rest))).isAudioComplete = true ∧
      (advance T (play (step t1 s (Event.binaryFrame c1))
        (chunkEvents rest))).completionNotices
        = s.completionNotices ++ [lastTime t1 rest + quietPeriod]) := by
  have h1 : Armed t1 (step t1 s (Event.binaryFrame c1)) := Armed_onBinary t1 c1 s hc1 hinv
  obtain ⟨l1, l2⟩ := onBinary_logs t1 c1 s
  have l3 := onBinary_complete t1 c1 s
  refine ⟨?_, ?_, ?_⟩
  · intro pre post hpp
    have hsp' : spaced t1 pre := spaced_of_append t1 pre post (hpp ▸ hsp)
    have hne' : ∀ p ∈ pre, p.2 ≠ [] := fun p hp =>
      hne p (hpp ▸ List.mem_append_left post hp)
    obtain ⟨⟨tm, ht, _⟩, _⟩ := play_burst pre t1 _ h1 hsp' hne'
    simp [ht]
  · exact (play_burst rest t1 _ h1 hsp hne).2.1.trans l1
  · obtain ⟨⟨tm, ht, hdue, _, _, _, hch⟩, b2, b3, b4⟩ := play_burst rest t1 _ h1 hsp hne
    rw [advance_of_armed_late (lastTime t1 rest) T _ tm ht hdue hT]
    obtain ⟨f1, f2, f3, _⟩ := fireTimer_of_armed (lastTime t1 rest + quietPeriod) _ tm ht hch
    refine ⟨f1, ⟨tm.id, ?_⟩, ?_⟩
    · rw [f2, b2]
      exact congrArg (fun l => l ++ _) l1
    · intro hf
      have hf' : (play (step t1 s (Event.binaryFrame c1)) (chunkEvents rest)).isAudioComplete
          = false := by
        rw [b4]
        exact l3.trans hf
      obtain ⟨g1, g2⟩ := f3 hf'
      refine ⟨g1, ?_⟩
      rw [g2, b3]
      exact congrArg (fun l => l ++ _) l2

/-- Witness for C6: after an intent, chunks of 100, 250 and 80 bytes at 10, 510 and
1010 ms; the single callback fires at 4010 ms. -/
theorem burst_fires_once_witness :
    (advance 5000
        (play (step 10 (step 0 State.initial (Event.textFrame (some (intentMsg "chat"))))
                (Event.binaryFrame (List.replicate 100 0)))
          (chunkEvents [(510, List.replicate 250 0), (1010, List.replicate 80 0)]))).timers
      = [] ∧
    (advance 5000
        (play (step 10 (step 0 State.initial (Event.textFrame (some (intentMsg "chat"))))
                (Event.binaryFrame (List.replicate 100 0)))
          (chunkEvents [(510, List.replicate 250 0),
                        (1010, List.replicate 80 0)]))).completionNotices
      = [4010] := by
  have h := burst_fires_once
    (step 0 State.initial (Event.textFrame (some (intentMsg "chat"))))
    (Inv_step 0 State.initial _ Inv_initial) 10 (List.replicate 100 0) (by decide)
    [(510, List.replicate 250 0), (1010, List.replicate 80 0)] (by decide) (by decide)
    5000 (by decide)
  exact ⟨h.2.2.1, (h.2.2.2.2 rfl).2⟩

theorem play_append (s : State) (es fs : List (Nat × Event)) :
    play s (es ++ fs) = play (play s es) fs := by
  induction es generalizing s with
  | nil => rfl
  | cons p rest ih =>
      obtain ⟨now, e⟩ := p
      simp only [List.cons_append, play]
      exact ih _

/-- While the chunk buffer is empty, letting the clock run completes nothing. -/
theorem advanceFuel_of_no_chunks (fuel t : Nat) (s : State) (hinv : Inv s)
    (hc : s.assistantAudioChunks = []) :
    Inv (advanceFuel fuel t s) ∧
    (advanceFuel fuel t s).assistantAudioChunks = [] ∧
    (advanceFuel fuel t s).isAudioComplete = s.isAudioComplete ∧
    (advanceFuel fuel t s).completionNotices = s.completionNotices := by
  induction fuel generalizing s with
  | zero => exact ⟨hinv, hc, rfl, rfl⟩
  | succ n ih =>
      simp only [advanceFuel]
      split
      · exact ⟨hinv, hc, rfl, rfl⟩
      · rename_i tm _
        split
        · obtain ⟨g1, g2, g3⟩ := fireTimer_of_no_chunks tm.due tm.id s hc
          obtain ⟨i1, i2, i3, i4⟩ := ih (fireTimer tm.due tm.id s)
            (Inv_fireTimer tm.due tm.id s hinv) g3
          exact ⟨i1, i2, i3.trans g1, i4.trans g2⟩
        · exact ⟨hinv, hc, rfl, rfl⟩

theorem Armed_handleComplete (now : Nat) (s : State) (hc : s.assistantAudioChunks ≠ [])
    (hinv : Inv s) : Armed now (handleComplete now s) := by
  obtain ⟨h1, h2, h3⟩ := handleComplete_timers now s hc hinv
  refine ⟨_, h1, rfl, h2, by simp, by simp [h3], ?_⟩
  rw [(handleComplete_data now s).1]
  exact hc

set_option maxRecDepth 100000 in
/-- C3, as stated, fails on its own witness: after an intent, chunks of 100, 250
and 80 bytes at 500, 1000 and 1500 ms and a complete message at 2000 ms, the
one completion notice is shown at 5000 ms, which is 3000 ms after the
complete message and not 3000 ms after the last chunk (4500 ms). -/
theorem completion_after_last_chunk_counterexample :
    (advance 10000
        (play State.initial
          ((0, Event.textFrame (some (intentMsg "chat"))) ::
            turnFrames [(500, List.replicate 100 0), (1000, List.replicate 250 0),
                        (1500, List.replicate 80 0)] 2000 completeMsg))).completionNotices
      = [2000 + quietPeriod] ∧
    (advance 10000
        (play State.initial
          ((0, Event.textFrame (some (intentMsg "chat"))) ::
            turnFrames [(500, List.replicate 100 0), (1000, List.replicate 250 0),
                        (1500, List.replicate 80 0)] 2000 completeMsg))).completionNotices
      ≠ [1500 + quietPeriod] := by
  constructor
  · rfl
  · decide

/-- C3, amended. For a run intent, one or more non-empty chunks, complete, then no
further frames, in which every chunk after the first and the complete
message arrive less than 3000 ms after the frame before: nothing is
declared complete up to and including the complete message, no callback
fires before 3000 ms have passed since the complete message, and once they
have, exactly one completion notice has been shown, at 3000 ms after the
arrival of the complete message; the flag `isAudioComplete` is then true
and no timer is pending. -/
theorem completion_fires_after_complete (s0 : State) (hinv : Inv s0) (t0 : Nat) (imsg : JVal)
    (hty : imsg.get "type" = some (JVal.str "intent"))
    (hval : (jsString (imsg.get "value")).isSome = true)
    (t1 : Nat) (c1 : Chunk) (hc1 : c1 ≠ []) (rest : List (Nat × Chunk))
    (hne : ∀ p ∈ rest, p.2 ≠ []) (hsp : spaced t1 rest)
    (tc : Nat) (cmsg : JVal) (hcty : cmsg.get "type" = some (JVal.str "complete"))
    (h2 : tc < lastTime t1 rest + quietPeriod)
    (T : Nat) (hT : tc + quietPeriod ≤ T) :
    (play (step t0 s0 (Event.textFrame (some imsg)))
        (turnFrames ((t1, c1) :: rest) tc cmsg)).completionNotices
      = (step t0 s0 (Event.textFrame (some imsg))).completionNotices ∧
    (play (step t0 s0 (Event.textFrame (some imsg)))
        (turnFrames ((t1, c1) :: rest) tc cmsg)).isAudioComplete = false ∧
    (∀ u, u < tc + quietPeriod →
      advance u (play (step t0 s0 (Event.textFrame (some imsg)))
          (turnFrames ((t1, c1) :: rest) tc cmsg))
        = play (step t0 s0 (Event.textFrame (some imsg)))
          (turnFrames ((t1, c1) :: rest) tc cmsg)) ∧
    (advance T (play (step t0 s0 (Event.textFrame (some imsg)))
        (turnFrames ((t1, c1) :: rest) tc cmsg))).completionNotices
      = (step t0 s0 (Event.textFrame (some imsg))).completionNotices ++ [tc + quietPeriod] ∧
    (advance T (play (step t0 s0 (Event.textFrame (some imsg)))
        (turnFrames ((t1, c1) :: rest) tc cmsg))).isAudioComplete = true ∧
    (advance T (play (step t0 s0 (Event.textFrame (some imsg)))
        (turnFrames ((t1, c1) :: rest) tc cmsg))).timers = [] := by
  -- the state after the intent
  have hI : step t0 s0 (Event.textFrame (some imsg)) = handleIntent t0 s0 := by
    simp only [step]
    exact onText_intent t0 imsg s0 hty hval
  obtain ⟨_, _, _, i4, i5, _⟩ := handleIntent_timers t0 s0
  have hinvI : Inv (step t0 s0 (Event.textFrame (some imsg))) := Inv_step t0 s0 _ hinv
  rw [hI] at hinvI ⊢
  -- the clock reaches the first chunk
  have hadv : Inv (advance t1 (handleIntent t0 s0)) ∧
      (advance t1 (handleIntent t0 s0)).assistantAudioChunks = [] ∧
      (advance t1 (handleIntent t0 s0)).isAudioComplete
        = (handleIntent t0 s0).isAudioComplete ∧
      (advance t1 (handleIntent t0 s0)).completionNotices
        = (handleIntent t0 s0).completionNotices :=
    advanceFuel_of_no_chunks _ t1 _ hinvI i4
  obtain ⟨a1, _, a3, a4⟩ := hadv
  -- the first chunk and the rest of the burst
  have hA := Armed_onBinary t1 c1 _ hc1 a1
  obtain ⟨l1, l2⟩ := onBinary_logs t1 c1 (advance t1 (handleIntent t0 s0))
  have l3 := onBinary_complete t1 c1 (advance t1 (handleIntent t0 s0))
  obtain ⟨b1, _, b3, b4⟩ := play_burst rest t1 _ hA hsp hne
  -- the complete message
  have hearly := advance_of_armed_early (lastTime t1 rest) tc _ b1 h2
  have hinvB := Armed_inv _ _ b1
  obtain ⟨_, _, _, _, _, _, hch⟩ := b1
  have hC := Armed_handleComplete tc _ hch hinvB
  obtain ⟨_, _, d3, _⟩ := handleComplete_data tc
    (play (onBinaryMessage t1 c1 (advance t1 (handleIntent t0 s0))) (chunkEvents rest))
  have d4 := handleComplete_complete tc
    (play (onBinaryMessage t1 c1 (advance t1 (handleIntent t0 s0))) (chunkEvents rest))
  have hplay : play (handleIntent t0 s0) (turnFrames ((t1, c1) :: rest) tc cmsg)
      = handleComplete tc
          (play (onBinaryMessage t1 c1 (advance t1 (handleIntent t0 s0)))
            (chunkEvents rest)) := by
    show play (handleIntent t0 s0)
        ((t1, Event.binaryFrame c1) ::
          (chunkEvents rest ++ [(tc, Event.textFrame (some cmsg))])) = _
    rw [play, play_append]
    simp only [play, step]
    rw [onText_complete tc cmsg _ hcty]
    exact congrArg (handleComplete tc) hearly
  rw [hplay]
  have hnot : (handleComplete tc
      (play (onBinaryMessage t1 c1 (advance t1 (handleIntent t0 s0)))
        (chunkEvents rest))).completionNotices = (handleIntent t0 s0).completionNotices := by
    rw [d3, b3, l2]
    exact a4
  have hflag : (handleComplete tc
      (play (onBinaryMessage t1 c1 (advance t1 (handleIntent t0 s0)))
        (chunkEvents rest))).isAudioComplete = false := by
    rw [d4, b4, l3]
    exact a3.trans i5
  have hC' := hC
  obtain ⟨tm, ht, hdue, _, _, _, hch2⟩ := hC'
  obtain ⟨f1, _, f3, _⟩ := fireTimer_of_armed (tc + quietPeriod) _ tm ht hch2
  obtain ⟨g1, g2⟩ := f3 hflag
  refine ⟨hnot, hflag, ?_, ?_, ?_, ?_⟩
  · intro u hu
    exact advance_of_armed_early tc u _ hC hu
  · rw [advance_of_armed_late tc T _ tm ht hdue hT, g2, hnot]
  · rw [advance_of_armed_late tc T _ tm ht hdue hT]
    exact g1
  · rw [advance_of_armed_late tc T _ tm ht hdue hT]
    exact f1

/-- Witness for C3 (amended): chunks of 100, 250 and 80 bytes at 500, 1000 and
1500 ms, complete at 2000 ms; the notice is shown at 5000 ms. -/
theorem completion_fires_after_complete_witness :
    (advance 10000
        (play (step 0 State.initial (Event.textFrame (some (intentMsg "chat"))))
          (turnFrames [(500, List.replicate 100 0), (1000, List.replicate 250 0),
                       (1500, List.replicate 80 0)] 2000 completeMsg))).completionNotices
      = [5000] ∧
    (advance 10000
        (play (step 0 State.initial (Event.textFrame (some (intentMsg "chat"))))
          (turnFrames [(500, List.replicate 100 0), (1000, List.replicate 250 0),
                       (1500, List.replicate 80 0)] 2000 completeMsg))).isAudioComplete
      = true := by
  have h := completion_fires_after_complete State.initial Inv_initial 0 (intentMsg "chat")
    (by rfl) (by rfl) 500 (List.replicate 100 0) (by decide)
    [(1000, List.replicate 250 0), (1500, List.replicate 80 0)] (by decide) (by decide)
    2000 completeMsg (by rfl) (by decide) 10000 (by decide)
  exact ⟨h.2.2.2.1, h.2.2.2.2.1⟩

/-! ## Facts about the page -/

theorem findAssistant_eq_find (t : Nat) (l : List Element) :
    findAssistant t l = (assistants l).find? (fun m => m.t == t) := by
  induction l with
  | nil => rfl
  | cons e rest ih =>
      cases e with
      | assistant m =>
          simp only [findAssistant, assistants, List.find?_cons]
          by_cases h : m.t = t
          · simp [h]
          · have hb : (m.t == t) = false := by simpa using h
            simp [hb, ih]
      | _ => simpa only [findAssistant, assistants] using ih

theorem findAssistant_congr (t : Nat) (l l' : List Element)
    (h : assistants l' = assistants l) : findAssistant t l' = findAssistant t l := by
  rw [findAssistant_eq_find, findAssistant_eq_find, h]

theorem findAssistant_mem (t : Nat) (l : List Element) (m : AssistantMsg)
    (h : findAssistant t l = some m) : m ∈ assistants l ∧ m.t = t := by
  rw [findAssistant_eq_find] at h
  exact ⟨List.mem_of_find?_eq_some h, by simpa using List.find?_some h⟩

theorem assistants_removeFirst (p : Element → Bool) (hp : ∀ m, p (Element.assistant m) = false)
    (l : List Element) : assistants (removeFirst p l) = assistants l := by
  induction l with
  | nil => rfl
  | cons e rest ih =>
      simp only [removeFirst]
      split
      · rename_i hpe
        cases e with
        | assistant m => simp [hp m] at hpe
        | _ => simp only [assistants]
      · cases e with
        | assistant m => simp only [assistants, ih]
        | _ => simpa only [assistants] using ih

theorem assistants_removeLoading (l : List Element) :
    assistants (removeFirst Element.isLoading l) = assistants l :=
  assistants_removeFirst _ (fun _ => rfl) l

theorem assistants_removeWelcome (l : List Element) :
    assistants (removeFirst Element.isWelcome l) = assistants l :=
  assistants_removeFirst _ (fun _ => rfl) l

theorem assistants_append (l l' : List Element) :
    assistants (l ++ l') = assistants l ++ assistants l' := by
  induction l with
  | nil => rfl
  | cons e rest ih =>
      cases e with
      | assistant m =>
          show assistants (Element.assistant m :: (rest ++ l')) = _
          simp only [assistants, ih, List.cons_append]
      | welcome =>
          show assistants (Element.welcome :: (rest ++ l')) = _
          simpa only [assistants] using ih
      | user u c =>
          show assistants (Element.user u c :: (rest ++ l')) = _
          simpa only [assistants] using ih
      | loading u =>
          show assistants (Element.loading u :: (rest ++ l')) = _
          simpa only [assistants] using ih

theorem assistants_modifyUser (t : Nat) (f : UserContent → UserContent) (l : List Element) :
    assistants (modifyUser t f l) = assistants l := by
  induction l with
  | nil => rfl
  | cons e rest ih =>
      cases e with
      | user u c =>
          simp only [modifyUser]
          split
          · simp only [assistants]
          · simpa only [assistants] using ih
      | assistant m => simp only [modifyUser, assistants, ih]
      | _ => simpa only [modifyUser, assistants] using ih

/-- An element of the page after an in-place update is an old element or the
update of an old element with the id that was looked up. -/
theorem mem_assistants_modifyAssistant (t : Nat) (f : AssistantMsg → AssistantMsg)
    (l : List Element) (x : AssistantMsg) (hx : x ∈ assistants (modifyAssistant t f l)) :
    x ∈ assistants l ∨ ∃ m ∈ assistants l, m.t = t ∧ x = f m := by
  induction l with
  | nil => simp [modifyAssistant, assistants] at hx
  | cons e rest ih =>
      cases e with
      | assistant m =>
          simp only [modifyAssistant] at hx
          split at hx
          · rename_i hmt
            simp only [assistants, List.mem_cons] at hx ⊢
            rcases hx with rfl | hx
            · exact Or.inr ⟨m, Or.inl rfl, by simpa using hmt, rfl⟩
            · exact Or.inl (Or.inr hx)
          · simp only [assistants, List.mem_cons] at hx ⊢
            rcases hx with rfl | hx
            · exact Or.inl (Or.inl rfl)
            · rcases ih hx with h | ⟨m', hm', h1, h2⟩
              · exact Or.inl (Or.inr h)
              · exact Or.inr ⟨m', Or.inr hm', h1, h2⟩
      | _ =>
          simp only [modifyAssistant, assistants] at hx ⊢
          exact ih hx

/-- Looking an id up after an in-place update that keeps ids. -/
theorem findAssistant_modifyAssistant (t u : Nat) (f : AssistantMsg → AssistantMsg)
    (hf : ∀ m, (f m).t = m.t) (l : List Element) :
    findAssistant u (modifyAssistant t f l)
      = if u = t then (findAssistant t l).map f else findAssistant u l := by
  induction l with
  | nil => simp [modifyAssistant, findAssistant]
  | cons e rest ih =>
      cases e with
      | assistant m =>
          simp only [modifyAssistant]
          by_cases hmt : m.t = t
          · by_cases hut : u = t
            · simp [hmt, hut, findAssistant, hf]
            · have h1 : ¬ t = u := fun h => hut h.symm
              simp [hmt, hut, findAssistant, hf, h1]
          · by_cases hut : u = t
            · subst hut
              simp [hmt, findAssistant, ih]
            · simp only [beq_iff_eq, hmt, if_false, findAssistant, ih, hut]
      | _ => simpa only [modifyAssistant, findAssistant] using ih

theorem updateTextDisplayButton_t (content : String) (c : Bool) (m : AssistantMsg) :
    (updateTextDisplayButton content c m).t = m.t := by
  unfold updateTextDisplayButton
  dsimp only
  split
  · rfl
  · split <;> rfl

theorem toggleMsg_t (m : AssistantMsg) : (toggleMsg m).t = m.t := by
  unfold toggleMsg
  split
  · rfl
  · dsimp only
    split <;> rfl

theorem createOrUpdate_of_found (now t : Nat) (m : AssistantMsg) (b : Option Blob) (c : Bool)
    (s : State) (h1 : s.currentAssistantAudioMessageId = some t)
    (h2 : findAssistant t s.chatMessages = some m) :
    createOrUpdateAssistantAudioMessage now b c s
      = updateExistingMessage t m b c
          { s with chatMessages := removeFirst Element.isLoading s.chatMessages } := by
  have h3 : findAssistant t (removeFirst Element.isLoading s.chatMessages) = some m := by
    rw [findAssistant_congr t _ _ (assistants_removeLoading s.chatMessages)]
    exact h2
  unfold createOrUpdateAssistantAudioMessage
  simp only [h1, h3]

theorem createOrUpdate_of_not_found (now : Nat) (b : Option Blob) (c : Bool) (s : State)
    (h : currentMsg s = none) :
    createOrUpdateAssistantAudioMessage now b c s
      = createNewMessage now b c
          { s with chatMessages := removeFirst Element.isLoading s.chatMessages } := by
  unfold createOrUpdateAssistantAudioMessage
  unfold currentMsg at h
  cases hid : s.currentAssistantAudioMessageId with
  | none => rfl
  | some t =>
      rw [hid] at h
      change findAssistant t s.chatMessages = none at h
      have h3 : findAssistant t (removeFirst Element.isLoading s.chatMessages) = none := by
        rw [findAssistant_congr t _ _ (assistants_removeLoading s.chatMessages)]
        exact h
      dsimp only
      rw [h3]

theorem updateExistingMessage_some (t : Nat) (m : AssistantMsg) (b : Blob) (c : Bool)
    (s : State) :
    ∃ u, (updateExistingMessage t m (some b) c s).chatMessages
        = modifyAssistant t
            (fun e => updateTextDisplayButton s.assistantTextContent c
              { e with audio := refreshAudio u e.audio })
            s.chatMessages ∧
      (updateExistingMessage t m (some b) c s).currentAssistantAudioMessageId
        = s.currentAssistantAudioMessageId := by
  unfold updateExistingMessage
  cases hu : m.audio.audioUrl with
  | none => exact ⟨_, rfl, rfl⟩
  | some v => exact ⟨_, rfl, rfl⟩

theorem updateExistingMessage_none (t : Nat) (m : AssistantMsg) (c : Bool) (s : State) :
    (updateExistingMessage t m none c s).chatMessages = s.chatMessages ∧
    (updateExistingMessage t m none c s).currentAssistantAudioMessageId
      = s.currentAssistantAudioMessageId := by
  unfold updateExistingMessage
  cases hu : m.audio.audioUrl with
  | none => exact ⟨rfl, rfl⟩
  | some v => exact ⟨rfl, rfl⟩

theorem createNewMessage_some (now : Nat) (b : Blob) (c : Bool) (s : State) :
    ∃ created : AssistantMsg,
      (createNewMessage now (some b) c s).chatMessages
        = s.chatMessages ++ [Element.assistant created] ∧
      created.t = now ∧
      (c = false → created.revealed = false) ∧
      created.textShown = false ∧
      created.textVisible = none ∧
      (createNewMessage now (some b) c s).currentAssistantAudioMessageId = some now := by
  unfold createNewMessage
  refine ⟨_, rfl, rfl, ?_, rfl, rfl, rfl⟩
  intro hc
  subst hc
  rfl

/-! ## The reply text stays behind audio completion -/

theorem refreshed_t (content : String) (c : Bool) (u : Nat) (m : AssistantMsg) :
    (updateTextDisplayButton content c { m with audio := refreshAudio u m.audio }).t = m.t := by
  rw [updateTextDisplayButton_t]

/-- An update with `audioComplete = false` offers nothing new for reading. -/
theorem refreshed_revealed (content : String) (u : Nat) (m : AssistantMsg)
    (h : (updateTextDisplayButton content false
            { m with audio := refreshAudio u m.audio }).revealed = true) :
    m.revealed = true := by
  unfold updateTextDisplayButton at h
  simp only [Bool.false_and, Bool.false_eq_true, if_false] at h
  split at h
  · rename_i hv
    simp only [Bool.and_eq_true, beq_iff_eq] at hv
    simp [AssistantMsg.revealed, hv.1]
  · simpa [AssistantMsg.revealed, AssistantMsg.textShown] using h

/-- No update makes text show that was not already marked as toggled. -/
theorem refreshed_shown (content : String) (c : Bool) (u : Nat) (m : AssistantMsg)
    (h : (updateTextDisplayButton content c
            { m with audio := refreshAudio u m.audio }).textShown = true ∨
         (updateTextDisplayButton content c
            { m with audio := refreshAudio u m.audio }).textVisible = some "true") :
    m.textShown = true ∨ m.textVisible = some "true" := by
  unfold updateTextDisplayButton at h
  dsimp only at h
  split at h
  · rename_i hv
    simp only [Bool.and_eq_true, Bool.not_eq_true', beq_eq_false_iff_ne, ne_eq] at hv
    rcases h with h | h
    · simp [AssistantMsg.textShown] at h
    · exact absurd h hv.2
  · split at h
    · rename_i hv
      simp only [Bool.and_eq_true, beq_iff_eq] at hv
      exact Or.inr hv.1
    · simpa [AssistantMsg.textShown] using h

/-- A step that leaves the assistant messages alone keeps the text gate. -/
theorem TextGate_neutral (clock now : Nat) (toggled toggled' : List Nat) (s a : State)
    (hg : TextGate clock toggled s) (hle : clock ≤ now) (htog : ∀ x ∈ toggled, x ∈ toggled')
    (hinv : Inv a) (hsub : ∀ tm ∈ a.timers, tm ∈ s.timers)
    (hA : assistants a.chatMessages = assistants s.chatMessages)
    (hid : a.currentAssistantAudioMessageId = none ∨
      a.currentAssistantAudioMessageId = s.currentAssistantAudioMessageId)
    (hch : a.assistantAudioChunks = [] ∨
      (a.assistantAudioChunks = s.assistantAudioChunks ∧
       a.currentAssistantAudioMessageId = s.currentAssistantAudioMessageId))
    (hfl : a.currentAssistantAudioMessageId = none ∨ a.isAudioComplete = true ∨
      a.isAudioComplete = s.isAudioComplete) :
    TextGate now toggled' a := by
  have hfind : ∀ t, findAssistant t a.chatMessages = findAssistant t s.chatMessages :=
    fun t => findAssistant_congr t _ _ hA
  refine ⟨hinv, ?_, ?_, ?_, ?_, ?_, ?_⟩
  · intro t ht
    rcases hid with h | h
    · rw [h] at ht
      exact Option.noConfusion ht
    · rw [h] at ht
      exact le_trans (hg.cur_le t ht) hle
  · intro tm htm t ht
    rcases hid with h | h
    · rw [h] at ht
      exact Option.noConfusion ht
    · rw [h] at ht
      exact hg.due tm (hsub tm htm) t ht
  · intro hne
    rcases hch with h | ⟨h1, h2⟩
    · exact absurd h hne
    · rw [h1] at hne
      rw [h2]
      obtain ⟨t, m, e1, e2⟩ := hg.chunks hne
      exact ⟨t, m, e1, (hfind t).trans e2⟩
  · intro m hm hr
    rw [hA] at hm
    exact le_trans (hg.old m hm hr) hle
  · intro t m ht hf hr
    rcases hfl with h | h | h
    · rw [h] at ht
      exact Option.noConfusion ht
    · exact h
    · rcases hid with h' | h'
      · rw [h'] at ht
        exact Option.noConfusion ht
      · rw [h]
        rw [h'] at ht
        rw [hfind] at hf
        exact hg.gated t m ht hf hr
  · intro m hm hs
    rw [hA] at hm
    exact htog _ (hg.hist m hm hs)

/-- An in-place update of the message with id `t` keeps the text gate, provided the
update offers for reading only a message that is old enough, and shows text
only on a message that has been toggled. -/
theorem TextGate_modify (clock now : Nat) (toggled toggled' : List Nat) (s a : State)
    (hg : TextGate clock toggled s) (hle : clock ≤ now) (htog : ∀ x ∈ toggled, x ∈ toggled')
    (hinv : Inv a) (t : Nat) (f : AssistantMsg → AssistantMsg) (hf : ∀ m, (f m).t = m.t)
    (l0 : List Element) (hl0 : assistants l0 = assistants s.chatMessages)
    (hcm : a.chatMessages = modifyAssistant t f l0)
    (hid : a.currentAssistantAudioMessageId = s.currentAssistantAudioMessageId)
    (htm : ∀ tm ∈ a.timers, tm ∈ s.timers ∨ now + quietPeriod ≤ tm.due)
    (hchunks : a.assistantAudioChunks ≠ [] → s.assistantAudioChunks ≠ [] ∨
      (s.currentAssistantAudioMessageId = some t ∧
        ∃ m, findAssistant t s.chatMessages = some m))
    (hold : ∀ m ∈ assistants s.chatMessages, m.t = t → (f m).revealed = true →
      m.revealed = true ∨ t + quietPeriod ≤ now)
    (hgat : a.isAudioComplete = true ∨
      (a.isAudioComplete = s.isAudioComplete ∧
        ∀ m, findAssistant t s.chatMessages = some m → (f m).revealed = true →
          m.revealed = true))
    (hhist : ∀ m ∈ assistants s.chatMessages, m.t = t →
      ((f m).textShown = true ∨ (f m).textVisible = some "true") →
      (m.textShown = true ∨ m.textVisible = some "true") ∨ t ∈ toggled') :
    TextGate now toggled' a := by
  have hfind : ∀ u, findAssistant u a.chatMessages
      = if u = t then (findAssistant t s.chatMessages).map f
        else findAssistant u s.chatMessages := by
    intro u
    rw [hcm, findAssistant_modifyAssistant t u f hf l0, findAssistant_congr t _ _ hl0,
      findAssistant_congr u _ _ hl0]
  have hmem : ∀ x ∈ assistants a.chatMessages,
      x ∈ assistants s.chatMessages ∨ ∃ m ∈ assistants s.chatMessages, m.t = t ∧ x = f m := by
    intro x hx
    rw [hcm] at hx
    have := mem_assistants_modifyAssistant t f l0 x hx
    rw [hl0] at this
    exact this
  refine ⟨hinv, ?_, ?_, ?_, ?_, ?_, ?_⟩
  · intro u hu
    rw [hid] at hu
    exact le_trans (hg.cur_le u hu) hle
  · intro tm hmem' u hu
    rw [hid] at hu
    rcases htm tm hmem' with h | h
    · exact hg.due tm h u hu
    · have := hg.cur_le u hu
      omega
  · intro hne
    rw [hid]
    rcases hchunks hne with h | ⟨h1, m, h2⟩
    · obtain ⟨u, m, e1, e2⟩ := hg.chunks h
      refine ⟨u, ?_, e1, ?_⟩
      · exact (if u = t then f m else m)
      · rw [hfind u]
        by_cases hut : u = t
        · subst hut
          simp [e2]
        · simp [hut, e2]
    · exact ⟨t, f m, h1, by rw [hfind t]; simp [h2]⟩
  · intro x hx hr
    rcases hmem x hx with h | ⟨m, hm, hmt, rfl⟩
    · exact le_trans (hg.old x h hr) hle
    · rw [hf m, hmt]
      rcases hold m hm hmt hr with h | h
      · have := hg.old m hm h
        rw [hmt] at this
        omega
      · exact h
  · intro u x hu hx hr
    rcases hgat with h | ⟨h1, h2⟩
    · exact h
    · rw [h1]
      rw [hid] at hu
      rw [hfind u] at hx
      by_cases hut : u = t
      · subst hut
        simp only [if_true] at hx
        cases hm : findAssistant u s.chatMessages with
        | none => simp [hm] at hx
        | some m =>
            rw [hm] at hx
            simp only [Option.map_some', Option.some.injEq] at hx
            subst hx
            exact hg.gated u m hu hm (h2 m hm hr)
      · simp only [hut, if_false] at hx
        exact hg.gated u x hu hx hr
  · intro x hx hs
    rcases hmem x hx with h | ⟨m, hm, hmt, rfl⟩
    · exact htog _ (hg.hist x h hs)
    · rw [hf m, hmt]
      rcases hhist m hm hmt hs with h | h
      · have := hg.hist m hm h
        rw [hmt] at this
        exact htog _ this
      · exact h

/-- Appending a fresh message that is not offered for reading, and making it the
current one, keeps the text gate. -/
theorem TextGate_create (clock now : Nat) (toggled : List Nat) (s a : State)
    (hg : TextGate clock toggled s) (hle : clock ≤ now) (hinv : Inv a)
    (l0 : List Element) (hl0 : assistants l0 = assistants s.chatMessages)
    (created : AssistantMsg) (hcm : a.chatMessages = l0 ++ [Element.assistant created])
    (ht : created.t = now) (hr : created.revealed = false)
    (hs : created.textShown = false) (hv : created.textVisible = none)
    (hid : a.currentAssistantAudioMessageId = some now)
    (htm : ∀ tm ∈ a.timers, now + quietPeriod ≤ tm.due) :
    TextGate now toggled a := by
  have hA : assistants a.chatMessages = assistants s.chatMessages ++ [created] := by
    rw [hcm, assistants_append, hl0]
    rfl
  refine ⟨hinv, ?_, ?_, ?_, ?_, ?_, ?_⟩
  · intro u hu
    rw [hid] at hu
    simp only [Option.some.injEq] at hu
    omega
  · intro tm htm' u hu
    rw [hid] at hu
    simp only [Option.some.injEq] at hu
    subst hu
    exact htm tm htm'
  · intro _
    have : ((assistants a.chatMessages).find? (fun m => m.t == now)).isSome = true := by
      rw [List.find?_isSome]
      exact ⟨created, by rw [hA]; simp, by simp [ht]⟩
    rw [← findAssistant_eq_find] at this
    obtain ⟨m, hm⟩ := Option.isSome_iff_exists.mp this
    exact ⟨now, m, hid, hm⟩
  · intro m hm hrev
    rw [hA] at hm
    rcases List.mem_append.mp hm with h | h
    · exact le_trans (hg.old m h hrev) hle
    · simp only [List.mem_singleton] at h
      subst h
      rw [hr] at hrev
      exact Bool.noConfusion hrev
  · intro u x hu hx hrev
    rw [hid] at hu
    simp only [Option.some.injEq] at hu
    subst hu
    obtain ⟨hmem, hxt⟩ := findAssistant_mem _ _ _ hx
    rw [hA] at hmem
    rcases List.mem_append.mp hmem with h | h
    · have := hg.old x h hrev
      have hq : quietPeriod = 3000 := rfl
      omega
    · simp only [List.mem_singleton] at h
      subst h
      rw [hr] at hrev
      exact Bool.noConfusion hrev
  · intro m hm hshown
    rw [hA] at hm
    rcases List.mem_append.mp hm with h | h
    · exact hg.hist m h hshown
    · simp only [List.mem_singleton] at h
      subst h
      rcases hshown with h' | h'
      · rw [hs] at h'
        exact Bool.noConfusion h'
      · rw [hv] at h'
        exact Option.noConfusion h'

theorem assistants_append_loading (l : List Element) (t : Nat) :
    assistants (l ++ [Element.loading t]) = assistants l := by
  rw [assistants_append]
  simp [assistants]

theorem assistants_append_user (l : List Element) (t : Nat) (c : UserContent) :
    assistants (l ++ [Element.user t c]) = assistants l := by
  rw [assistants_append]
  simp [assistants]

theorem handleIntent_view (now : Nat) (s : State) :
    assistants (handleIntent now s).chatMessages = assistants s.chatMessages ∧
    (handleIntent now s).currentAssistantAudioMessageId = none := by
  simp [handleIntent, showAssistantLoading, clearWelcomeMessage, assistants_append_loading,
    assistants_removeLoading, assistants_removeWelcome]

theorem endSpeaking_view (now : Nat) (s : State) :
    assistants (endSpeaking now s).chatMessages = assistants s.chatMessages ∧
    (endSpeaking now s).currentAssistantAudioMessageId = s.currentAssistantAudioMessageId ∧
    (endSpeaking now s).isAudioComplete = s.isAudioComplete := by
  unfold endSpeaking
  dsimp only
  split <;> simp [addUserMessage, clearWelcomeMessage, assistants_append_user,
    assistants_removeWelcome]

theorem disconnect_view (now : Nat) (s : State) :
    assistants (disconnect now s).chatMessages = assistants s.chatMessages ∧
    (disconnect now s).currentAssistantAudioMessageId = none := by
  obtain ⟨e1, _, _⟩ := endSpeaking_view now s
  unfold disconnect
  dsimp only
  split <;> split <;> simp [resetButtons, e1]

theorem onClose_view (now : Nat) (s : State) :
    assistants (onClose now s).chatMessages = assistants s.chatMessages ∧
    (onClose now s).currentAssistantAudioMessageId = none := by
  simp [onClose, resetButtons]

theorem onBinary_view (now : Nat) (d : Chunk) (s : State) (hd : d ≠ []) :
    ∃ s1 : State, ∃ b : Blob,
      s1.chatMessages = s.chatMessages ∧
      s1.currentAssistantAudioMessageId = s.currentAssistantAudioMessageId ∧
      (onBinaryMessage now d s).chatMessages
        = (createOrUpdateAssistantAudioMessage now (some b) false s1).chatMessages ∧
      (onBinaryMessage now d s).currentAssistantAudioMessageId
        = (createOrUpdateAssistantAudioMessage now (some b) false
            s1).currentAssistantAudioMessageId := by
  obtain ⟨tms, v, hf⟩ := forgetCompletionTimer_frame
    { s with assistantAudioChunks := s.assistantAudioChunks ++ [d], lastAudioChunkTime := now }
  refine ⟨{ forgetCompletionTimer
              { s with assistantAudioChunks := s.assistantAudioChunks ++ [d],
                       lastAudioChunkTime := now } with
            assistantAudioBlob := some (Blob.ofParts (s.assistantAudioChunks ++ [d])) },
    Blob.ofParts (s.assistantAudioChunks ++ [d]), ?_, ?_, ?_, ?_⟩
  · rw [hf]
  · rw [hf]
  · rw [onBinary_eq now d s hd]
    simp only [setTimeout]
  · rw [onBinary_eq now d s hd]
    simp only [setTimeout]

theorem handleComplete_view (now : Nat) (s : State) (hc : s.assistantAudioChunks ≠ []) :
    ∃ s1 : State, ∃ b : Blob,
      assistants s1.chatMessages = assistants s.chatMessages ∧
      s1.currentAssistantAudioMessageId = s.currentAssistantAudioMessageId ∧
      (handleComplete now s).chatMessages
        = (createOrUpdateAssistantAudioMessage now (some b) false s1).chatMessages ∧
      (handleComplete now s).currentAssistantAudioMessageId
        = (createOrUpdateAssistantAudioMessage now (some b) false
            s1).currentAssistantAudioMessageId := by
  obtain ⟨tms, hf⟩ := clearCompletionTimer_frame (createOrUpdateAssistantAudioMessage now
      (some (Blob.ofParts s.assistantAudioChunks)) false
      { s with speakBtnDisabled := false,
               chatMessages := removeFirst Element.isLoading s.chatMessages,
               assistantAudioBlob := some (Blob.ofParts s.assistantAudioChunks) })
  refine ⟨{ s with speakBtnDisabled := false,
                   chatMessages := removeFirst Element.isLoading s.chatMessages,
                   assistantAudioBlob := some (Blob.ofParts s.assistantAudioChunks) },
    Blob.ofParts s.assistantAudioChunks, ?_, ?_, ?_, ?_⟩
  · exact assistants_removeLoading s.chatMessages
  · rfl
  · rw [handleComplete_eq now s hc, hf]
    simp only [setTimeout]
  · rw [handleComplete_eq now s hc, hf]
    simp only [setTimeout]

/-- The effect of `createOrUpdateAssistantAudioMessage(blob, false)` on the text gate:
the caller supplies the facts about the fields the function does not touch. -/
theorem TextGate_createOrUpdate_false (clock now : Nat) (toggled : List Nat) (s s1 a : State)
    (b : Blob) (hg : TextGate clock toggled s) (hle : clock ≤ now) (hinv : Inv a)
    (h1 : assistants s1.chatMessages = assistants s.chatMessages)
    (h2 : s1.currentAssistantAudioMessageId = s.currentAssistantAudioMessageId)
    (h3 : a.chatMessages
      = (createOrUpdateAssistantAudioMessage now (some b) false s1).chatMessages)
    (h4 : a.currentAssistantAudioMessageId
      = (createOrUpdateAssistantAudioMessage now (some b) false
          s1).currentAssistantAudioMessageId)
    (htm : ∀ tm ∈ a.timers, now + quietPeriod ≤ tm.due)
    (hfl : a.isAudioComplete = s.isAudioComplete) :
    TextGate now toggled a := by
  cases hcur : currentMsg s1 with
  | none =>
      rw [createOrUpdate_of_not_found now (some b) false s1 hcur] at h3 h4
      obtain ⟨created, c1, c2, c3, c4, c5, c6⟩ := createNewMessage_some now b false
        { s1 with chatMessages := removeFirst Element.isLoading s1.chatMessages }
      rw [c1] at h3
      rw [c6] at h4
      exact TextGate_create clock now toggled s a hg hle hinv _
        ((assistants_removeLoading s1.chatMessages).trans h1) created h3 c2 (c3 rfl) c4 c5 h4
        htm
  | some m =>
      unfold currentMsg at hcur
      cases hid : s1.currentAssistantAudioMessageId with
      | none =>
          rw [hid] at hcur
          exact Option.noConfusion hcur
      | some t =>
          rw [hid] at hcur
          change findAssistant t s1.chatMessages = some m at hcur
          rw [createOrUpdate_of_found now t m (some b) false s1 hid hcur] at h3 h4
          obtain ⟨u, u1, u2⟩ := updateExistingMessage_some t m b false
            { s1 with chatMessages := removeFirst Element.isLoading s1.chatMessages }
          rw [u1] at h3
          rw [u2] at h4
          have hfs : findAssistant t s.chatMessages = some m := by
            rw [← findAssistant_congr t _ _ h1]
            exact hcur
          have hids : s.currentAssistantAudioMessageId = some t := by
            rw [← h2]
            exact hid
          exact TextGate_modify clock now toggled toggled s a hg hle (fun _ h => h) hinv t _
            (fun e => refreshed_t _ _ _ e) _
            ((assistants_removeLoading s1.chatMessages).trans h1) h3
            (h4.trans (hid.trans hids.symm))
            (fun tm h => Or.inr (htm tm h))
            (fun _ => Or.inr ⟨hids, m, hfs⟩)
            (fun e _ _ hr => Or.inl (refreshed_revealed _ _ e hr))
            (Or.inr ⟨hfl, fun e _ hr => refreshed_revealed _ _ e hr⟩)
            (fun e _ _ hs => Or.inl (refreshed_shown _ _ _ e hs))

theorem TextGate_mono (clock now : Nat) (toggled toggled' : List Nat) (s : State)
    (hg : TextGate clock toggled s) (hle : clock ≤ now) (htog : ∀ x ∈ toggled, x ∈ toggled') :
    TextGate now toggled' s :=
  TextGate_neutral clock now toggled toggled' s s hg hle htog hg.inv (fun _ h => h) rfl
    (Or.inr rfl) (Or.inr ⟨rfl, rfl⟩) (Or.inr (Or.inr rfl))

theorem TextGate_onBinary (clock now : Nat) (toggled : List Nat) (s : State) (d : Chunk)
    (hg : TextGate clock toggled s) (hle : clock ≤ now) :
    TextGate now toggled (onBinaryMessage now d s) := by
  by_cases hd : d = []
  · subst hd
    rw [onBinary_empty]
    exact TextGate_mono clock now toggled toggled s hg hle (fun _ h => h)
  · obtain ⟨s1, b, h1, h2, h3, h4⟩ := onBinary_view now d s hd
    obtain ⟨t1, _, _⟩ := onBinary_timers now d s hd hg.inv
    refine TextGate_createOrUpdate_false clock now toggled s s1 _ b hg hle
      (Inv_onBinary now d s hg.inv) (by rw [h1]) h2 h3 h4 ?_ (onBinary_complete now d s)
    intro tm htm
    rw [t1] at htm
    simp only [List.mem_singleton] at htm
    subst htm
    exact le_refl _

theorem TextGate_handleComplete (clock now : Nat) (toggled : List Nat) (s : State)
    (hg : TextGate clock toggled s) (hle : clock ≤ now) :
    TextGate now toggled (handleComplete now s) := by
  by_cases hc : s.assistantAudioChunks = []
  · rw [handleComplete_of_no_chunks now s hc]
    exact TextGate_neutral clock now toggled toggled s _ hg hle (fun _ h => h)
      (Inv_of_eq s _ rfl rfl rfl hg.inv) (fun _ h => h)
      (assistants_removeLoading s.chatMessages) (Or.inr rfl) (Or.inr ⟨rfl, rfl⟩)
      (Or.inr (Or.inr rfl))
  · obtain ⟨s1, b, h1, h2, h3, h4⟩ := handleComplete_view now s hc
    obtain ⟨t1, _, _⟩ := handleComplete_timers now s hc hg.inv
    refine TextGate_createOrUpdate_false clock now toggled s s1 _ b hg hle
      (Inv_handleComplete now s hg.inv) h1 h2 h3 h4 ?_ (handleComplete_complete now s)
    intro tm htm
    rw [t1] at htm
    simp only [List.mem_singleton] at htm
    subst htm
    exact le_refl _

theorem TextGate_onText (clock now : Nat) (toggled : List Nat) (s : State) (data : Option JVal)
    (hg : TextGate clock toggled s) (hle : clock ≤ now) :
    TextGate now toggled (onTextMessage now data s) := by
  apply onText_cases (fun a => TextGate now toggled a)
  · exact TextGate_mono clock now toggled toggled s hg hle (fun _ h => h)
  · exact TextGate_neutral clock now toggled toggled s _ hg hle (fun _ h => h)
      (Inv_of_eq s _ rfl rfl rfl hg.inv) (fun _ h => h) rfl (Or.inr rfl) (Or.inr ⟨rfl, rfl⟩)
      (Or.inr (Or.inr rfl))
  · intro msg
    unfold handleTranscript
    split
    · exact TextGate_neutral clock now toggled toggled s _ hg hle (fun _ h => h)
        (Inv_of_eq s _ rfl rfl rfl hg.inv) (fun _ h => h)
        (assistants_modifyUser _ _ s.chatMessages) (Or.inr rfl) (Or.inr ⟨rfl, rfl⟩)
        (Or.inr (Or.inr rfl))
    · exact TextGate_mono clock now toggled toggled s hg hle (fun _ h => h)
  · obtain ⟨h1, h2, h3, h4, _, _⟩ := handleIntent_timers now s
    obtain ⟨v1, v2⟩ := handleIntent_view now s
    exact TextGate_neutral clock now toggled toggled s _ hg hle (fun _ h => h)
      (Inv_of_eq s _ h1 h2 h3 hg.inv) (fun tm h => h1 ▸ h) v1 (Or.inl v2) (Or.inl h4)
      (Or.inl v2)
  · intro msg
    obtain ⟨txt, hf⟩ := handleTextChunk_frame msg s
    rw [hf]
    exact TextGate_neutral clock now toggled toggled s _ hg hle (fun _ h => h)
      (Inv_of_eq s _ rfl rfl rfl hg.inv) (fun _ h => h) rfl (Or.inr rfl) (Or.inr ⟨rfl, rfl⟩)
      (Or.inr (Or.inr rfl))
  · exact TextGate_handleComplete clock now toggled s hg hle
  · exact TextGate_neutral clock now toggled toggled s _ hg hle (fun _ h => h)
      (Inv_of_eq s _ rfl rfl rfl hg.inv) (fun _ h => h)
      (assistants_removeLoading s.chatMessages) (Or.inr rfl) (Or.inr ⟨rfl, rfl⟩)
      (Or.inr (Or.inr rfl))

theorem TextGate_toggle (clock now : Nat) (toggled : List Nat) (s : State) (t : Nat)
    (hg : TextGate clock toggled s) (hle : clock ≤ now)
    (hp : permitted s now (Event.toggleText (MsgId.assistant t)) = true) :
    TextGate now (t :: toggled) (toggleTextDisplay (MsgId.assistant t) s) := by
  simp only [permitted] at hp
  cases hm : findAssistant t s.chatMessages with
  | none => simp [hm] at hp
  | some m =>
      rw [hm] at hp
      simp only at hp
      have hrev : m.revealed = true := by simp [AssistantMsg.revealed, hp]
      obtain ⟨hmem, hmt⟩ := findAssistant_mem _ _ _ hm
      have hold := hg.old m hmem hrev
      rw [hmt] at hold
      refine TextGate_modify clock now toggled (t :: toggled) s _ hg hle
        (fun x h => List.mem_cons_of_mem _ h) (Inv_of_eq s _ rfl rfl rfl hg.inv) t toggleMsg
        toggleMsg_t s.chatMessages rfl rfl rfl (fun tm h => Or.inl h) (fun h => Or.inl h)
        (fun _ _ _ _ => Or.inr (le_trans hold hle)) (Or.inr ⟨rfl, ?_⟩)
        (fun _ _ _ _ => Or.inr (List.mem_cons_self _ _))
      intro e he _
      rw [hm] at he
      simp only [Option.some.injEq] at he
      subst he
      exact hrev

theorem completionCallback_of_guard (now : Nat) (s : State) (h1 : s.isAudioComplete = false)
    (h2 : s.assistantAudioChunks ≠ []) :
    completionCallback now s
      = createOrUpdateAssistantAudioMessage now s.assistantAudioBlob true
          { s with isAudioComplete := true,
                   completionNotices := s.completionNotices ++ [now] } := by
  have hpos : 0 < s.assistantAudioChunks.length := List.length_pos.mpr h2
  unfold completionCallback
  simp [h1, hpos]

theorem completionCallback_of_not_guard (now : Nat) (s : State)
    (h : s.isAudioComplete = true ∨ s.assistantAudioChunks = []) :
    completionCallback now s = s := by
  unfold completionCallback
  rcases h with h | h <;> simp [h]

theorem fireTimer_of_pending (now h : Nat) (s : State) (tm : Timer)
    (hfind : s.timers.find? (fun tm => tm.id == h) = some tm) :
    fireTimer now h s
      = completionCallback now
          { s with timers := s.timers.filter (fun tm => tm.id != h),
                   firedLog := s.firedLog ++ [(now, h)] } := by
  unfold fireTimer
  simp only [hfind]

/-- Updating the current message with `audioComplete = true` keeps the text gate when
the audio is complete and the message is at least one quiet period old. -/
theorem TextGate_update_true (now : Nat) (toggled : List Nat) (s s2 : State) (ob : Option Blob)
    (t : Nat) (m : AssistantMsg) (hg : TextGate now toggled s)
    (hcur : s.currentAssistantAudioMessageId = some t)
    (hfm : findAssistant t s.chatMessages = some m)
    (hage : t + quietPeriod ≤ now)
    (h1 : assistants s2.chatMessages = assistants s.chatMessages)
    (h2 : s2.currentAssistantAudioMessageId = s.currentAssistantAudioMessageId)
    (h3 : s2.timers = s.timers) (h4 : s2.audioCompleteTimer = s.audioCompleteTimer)
    (h5 : s2.timerSeq = s.timerSeq) (h6 : s2.isAudioComplete = true)
    (h7 : s2.assistantAudioChunks = s.assistantAudioChunks) :
    TextGate now toggled (updateExistingMessage t m ob true s2) := by
  obtain ⟨cm, ou, us, hfr⟩ := updateExistingMessage_frame t m ob true s2
  have hinv : Inv (updateExistingMessage t m ob true s2) := by
    rw [hfr]
    exact Inv_of_eq s _ h3 h4 h5 hg.inv
  have htimers : (updateExistingMessage t m ob true s2).timers = s.timers := by
    rw [hfr]
    exact h3
  have hflag : (updateExistingMessage t m ob true s2).isAudioComplete = true := by
    rw [hfr]
    exact h6
  have hchunks : (updateExistingMessage t m ob true s2).assistantAudioChunks
      = s.assistantAudioChunks := by
    rw [hfr]
    exact h7
  cases ob with
  | none =>
      obtain ⟨u1, u2⟩ := updateExistingMessage_none t m true s2
      refine TextGate_neutral now now toggled toggled s _ hg (le_refl _) (fun _ h => h) hinv
        (fun x hx => htimers ▸ hx) ?_ (Or.inr (u2.trans h2)) (Or.inr ⟨hchunks, u2.trans h2⟩)
        (Or.inr (Or.inl hflag))
      rw [u1]
      exact h1
  | some b =>
      obtain ⟨u, u1, u2⟩ := updateExistingMessage_some t m b true s2
      exact TextGate_modify now now toggled toggled s _ hg (le_refl _) (fun _ h => h) hinv t _
        (fun e => refreshed_t _ _ _ e) _ h1 u1 (u2.trans h2)
        (fun x hx => Or.inl (htimers ▸ hx)) (fun _ => Or.inr ⟨hcur, m, hfm⟩)
        (fun _ _ _ _ => Or.inr hage) (Or.inl hflag)
        (fun e _ _ hs => Or.inl (refreshed_shown _ _ _ e hs))

/-- The completion callback keeps the text gate when the current message is at least
one quiet period old. -/
theorem TextGate_completionCallback (now : Nat) (toggled : List Nat) (s : State)
    (hg : TextGate now toggled s)
    (hage : ∀ t, s.currentAssistantAudioMessageId = some t → t + quietPeriod ≤ now) :
    TextGate now toggled (completionCallback now s) := by
  by_cases hguard : s.isAudioComplete = false ∧ s.assistantAudioChunks ≠ []
  · obtain ⟨h1, h2⟩ := hguard
    obtain ⟨t, m, hcur, hfm⟩ := hg.chunks h2
    rw [completionCallback_of_guard now s h1 h2]
    rw [createOrUpdate_of_found now t m s.assistantAudioBlob true
      { s with isAudioComplete := true, completionNotices := s.completionNotices ++ [now] }
      hcur hfm]
    exact TextGate_update_true now toggled s _ s.assistantAudioBlob t m hg hcur hfm
      (hage t hcur) (assistants_removeLoading s.chatMessages) rfl rfl rfl rfl rfl rfl
  · rw [completionCallback_of_not_guard now s]
    · exact hg
    · by_cases hf : s.isAudioComplete = true
      · exact Or.inl hf
      · right
        by_contra hne
        exact hguard ⟨by simpa using hf, hne⟩

theorem TextGate_fireTimer (clock now : Nat) (toggled : List Nat) (s : State) (h : Nat)
    (hg : TextGate clock toggled s) (hle : clock ≤ now)
    (hp : permitted s now (Event.timeout h) = true) :
    TextGate now toggled (fireTimer now h s) := by
  cases hfind : s.timers.find? (fun tm => tm.id == h) with
  | none =>
      have : fireTimer now h s = s := by
        unfold fireTimer
        simp only [hfind]
      rw [this]
      exact TextGate_mono clock now toggled toggled s hg hle (fun _ h => h)
  | some tm =>
      have htm : tm ∈ s.timers := List.mem_of_find?_eq_some hfind
      have hid : tm.id = h := by simpa using List.find?_some hfind
      have hdue : tm.due ≤ now := by
        simp only [permitted, List.all_eq_true] at hp
        have := hp tm htm
        simpa [hid] using this
      rw [fireTimer_of_pending now h s tm hfind]
      apply TextGate_completionCallback
      · exact TextGate_neutral clock now toggled toggled s _ hg hle (fun _ h => h)
          (Inv_of_filter s _ _ rfl rfl rfl hg.inv) (fun x hx => List.mem_of_mem_filter hx)
          rfl (Or.inr rfl) (Or.inr ⟨rfl, rfl⟩) (Or.inr (Or.inr rfl))
      · intro t ht
        exact le_trans (hg.due tm htm t ht) hdue

/-- Every permitted event, handled at a clock reading that is not in the past,
keeps the text gate. -/
theorem TextGate_step (clock now : Nat) (toggled : List Nat) (s : State) (e : Event)
    (hg : TextGate clock toggled s) (hle : clock ≤ now) (hp : permitted s now e = true) :
    TextGate now (toggledIds [(now, e)] ++ toggled) (step now s e) := by
  cases e with
  | onopen =>
      exact TextGate_neutral clock now toggled _ s _ hg hle (fun _ h => h)
        (Inv_of_eq s _ rfl rfl rfl hg.inv) (fun _ h => h)
        (assistants_removeWelcome s.chatMessages) (Or.inl rfl) (Or.inl rfl) (Or.inl rfl)
  | textFrame data => exact TextGate_onText clock now toggled s data hg hle
  | binaryFrame d => exact TextGate_onBinary clock now toggled s d hg hle
  | onclose =>
      obtain ⟨h1, h2, h3, h4⟩ := onClose_timers now s
      obtain ⟨v1, v2⟩ := onClose_view now s
      exact TextGate_neutral clock now toggled _ s _ hg hle (fun _ h => h)
        (Inv_of_eq s _ h1 h2 h3 hg.inv) (fun tm h => h1 ▸ h) v1 (Or.inl v2) (Or.inl h4)
        (Or.inl v2)
  | timeout h => exact TextGate_fireTimer clock now toggled s h hg hle hp
  | toggleText id =>
      cases id with
      | assistant t => exact TextGate_toggle clock now toggled s t hg hle hp
      | user t => simp [permitted] at hp
      | loading t => simp [permitted] at hp
  | disconnect =>
      obtain ⟨h1, h2, h3, h4⟩ := disconnect_timers now s
      obtain ⟨v1, v2⟩ := disconnect_view now s
      exact TextGate_neutral clock now toggled _ s _ hg hle (fun _ h => h)
        (Inv_of_eq s _ h1 h2 h3 hg.inv) (fun tm h => h1 ▸ h) v1 (Or.inl v2) (Or.inl h4)
        (Or.inl v2)
  | endSpeaking =>
      obtain ⟨h1, h2, h3, h4⟩ := endSpeaking_timers now s
      obtain ⟨v1, v2, v3⟩ := endSpeaking_view now s
      exact TextGate_neutral clock now toggled _ s _ hg hle (fun _ h => h)
        (Inv_of_eq s _ h1 h2 h3 hg.inv) (fun tm h => h1 ▸ h) v1 (Or.inr v2)
        (Or.inr ⟨h4, v2⟩) (Or.inr (Or.inr v3))

theorem toggledIds_cons (p : Nat × Event) (rest : List (Nat × Event)) :
    toggledIds (p :: rest) = toggledIds [p] ++ toggledIds rest := by
  obtain ⟨now, e⟩ := p
  cases e with
  | toggleText id => cases id <;> simp [toggledIds]
  | _ => simp [toggledIds]

theorem TextGate_run (es : List (Nat × Event)) (clock : Nat) (toggled : List Nat) (s : State)
    (hg : TextGate clock toggled s) (hv : validRun clock s es = true) :
    ∃ clock', TextGate clock' (toggledIds es ++ toggled) (run s es) := by
  induction es generalizing clock toggled s with
  | nil => exact ⟨clock, hg⟩
  | cons p rest ih =>
      obtain ⟨now, e⟩ := p
      simp only [validRun, Bool.and_eq_true, decide_eq_true_eq] at hv
      obtain ⟨⟨hle, hp⟩, hrest⟩ := hv
      obtain ⟨c', hc'⟩ := ih now _ _ (TextGate_step clock now toggled s e hg hle hp) hrest
      refine ⟨c', TextGate_mono c' c' _ _ _ hc' (le_refl _) ?_⟩
      intro x hx
      rw [toggledIds_cons]
      simp only [List.mem_append] at hx ⊢
      tauto

theorem TextGate_initial : TextGate 0 [] State.initial := by
  refine ⟨Inv_initial, ?_, ?_, ?_, ?_, ?_, ?_⟩
  · intro t ht
    exact Option.noConfusion ht
  · intro tm htm
    simp [State.initial] at htm
  · intro h
    exact absurd rfl h
  · intro m hm
    simp [State.initial, assistants] at hm
  · intro t m ht
    exact Option.noConfusion ht
  · intro m hm
    simp [State.initial, assistants] at hm

/-- C8, as stated, fails: `toggleTextDisplay` can be called on the current
assistant message while its audio is still arriving.  After an intent, the
text "Hello" and one chunk, a call of `toggleTextDisplay` on the current
message shows the text although `isAudioComplete` is false. -/
theorem text_gate_counterexample :
    (run State.initial
        [(0, Event.textFrame (some (intentMsg "chat"))),
         (5, Event.textFrame (some (textChunkMsg "Hello"))),
         (10, Event.binaryFrame [1, 2, 3])]).currentAssistantAudioMessageId = some 10 ∧
    (currentMsg (run State.initial
        [(0, Event.textFrame (some (intentMsg "chat"))),
         (5, Event.textFrame (some (textChunkMsg "Hello"))),
         (10, Event.binaryFrame [1, 2, 3]),
         (20, Event.toggleText (MsgId.assistant 10))])).map
        (fun m => (m.textShown, m.text))
      = some (true, some ⟨"block", "Hello"⟩) ∧
    (run State.initial
        [(0, Event.textFrame (some (intentMsg "chat"))),
         (5, Event.textFrame (some (textChunkMsg "Hello"))),
         (10, Event.binaryFrame [1, 2, 3]),
         (20, Event.toggleText (MsgId.assistant 10))]).isAudioComplete = false := by
  refine ⟨?_, ?_, ?_⟩ <;> rfl

/-- C8, amended. The function `toggleTextDisplay` does not look at `isAudioComplete`;
the gate is that it is called by the toggle button, which a message gets only
from the completion callback.  In every state reached from the initial state
by a run in which clock readings do not decrease, timer callbacks run no earlier
than they are due, and `toggleTextDisplay` is called only on a message that
carries a toggle button: if the text of the current assistant message is
visible, then `isAudioComplete` is true and `toggleTextDisplay` has been
called on that message. -/
theorem text_gated_behind_completion (es : List (Nat × Event))
    (hv : validRun 0 State.initial es = true) (m : AssistantMsg)
    (hcur : currentMsg (run State.initial es) = some m) (hshown : m.textShown = true) :
    (run State.initial es).isAudioComplete = true ∧ m.t ∈ toggledIds es := by
  obtain ⟨c, hg⟩ := TextGate_run es 0 [] State.initial TextGate_initial hv
  unfold currentMsg at hcur
  cases hid : (run State.initial es).currentAssistantAudioMessageId with
  | none =>
      rw [hid] at hcur
      exact Option.noConfusion hcur
  | some t =>
      rw [hid] at hcur
      change findAssistant t (run State.initial es).chatMessages = some m at hcur
      have hrev : m.revealed = true := by simp [AssistantMsg.revealed, hshown]
      refine ⟨hg.gated t m hid hcur hrev, ?_⟩
      have := hg.hist m (findAssistant_mem _ _ _ hcur).1 (Or.inl hshown)
      simpa using this

/-- Witness for C8 (amended): intent, "Hello", one chunk, the callback at 3010 ms,
then a click on the toggle button. -/
theorem text_gated_behind_completion_witness :
    (run State.initial
        [(0, Event.textFrame (some (intentMsg "chat"))),
         (5, Event.textFrame (some (textChunkMsg "Hello"))),
         (10, Event.binaryFrame [1, 2, 3]),
         (3010, Event.timeout 1),
         (3020, Event.toggleText (MsgId.assistant 10))]).isAudioComplete = true ∧
    10 ∈ toggledIds
        [(0, Event.textFrame (some (intentMsg "chat"))),
         (5, Event.textFrame (some (textChunkMsg "Hello"))),
         (10, Event.binaryFrame [1, 2, 3]),
         (3010, Event.timeout 1),
         (3020, Event.toggleText (MsgId.assistant 10))] :=
  text_gated_behind_completion
    [(0, Event.textFrame (some (intentMsg "chat"))),
     (5, Event.textFrame (some (textChunkMsg "Hello"))),
     (10, Event.binaryFrame [1, 2, 3]),
     (3010, Event.timeout 1),
     (3020, Event.toggleText (MsgId.assistant 10))]
    (by rfl)
    { t := 10,
      audio := { audioUrl := some 2, onclickUrl := some 2, icon := Icon.speaker,
                 duration := DurationText.clickToPlay, opacity := "", cursor := "" },
      toggle := some hideLabel,
      text := some ⟨"block", "Hello"⟩,
      textVisible := some "true" }
    (by rfl) (by rfl)

/-! ## Revealing and hiding the text -/

theorem modifyAssistant_twice (t : Nat) (f g : AssistantMsg → AssistantMsg)
    (hg : ∀ m, (g m).t = m.t) (l : List Element) :
    modifyAssistant t f (modifyAssistant t g l) = modifyAssistant t (fun m => f (g m)) l := by
  induction l with
  | nil => rfl
  | cons e rest ih =>
      cases e with
      | assistant m =>
          by_cases hmt : m.t = t
          · simp [modifyAssistant, hmt, hg]
          · simp [modifyAssistant, hmt, ih]
      | _ => simp [modifyAssistant, ih]

theorem modifyAssistant_of_fixed (t : Nat) (f : AssistantMsg → AssistantMsg)
    (l : List Element) (m : AssistantMsg) (hfind : findAssistant t l = some m)
    (hfix : f m = m) : modifyAssistant t f l = l := by
  induction l with
  | nil => rfl
  | cons e rest ih =>
      cases e with
      | assistant x =>
          by_cases hxt : x.t = t
          · simp only [findAssistant, hxt, beq_self_eq_true, if_true, Option.some.injEq]
              at hfind
            subst hfind
            simp [modifyAssistant, hxt, hfix]
          · have hb : (x.t == t) = false := by simpa using hxt
            simp only [findAssistant, hb] at hfind
            simp [modifyAssistant, hxt, ih hfind]
      | welcome =>
          simp only [findAssistant] at hfind
          simp [modifyAssistant, ih hfind]
      | user u c =>
          simp only [findAssistant] at hfind
          simp [modifyAssistant, ih hfind]
      | loading u =>
          simp only [findAssistant] at hfind
          simp [modifyAssistant, ih hfind]

/-- Revealing a hidden message. -/
theorem toggleMsg_of_hidden (m : AssistantMsg) (td : TextDiv) (ht : m.text = some td)
    (hh : m.textShown = false) :
    toggleMsg m = { m with text := some { td with display := "block" },
                           textVisible := some "true",
                           toggle := m.toggle.map (fun _ => hideLabel) } := by
  have hv : (td.display != "none" && td.display != "") = false := by
    simpa [AssistantMsg.textShown, ht] using hh
  unfold toggleMsg
  simp only [ht]
  simp [hv]

/-- Hiding a message whose text shows. -/
theorem toggleMsg_of_shown (m : AssistantMsg) (td : TextDiv) (ht : m.text = some td)
    (hh : m.textShown = true) :
    toggleMsg m = { m with text := some { td with display := "none" },
                           textVisible := some "false",
                           toggle := m.toggle.map (fun _ => showLabel) } := by
  have hv : (td.display != "none" && td.display != "") = true := by
    simpa [AssistantMsg.textShown, ht] using hh
  unfold toggleMsg
  simp only [ht]
  simp [hv]

/-- Reveal, then hide, on the message element. -/
theorem toggleMsg_twice (m : AssistantMsg) (td : TextDiv) (ht : m.text = some td)
    (hh : m.textShown = false) :
    toggleMsg (toggleMsg m)
      = { m with text := some ⟨"none", td.content⟩,
                 textVisible := some "false",
                 toggle := m.toggle.map (fun _ => showLabel) } := by
  rw [toggleMsg_of_hidden m td ht hh]
  rw [toggleMsg_of_shown _ { td with display := "block" } rfl (by rfl)]
  cases hm : m.toggle <;> simp [hm]

/-- C11, as stated, fails on a message that has never been toggled: after an
intent, the text "Hello", one chunk and the completion callback, the current
message is hidden and has no `textVisible` marker; after `toggleTextDisplay`
is called on it twice the marker is "false", so the message is not back in
its original state. -/
theorem toggle_round_trip_counterexample :
    (currentMsg (run State.initial
        [(0, Event.textFrame (some (intentMsg "chat"))),
         (5, Event.textFrame (some (textChunkMsg "Hello"))),
         (10, Event.binaryFrame [1, 2, 3]),
         (3010, Event.timeout 1)])).map
        (fun m => (m.textShown, m.textVisible))
      = some (false, none) ∧
    (currentMsg (run State.initial
        [(0, Event.textFrame (some (intentMsg "chat"))),
         (5, Event.textFrame (some (textChunkMsg "Hello"))),
         (10, Event.binaryFrame [1, 2, 3]),
         (3010, Event.timeout 1),
         (3020, Event.toggleText (MsgId.assistant 10)),
         (3030, Event.toggleText (MsgId.assistant 10))])).map
        (fun m => (m.textShown, m.textVisible))
      = some (false, some "false") ∧
    currentMsg (run State.initial
        [(0, Event.textFrame (some (intentMsg "chat"))),
         (5, Event.textFrame (some (textChunkMsg "Hello"))),
         (10, Event.binaryFrame [1, 2, 3]),
         (3010, Event.timeout 1),
         (3020, Event.toggleText (MsgId.assistant 10)),
         (3030, Event.toggleText (MsgId.assistant 10))])
      ≠ currentMsg (run State.initial
        [(0, Event.textFrame (some (intentMsg "chat"))),
         (5, Event.textFrame (some (textChunkMsg "Hello"))),
         (10, Event.binaryFrame [1, 2, 3]),
         (3010, Event.timeout 1)]) := by
  refine ⟨by rfl, by rfl, ?_⟩
  decide

/-- C11, amended. For a message whose text is hidden, the first call of
`toggleTextDisplay` shows the text, and the second hides it again: the
message then has display "none", the marker `textVisible` "false" and, if it
has a toggle, the label '显示原文'; its text content, the reply text and
everything else in the state are unchanged.  This is the original state
exactly when the message already had those three values, as it has after any
earlier round trip; a message that was never toggled has no marker before
and the marker "false" after. -/
theorem toggle_twice_hides_again (s : State) (t : Nat) (m : AssistantMsg) (td : TextDiv)
    (hfind : findAssistant t s.chatMessages = some m) (ht : m.text = some td)
    (hh : m.textShown = false) :
    (findAssistant t
        (toggleTextDisplay (MsgId.assistant t) s).chatMessages).map AssistantMsg.textShown
      = some true ∧
    findAssistant t
        (toggleTextDisplay (MsgId.assistant t)
          (toggleTextDisplay (MsgId.assistant t) s)).chatMessages
      = some { m with text := some ⟨"none", td.content⟩,
                      textVisible := some "false",
                      toggle := m.toggle.map (fun _ => showLabel) } ∧
    (toggleTextDisplay (MsgId.assistant t)
        (toggleTextDisplay (MsgId.assistant t) s)).assistantTextContent
      = s.assistantTextContent ∧
    toggleTextDisplay (MsgId.assistant t) (toggleTextDisplay (MsgId.assistant t) s)
      = { s with chatMessages :=
            modifyAssistant t (fun e => toggleMsg (toggleMsg e)) s.chatMessages } ∧
    (td.display = "none" → m.textVisible = some "false" →
      (∀ l, m.toggle = some l → l = showLabel) →
      toggleTextDisplay (MsgId.assistant t) (toggleTextDisplay (MsgId.assistant t) s) = s) := by
  have h2 : toggleTextDisplay (MsgId.assistant t) (toggleTextDisplay (MsgId.assistant t) s)
      = { s with chatMessages :=
            modifyAssistant t (fun e => toggleMsg (toggleMsg e)) s.chatMessages } := by
    simp only [toggleTextDisplay]
    rw [modifyAssistant_twice t toggleMsg toggleMsg toggleMsg_t]
  refine ⟨?_, ?_, ?_, h2, ?_⟩
  · simp only [toggleTextDisplay]
    rw [findAssistant_modifyAssistant t t toggleMsg toggleMsg_t, hfind]
    simp only [if_true, Option.map_some']
    rw [toggleMsg_of_hidden m td ht hh]
    rfl
  · rw [h2]
    simp only []
    rw [findAssistant_modifyAssistant t t _ (fun e => by rw [toggleMsg_t, toggleMsg_t]), hfind]
    simp only [if_true, Option.map_some']
    rw [toggleMsg_twice m td ht hh]
  · rw [h2]
  · intro hd hv hl
    rw [h2]
    have hfix : toggleMsg (toggleMsg m) = m := by
      rw [toggleMsg_twice m td ht hh]
      have htd : (⟨"none", td.content⟩ : TextDiv) = td := by
        cases td
        simp only at hd
        simp [hd]
      have htg : m.toggle.map (fun _ => showLabel) = m.toggle := by
        cases hm : m.toggle with
        | none => rfl
        | some l => simp [hl l hm]
      rw [htd, htg, ← ht, ← hv]
    rw [modifyAssistant_of_fixed t _ s.chatMessages m hfind hfix]

/-- Witness for C11 (amended): the never-toggled message of the counterexample
run; after the round trip it is hidden with the marker "false". -/
theorem toggle_twice_hides_again_witness :
    findAssistant 10
        (toggleTextDisplay (MsgId.assistant 10)
          (toggleTextDisplay (MsgId.assistant 10)
            (run State.initial
              [(0, Event.textFrame (some (intentMsg "chat"))),
               (5, Event.textFrame (some (textChunkMsg "Hello"))),
               (10, Event.binaryFrame [1, 2, 3]),
               (3010, Event.timeout 1)]))).chatMessages
      = some { t := 10,
               audio := { audioUrl := some 2, onclickUrl := some 2, icon := Icon.speaker,
                          duration := DurationText.clickToPlay, opacity := "", cursor := "" },
               toggle := some showLabel,
               text := some ⟨"none", "Hello"⟩,
               textVisible := some "false" } :=
  (toggle_twice_hides_again
    (run State.initial
      [(0, Event.textFrame (some (intentMsg "chat"))),
       (5, Event.textFrame (some (textChunkMsg "Hello"))),
       (10, Event.binaryFrame [1, 2, 3]),
       (3010, Event.timeout 1)])
    10
    { t := 10,
      audio := { audioUrl := some 2, onclickUrl := some 2, icon := Icon.speaker,
                 duration := DurationText.clickToPlay, opacity := "", cursor := "" },
      toggle := some showLabel,
      text := some ⟨"none", "Hello"⟩,
      textVisible := none }
    ⟨"none", "Hello"⟩ (by rfl) (by rfl) (by rfl)).2.1

/-! ## Closing the connection -/

/-- The close handler never takes its leftover-audio branch: `resetButtons()` has
emptied the buffer before the test `assistantAudioChunks.length > 0` is made. -/
theorem onClose_eq (now : Nat) (s : State) :
    onClose now s
      = { resetButtons { s with isSessionActive := false, wsReady := false } with
          assistantAudioChunks := [], assistantAudioBlob := none } := by
  simp [onClose, resetButtons]

/-- C12, as stated, fails: the close handler does not clear the reply text.  After
the socket opens and delivers an intent, the text "Hello" and one chunk, the
reply text is still "Hello" when the close handler has run. -/
theorem close_clears_text_counterexample :
    (run State.initial
        [(0, Event.onopen),
         (100, Event.textFrame (some (intentMsg "chat"))),
         (200, Event.textFrame (some (textChunkMsg "Hello"))),
         (300, Event.binaryFrame [1, 2, 3]),
         (400, Event.onclose)]).assistantTextContent = "Hello" ∧
    (run State.initial
        [(0, Event.onopen),
         (100, Event.textFrame (some (intentMsg "chat"))),
         (200, Event.textFrame (some (textChunkMsg "Hello"))),
         (300, Event.binaryFrame [1, 2, 3]),
         (400, Event.onclose)]).assistantTextContent ≠ "" := by
  constructor
  · rfl
  · decide

/-- C12, amended. For every prior state, after the connection-close handler has
run the session is inactive, the audio chunk buffer is empty, the artifact is
absent and there is no current assistant audio message; the reply text is
left as it was.  The reply text is emptied when the socket next opens. -/
theorem close_clears_audio_keeps_text (s : State) (now later : Nat) :
    (step now s Event.onclose).isSessionActive = false ∧
    (step now s Event.onclose).assistantAudioChunks = [] ∧
    (step now s Event.onclose).assistantAudioBlob = none ∧
    (step now s Event.onclose).currentAssistantAudioMessageId = none ∧
    (step now s Event.onclose).assistantTextContent = s.assistantTextContent ∧
    (step later (step now s Event.onclose) Event.onopen).assistantTextContent = "" := by
  simp only [step]
  rw [onClose_eq]
  simp [resetButtons, onOpen, clearWelcomeMessage]

/-! ## Frames whose handling raises an error -/

/-- What the handler leaves behind when it raises an error: the state is
unchanged, except when the frame is a `text_chunk` whose `text` is a truthy
value that is not a string but converts to one; then the reply text has
already grown by that conversion. -/
theorem onText_of_raises (now : Nat) (data : Option JVal) (s : State)
    (h : raisesError data = true) :
    onTextMessage now data s = s ∨
    ∃ msg d, data = some msg ∧ msg.get "type" = some (JVal.str "text_chunk") ∧
      truthy (msg.get "text") = true ∧ isString (msg.get "text") = false ∧
      jsString (msg.get "text") = some d ∧
      onTextMessage now data s
        = { s with assistantTextContent := s.assistantTextContent ++ d } := by
  cases data with
  | none => exact Or.inl rfl
  | some msg =>
      cases msg with
      | null => exact Or.inl rfl
      | obj fields =>
          simp only [raisesError] at h
          simp only [onTextMessage]
          cases hty : jsString ((JVal.obj fields).get "type") with
          | none => exact Or.inl rfl
          | some tyS =>
              rw [hty] at h
              simp only at h ⊢
              cases hg : (JVal.obj fields).get "type" with
              | none => exact Or.inl rfl
              | some v =>
                  rw [hg] at h
                  cases v with
                  | str ty =>
                      simp only at h ⊢
                      by_cases h1 : ty = "connected"
                      · simp only [h1, if_true] at h ⊢
                        have : (jsString ((JVal.obj fields).get "sessionId")).isSome
                            = false := by
                          cases hx : jsString ((JVal.obj fields).get "sessionId") <;>
                            simp [hx] at h ⊢
                        simp [this]
                      · by_cases h2 : ty = "transcript"
                        · simp only [h2, if_true] at h ⊢
                          have : (jsString ((JVal.obj fields).get "text")).isSome
                              = false := by
                            cases hx : jsString ((JVal.obj fields).get "text") <;>
                              simp [hx] at h ⊢
                          simp [this]
                        · by_cases h3 : ty = "intent"
                          · simp only [h3, if_true] at h ⊢
                            have : (jsString ((JVal.obj fields).get "value")).isSome
                                = false := by
                              cases hx : jsString ((JVal.obj fields).get "value") <;>
                                simp [hx] at h ⊢
                            simp [this]
                          · by_cases h4 : ty = "text_chunk"
                            · subst h4
                              simp only [h1, h2, h3, if_false, if_true, Bool.and_eq_true,
                                Bool.not_eq_true'] at h ⊢
                              simp only [handleTextChunk, h.1, if_true]
                              cases hx : jsString ((JVal.obj fields).get "text") with
                              | none => exact Or.inl rfl
                              | some d =>
                                  exact Or.inr ⟨_, d, rfl, hg, h.1, h.2, hx, rfl⟩
                            · by_cases h5 : ty = "complete"
                              · simp [h1, h2, h3, h4, h5] at h
                              · by_cases h6 : ty = "error"
                                · simp only [h1, h2, h3, h4, h5, h6, if_false, if_true]
                                    at h ⊢
                                  have : (jsString ((JVal.obj fields).get "message")).isSome
                                      = false := by
                                    cases hx : jsString ((JVal.obj fields).get "message") <;>
                                      simp [hx] at h ⊢
                                  simp [this]
                                · simp [h1, h2, h3, h4, h5, h6] at h
                  | _ => exact Or.inl rfl
      | _ => simp [raisesError, jsString, JVal.get] at h

/-- C13. The code at the failing input: a `text_chunk` frame whose `text` is the
number 5, received after an intent and the text "Hello".  Handling it raises
an error (a number has no `substring`), which is caught, but the reply text
has already become "Hello5": the state after the frame is not the state
before it. -/
theorem malformed_text_chunk_changes_state :
    raisesError (some (mkMsg "text_chunk" [("text", JVal.num 5)])) = true ∧
    (run State.initial
        [(0, Event.textFrame (some (intentMsg "chat"))),
         (5, Event.textFrame (some (textChunkMsg "Hello")))]).assistantTextContent
      = "Hello" ∧
    (run State.initial
        [(0, Event.textFrame (some (intentMsg "chat"))),
         (5, Event.textFrame (some (textChunkMsg "Hello"))),
         (9, Event.textFrame (some (mkMsg "text_chunk" [("text", JVal.num 5)])))]
      ).assistantTextContent
      = "Hello5" := by
  refine ⟨by rfl, by rfl, by rfl⟩

/-! ## Chunks that arrive after completion -/

theorem fireTimer_of_complete (now h : Nat) (s : State) (hc : s.isAudioComplete = true) :
    (fireTimer now h s).isAudioComplete = true ∧
    (fireTimer now h s).completionNotices = s.completionNotices ∧
    (fireTimer now h s).assistantAudioChunks = s.assistantAudioChunks ∧
    (fireTimer now h s).assistantAudioBlob = s.assistantAudioBlob := by
  cases hfind : s.timers.find? (fun tm => tm.id == h) with
  | none =>
      have : fireTimer now h s = s := by
        unfold fireTimer
        simp only [hfind]
      rw [this]
      exact ⟨hc, rfl, rfl, rfl⟩
  | some tm =>
      have key := completionCallback_of_not_guard now
        { s with timers := s.timers.filter (fun tm => tm.id != h),
                 firedLog := s.firedLog ++ [(now, h)] } (Or.inl hc)
      rw [fireTimer_of_pending now h s tm hfind, key]
      exact ⟨hc, rfl, rfl, rfl⟩

theorem Blob.size_ofParts_append (parts : List Chunk) (d : Chunk) :
    (Blob.ofParts (parts ++ [d])).size = (Blob.ofParts parts).size + d.length := by
  simp [Blob.size_ofParts]

/-- C14, as stated, fails: after an intent, a three-byte chunk and the completion
callback, `isAudioComplete` is true; a two-byte chunk that arrives then, before
any intent, is appended, and the artifact grows from 3 to 5 bytes. -/
theorem completion_freezes_artifact_counterexample :
    (run State.initial
        [(0, Event.textFrame (some (intentMsg "chat"))),
         (10, Event.binaryFrame [1, 2, 3]),
         (3010, Event.timeout 1)]).isAudioComplete = true ∧
    (run State.initial
        [(0, Event.textFrame (some (intentMsg "chat"))),
         (10, Event.binaryFrame [1, 2, 3]),
         (3010, Event.timeout 1)]).assistantAudioBlob = some ⟨[1, 2, 3]⟩ ∧
    (run State.initial
        [(0, Event.textFrame (some (intentMsg "chat"))),
         (10, Event.binaryFrame [1, 2, 3]),
         (3010, Event.timeout 1),
         (3500, Event.binaryFrame [4, 5])]).assistantAudioChunks = [[1, 2, 3], [4, 5]] ∧
    (run State.initial
        [(0, Event.textFrame (some (intentMsg "chat"))),
         (10, Event.binaryFrame [1, 2, 3]),
         (3010, Event.timeout 1),
         (3500, Event.binaryFrame [4, 5])]).assistantAudioBlob = some ⟨[1, 2, 3, 4, 5]⟩ := by
  refine ⟨by rfl, by rfl, by rfl, by rfl⟩

/-- C14, amended. Completion does not freeze the artifact.  When `isAudioComplete`
is true and a non-empty binary chunk arrives, the chunk is appended to the
buffer and the artifact is rebuilt from the whole buffer, so its size grows
by the length of the chunk.  What is final is the completion itself: the flag
stays true, and the callback of the timer that the chunk arms shows no second
completion notice and changes neither buffer nor artifact. -/
theorem late_chunk_is_appended (s : State) (now : Nat) (d : Chunk)
    (hc : s.isAudioComplete = true) (hd : d ≠ []) :
    (step now s (Event.binaryFrame d)).assistantAudioChunks
      = s.assistantAudioChunks ++ [d] ∧
    (step now s (Event.binaryFrame d)).assistantAudioBlob
      = some (Blob.ofParts (s.assistantAudioChunks ++ [d])) ∧
    (Blob.ofParts (s.assistantAudioChunks ++ [d])).size
      = (Blob.ofParts s.assistantAudioChunks).size + d.length ∧
    (step now s (Event.binaryFrame d)).isAudioComplete = true ∧
    (∀ t h : Nat,
      (fireTimer t h (step now s (Event.binaryFrame d))).isAudioComplete = true ∧
      (fireTimer t h (step now s (Event.binaryFrame d))).completionNotices
        = s.completionNotices ∧
      (fireTimer t h (step now s (Event.binaryFrame d))).assistantAudioChunks
        = s.assistantAudioChunks ++ [d]) := by
  simp only [step]
  have hflag : (onBinaryMessage now d s).isAudioComplete = true :=
    (onBinary_complete now d s).trans hc
  refine ⟨onBinary_chunks now d s hd, onBinary_blob now d s hd,
    Blob.size_ofParts_append _ _, hflag, ?_⟩
  intro t h
  obtain ⟨f1, f2, f3, _⟩ := fireTimer_of_complete t h _ hflag
  exact ⟨f1, f2.trans (onBinary_logs now d s).2, f3.trans (onBinary_chunks now d s hd)⟩

/-- Witness for C14 (amended): the late two-byte chunk of the counterexample run. -/
theorem late_chunk_is_appended_witness :
    (step 3500
        (run State.initial
          [(0, Event.textFrame (some (intentMsg "chat"))),
           (10, Event.binaryFrame [1, 2, 3]),
           (3010, Event.timeout 1)])
        (Event.binaryFrame [4, 5])).assistantAudioChunks = [[1, 2, 3], [4, 5]] ∧
    (fireTimer 6500 2
        (step 3500
          (run State.initial
            [(0, Event.textFrame (some (intentMsg "chat"))),
             (10, Event.binaryFrame [1, 2, 3]),
             (3010, Event.timeout 1)])
          (Event.binaryFrame [4, 5]))).completionNotices = [3010] := by
  have h := late_chunk_is_appended
    (run State.initial
      [(0, Event.textFrame (some (intentMsg "chat"))),
       (10, Event.binaryFrame [1, 2, 3]),
       (3010, Event.timeout 1)])
    3500 [4, 5] (by rfl) (by decide)
  exact ⟨h.1, (h.2.2.2.2 6500 2).2.1⟩

/-! ## Leftover audio when the connection closes -/

theorem createOrUpdate_currentId_isSome (now : Nat) (b : Option Blob) (c : Bool) (s : State) :
    (createOrUpdateAssistantAudioMessage now b c s).currentAssistantAudioMessageId.isSome
      = true := by
  cases hcur : currentMsg s with
  | none =>
      rw [createOrUpdate_of_not_found now b c s hcur]
      obtain ⟨cm, cam, ou, us, hf⟩ := createNewMessage_frame now b c
        { s with chatMessages := removeFirst Element.isLoading s.chatMessages }
      rw [hf]
      rfl
  | some m =>
      unfold currentMsg at hcur
      cases hid : s.currentAssistantAudioMessageId with
      | none =>
          rw [hid] at hcur
          exact Option.noConfusion hcur
      | some t =>
          rw [hid] at hcur
          change findAssistant t s.chatMessages = some m at hcur
          rw [createOrUpdate_of_found now t m b c s hid hcur]
          obtain ⟨cm, ou, us, hf⟩ := updateExistingMessage_frame t m b c
            { s with chatMessages := removeFirst Element.isLoading s.chatMessages }
          rw [hf]
          simp [hid]

theorem Coupled_of_same (s a : State) (h : Coupled s)
    (h1 : a.assistantAudioChunks = s.assistantAudioChunks)
    (h2 : a.currentAssistantAudioMessageId = s.currentAssistantAudioMessageId) :
    Coupled a := by
  unfold Coupled at *
  rw [h1, h2]
  exact h

theorem Coupled_of_no_chunks (a : State) (h : a.assistantAudioChunks = []) : Coupled a :=
  fun hne => absurd h hne

theorem Coupled_of_current (a : State)
    (h : a.currentAssistantAudioMessageId.isSome = true) : Coupled a :=
  fun _ => h

theorem Coupled_onText (now : Nat) (data : Option JVal) (s : State) (h : Coupled s) :
    Coupled (onTextMessage now data s) := by
  apply onText_cases (fun a => Coupled a)
  · exact h
  · exact Coupled_of_same s _ h rfl rfl
  · intro msg
    obtain ⟨cm, hf⟩ := handleTranscript_frame msg s
    rw [hf]
    exact Coupled_of_same s _ h rfl rfl
  · exact Coupled_of_no_chunks _ (handleIntent_timers now s).2.2.2.1
  · intro msg
    obtain ⟨txt, hf⟩ := handleTextChunk_frame msg s
    rw [hf]
    exact Coupled_of_same s _ h rfl rfl
  · by_cases hc : s.assistantAudioChunks = []
    · rw [handleComplete_of_no_chunks now s hc]
      exact Coupled_of_no_chunks _ hc
    · obtain ⟨s1, b, _, _, _, h4⟩ := handleComplete_view now s hc
      apply Coupled_of_current
      rw [h4]
      exact createOrUpdate_currentId_isSome now (some b) false s1
  · exact Coupled_of_same s _ h rfl rfl

theorem Coupled_completionCallback (now : Nat) (s : State) (h : Coupled s) :
    Coupled (completionCallback now s) := by
  by_cases hguard : s.isAudioComplete = false ∧ s.assistantAudioChunks ≠ []
  · rw [completionCallback_of_guard now s hguard.1 hguard.2]
    exact Coupled_of_current _ (createOrUpdate_currentId_isSome _ _ _ _)
  · rw [completionCallback_of_not_guard now s]
    · exact h
    · by_cases hf : s.isAudioComplete = true
      · exact Or.inl hf
      · right
        by_contra hne
        exact hguard ⟨by simpa using hf, hne⟩

theorem Coupled_step (now : Nat) (s : State) (e : Event) (h : Coupled s) :
    Coupled (step now s e) := by
  cases e with
  | onopen => exact Coupled_of_no_chunks _ rfl
  | textFrame data => exact Coupled_onText now data s h
  | binaryFrame d =>
      by_cases hd : d = []
      · subst hd
        simp only [step, onBinary_empty]
        exact h
      · obtain ⟨s1, b, _, _, _, h4⟩ := onBinary_view now d s hd
        apply Coupled_of_current
        simp only [step]
        rw [h4]
        exact createOrUpdate_currentId_isSome now (some b) false s1
  | onclose => exact Coupled_of_no_chunks _ (onClose_timers now s).2.2.2
  | timeout k =>
      simp only [step]
      cases hfind : s.timers.find? (fun tm => tm.id == k) with
      | none =>
          have : fireTimer now k s = s := by
            unfold fireTimer
            simp only [hfind]
          rw [this]
          exact h
      | some tm =>
          rw [fireTimer_of_pending now k s tm hfind]
          exact Coupled_completionCallback now _ (Coupled_of_same s _ h rfl rfl)
  | toggleText id =>
      obtain ⟨cm, hf⟩ := toggleTextDisplay_frame id s
      simp only [step]
      rw [hf]
      exact Coupled_of_same s _ h rfl rfl
  | disconnect => exact Coupled_of_no_chunks _ (disconnect_timers now s).2.2.2
  | endSpeaking =>
      exact Coupled_of_same s _ h (endSpeaking_timers now s).2.2.2
        (endSpeaking_view now s).2.1

theorem Coupled_run (es : List (Nat × Event)) (s : State) (h : Coupled s) :
    Coupled (run s es) := by
  induction es generalizing s with
  | nil => exact h
  | cons p rest ih => exact ih _ (Coupled_step p.1 s p.2 h)

theorem Coupled_initial : Coupled State.initial := Coupled_of_no_chunks _ rfl

/-- For every state the close handler leaves the page and the object URLs as
they are: the test on line 655 reads the buffer that `resetButtons()` has just
emptied, so its branch is never taken. -/
theorem onClose_leaves_page (now : Nat) (s : State) :
    (onClose now s).chatMessages = s.chatMessages ∧
    (onClose now s).objectUrls = s.objectUrls ∧
    (resetButtons { s with isSessionActive := false, wsReady := false }).assistantAudioChunks
      = [] := by
  refine ⟨?_, ?_, rfl⟩ <;> rw [onClose_eq] <;> rfl

/-- C15, at a close with audio left in the buffer.  The socket opens, delivers
an intent and one chunk of three bytes at 300 ms, and closes at 400 ms.  When
the connection closes the chunk buffer holds that chunk.  `resetButtons()`
(line 653) then sets the id to null and empties the buffer, so the test on
line 655 sees no current message and no chunk and its branch is skipped: the
handler builds no artifact, registers no object URL and adds no message; the
page is exactly as before the close (the one message created at 300 ms, whose
URL holds the three bytes), and the chunk is dropped from the buffer. -/
theorem close_skips_leftover_audio :
    (run State.initial
        [(0, Event.onopen),
         (100, Event.textFrame (some (intentMsg "chat"))),
         (300, Event.binaryFrame [1, 2, 3])]).assistantAudioChunks = [[1, 2, 3]] ∧
    (run State.initial
        [(0, Event.onopen),
         (100, Event.textFrame (some (intentMsg "chat"))),
         (300, Event.binaryFrame [1, 2, 3])]).currentAssistantAudioMessageId = some 300 ∧
    (resetButtons
        { run State.initial
            [(0, Event.onopen),
             (100, Event.textFrame (some (intentMsg "chat"))),
             (300, Event.binaryFrame [1, 2, 3])] with
          isSessionActive := false, wsReady := false }).assistantAudioChunks = [] ∧
    (resetButtons
        { run State.initial
            [(0, Event.onopen),
             (100, Event.textFrame (some (intentMsg "chat"))),
             (300, Event.binaryFrame [1, 2, 3])] with
          isSessionActive := false, wsReady := false }).currentAssistantAudioMessageId
      = none ∧
    (run State.initial
        [(0, Event.onopen),
         (100, Event.textFrame (some (intentMsg "chat"))),
         (300, Event.binaryFrame [1, 2, 3]),
         (400, Event.onclose)]).chatMessages
      = (run State.initial
          [(0, Event.onopen),
           (100, Event.textFrame (some (intentMsg "chat"))),
           (300, Event.binaryFrame [1, 2, 3])]).chatMessages ∧
    (assistants (run State.initial
        [(0, Event.onopen),
         (100, Event.textFrame (some (intentMsg "chat"))),
         (300, Event.binaryFrame [1, 2, 3]),
         (400, Event.onclose)]).chatMessages).map (fun m => (m.t, m.audio.audioUrl))
      = [(300, some 1)] ∧
    (run State.initial
        [(0, Event.onopen),
         (100, Event.textFrame (some (intentMsg "chat"))),
         (300, Event.binaryFrame [1, 2, 3]),
         (400, Event.onclose)]).objectUrls = [(1, Blob.ofParts [[1, 2, 3]])] ∧
    (run State.initial
        [(0, Event.onopen),
         (100, Event.textFrame (some (intentMsg "chat"))),
         (300, Event.binaryFrame [1, 2, 3]),
         (400, Event.onclose)]).assistantAudioBlob = none ∧
    (run State.initial
        [(0, Event.onopen),
         (100, Event.textFrame (some (intentMsg "chat"))),
         (300, Event.binaryFrame [1, 2, 3]),
         (400, Event.onclose)]).assistantAudioChunks = [] := by
  refine ⟨by rfl, by rfl, by rfl, by rfl, by rfl, by rfl, by rfl, by rfl, by rfl⟩

end DeviceSim
